import Mathlib

/-!
# Substance plugin: graph descriptors, graph instances and reimport matching

A shallow embedding of `SubstanceFGraph.cpp` and of the matching part of
`SubstanceFactory.cpp`.

Conventions of the embedding

* A C++ pointer is an `Option Nat`: `none` is the null pointer, `some a` is the
  address `a`, an index into the corresponding table of `World`.
* A function that can hit a failed `check(...)` or dereference a null pointer
  returns an `Option`; `none` is the abort.
* `Substance::List<T>` and `TArray<T>` are Lean lists; `push` appends at the
  end (the constructor of `FGraphInstance` reads the element it has just pushed
  through `Last()`), `Remove(x)` drops every element equal to `x`.
* `uint32` unique ids are `Nat`; `int32` counters are `Int`.  The counters count
  list entries, which an engine array indexes with an `int32`, so they stay below
  `2^31` and no wrap-around is modelled.
-/

namespace Substance

/-- FString of the engine. -/
abbrev FString := String

/-! ## Input and output descriptors -/

/-- The part of a `UObject` that `getDefaultHeavyInputHash` reads through the
`ImageSource` pointer: `GetFullName()` and `IsPendingKill()`. -/
structure UObject where
  FullName : FString
  bPendingKill : Bool
deriving DecidableEq, Repr

/-- The `Type` tag of an input descriptor (`SubstanceInputType`) together with the
`DefaultValue` of the matching `FNumericalInputDesc<T>`.  A `float` is kept as the
bit pattern of the binary32 value: the only thing the code does with it is to hand
it to `Printf("%f")`.  `Image` carries what the hash reads as `Input->ImageSource`.
`Other` stands for the tags that fall into the `default:` branch of the switch. -/
inductive InputDefault where
  | Float (X : Nat)
  | Float2 (X Y : Nat)
  | Float3 (X Y Z : Nat)
  | Float4 (X Y Z W : Nat)
  | Integer (X : Int)
  | Integer2 (X Y : Int)
  | Integer3 (X Y Z : Int)
  | Integer4 (X Y Z W : Int)
  | Image (ImageSource : Option UObject)
  | Other (Tag : Nat)
deriving DecidableEq, Repr

/-- Values of the enumeration `SubstanceInputType`. -/
inductive SubstanceInputType where
  | Substance_IType_Float
  | Substance_IType_Float2
  | Substance_IType_Float3
  | Substance_IType_Float4
  | Substance_IType_Integer
  | Substance_IType_Integer2
  | Substance_IType_Integer3
  | Substance_IType_Integer4
  | Substance_IType_Image
  | Substance_IType_Other (Tag : Nat)
deriving DecidableEq, Repr

/-- The type tag that goes with a default value. -/
def InputDefault.InputType : InputDefault → SubstanceInputType
  | .Float _ => .Substance_IType_Float
  | .Float2 _ _ => .Substance_IType_Float2
  | .Float3 _ _ _ => .Substance_IType_Float3
  | .Float4 _ _ _ _ => .Substance_IType_Float4
  | .Integer _ => .Substance_IType_Integer
  | .Integer2 _ _ => .Substance_IType_Integer2
  | .Integer3 _ _ _ => .Substance_IType_Integer3
  | .Integer4 _ _ _ _ => .Substance_IType_Integer4
  | .Image _ => .Substance_IType_Image
  | .Other t => .Substance_IType_Other t

/-- Input descriptor (`input_desc_t`). -/
structure FInputDesc where
  Uid : Nat
  Identifier : FString
  Label : FString
  IsHeavyDuty : Bool
  DefaultValue : InputDefault
  AlteredOutputUids : List Nat
deriving DecidableEq, Repr

/-- The `Type` field of an input descriptor. -/
def FInputDesc.InputType (d : FInputDesc) : SubstanceInputType := d.DefaultValue.InputType

/-- Output descriptor (`FOutputDesc`). -/
structure FOutputDesc where
  Uid : Nat
  Identifier : FString
  Label : FString
  Format : Nat
  Channel : Nat
deriving DecidableEq, Repr

/-! ## Input and output instances -/

/-- Output instance (`output_inst_t`).  `Texture` is the pointer held inside the
shared texture handle; `ParentInstance` is the container back-reference. -/
structure FOutputInstance where
  Uid : Nat
  Format : Nat
  bIsEnabled : Bool
  bIsDirty : Bool
  Texture : Option Nat
  ParentInstance : Option Nat
deriving DecidableEq, Repr

/-- The two kinds of input instance: `FNumericalInputInstance<T>` with its value
(component-wise) and `FImageInputInstance` with its image source pointer and its
prepared image. -/
inductive InputState where
  | Numerical (Value : List Int)
  | Image (ImageSource : Option Nat) (ImageInput : Option Nat)
deriving DecidableEq, Repr

/-- Input instance (`input_inst_t`): uid, descriptor back-reference, owner
back-reference and the kind-specific state. -/
structure FInputInstance where
  Uid : Nat
  Desc : FInputDesc
  Parent : Option Nat
  State : InputState
deriving DecidableEq, Repr

/-- Virtual `IsNumerical()`. -/
def FInputInstance.IsNumerical (i : FInputInstance) : Bool :=
  match i.State with
  | .Numerical _ => true
  | .Image _ _ => false

/-- Field `ImageSource` of an input instance read as an `FImageInputInstance`. -/
def FInputInstance.ImageSource (i : FInputInstance) : Option Nat :=
  match i.State with
  | .Numerical _ => none
  | .Image src _ => src

/-! ## Graph descriptors, graph instances and the objects around them -/

/-- Graph descriptor (`graph_desc_t`).  `LoadedInstances` holds graph instance
addresses, `InstanceUids` the known instance identifiers, `Parent` the package. -/
structure FGraphDesc where
  PackageUrl : FString
  Label : FString
  InputDescs : List FInputDesc
  OutputDescs : List FOutputDesc
  LoadedInstances : List Nat
  InstanceUids : List Nat
  Parent : Option Nat
  SortedOutputs : List (Nat × Nat)
  SortedInputs : List (Nat × Nat)
deriving DecidableEq, Repr

/-- Graph instance (`graph_inst_t`).  `Desc` is the descriptor pointer,
`ParentInstance` the container pointer, `States` the attached observers. -/
structure FGraphInstance where
  ParentUrl : FString
  Desc : Option Nat
  ParentInstance : Option Nat
  bIsFreezed : Bool
  bIsBaked : Bool
  bHasPendingImageInputRendering : Bool
  Inputs : List FInputInstance
  Outputs : List FOutputInstance
  InstanceGuid : Nat
  States : List Nat
deriving DecidableEq, Repr

/-- Package (`FPackage`) as far as the descriptor code touches it: the counter of
loaded instances and the pointer to the owning instance factory. -/
structure FPackage where
  LoadedInstancesCount : Int
  Parent : Option Nat
deriving DecidableEq, Repr

/-- Container object (`USubstanceGraphInstance`): the bound graph instance, the
owning instance factory, the `RF_Standalone` object flag and the dirty mark of its
package. -/
structure USubstanceGraphInstance where
  Instance : Option Nat
  Parent : Option Nat
  RF_Standalone : Bool
  bPackageDirty : Bool
deriving DecidableEq, Repr

/-- The object graph: every table is indexed by address. -/
structure World where
  Packages : List FPackage
  Descs : List FGraphDesc
  Instances : List FGraphInstance
  Containers : List USubstanceGraphInstance
deriving DecidableEq, Repr

/-- Modelled from the spec: `FPackage::InstanceSubscribed` belongs to
`SubstanceFPackage`, whose body is not among the files verified here; "subscribing
increments the owning package's loaded-instance counter". -/
def FPackage.InstanceSubscribed (p : FPackage) : FPackage :=
  { p with LoadedInstancesCount := p.LoadedInstancesCount + 1 }

/-- Modelled from the spec: `FPackage::InstanceUnSubscribed` belongs to
`SubstanceFPackage`, whose body is not among the files verified here; UnSubscribe
"decrements package counter". -/
def FPackage.InstanceUnSubscribed (p : FPackage) : FPackage :=
  { p with LoadedInstancesCount := p.LoadedInstancesCount - 1 }

/-- The container method `ClearFlags(RF_Standalone)`. -/
def USubstanceGraphInstance.ClearFlags_RF_Standalone
    (c : USubstanceGraphInstance) : USubstanceGraphInstance :=
  { c with RF_Standalone := false }

/-- The array method `AddUnique`: append unless already present. -/
def AddUnique (l : List Nat) (x : Nat) : List Nat :=
  if x ∈ l then l else l ++ [x]

/-- The statement `if (InstanceUids.FindItem(guid, Idx)) InstanceUids.AddUnique(guid)`
of Subscribe: the identifier is added again only when it is already there. -/
def Subscribe_InstanceUids (InstanceUids : List Nat) (InstanceGuid : Nat) : List Nat :=
  if InstanceGuid ∈ InstanceUids then AddUnique InstanceUids InstanceGuid else InstanceUids

/-- `FGraphDesc::Subscribe`.  Both `check`s test the same lookup: the instance
must not be in `LoadedInstances`. -/
def FGraphDesc.Subscribe (w : World) (this Inst : Nat) : Option World := do
  let d ← w.Descs[this]?
  let i ← w.Instances[Inst]?
  if Inst ∈ d.LoadedInstances then none
  else
    let d1 := { d with
      LoadedInstances := d.LoadedInstances ++ [Inst]
      InstanceUids := Subscribe_InstanceUids d.InstanceUids i.InstanceGuid }
    let p ← d1.Parent
    let pkg ← w.Packages[p]?
    pure { w with
      Descs := w.Descs.set this d1
      Packages := w.Packages.set p pkg.InstanceSubscribed }

/-- `FGraphDesc::UnSubscribe`. -/
def FGraphDesc.UnSubscribe (w : World) (this Inst : Nat) : Option World := do
  let d ← w.Descs[this]?
  let i ← w.Instances[Inst]?
  if i.Desc ≠ some this then none
  else
    let d1 := { d with LoadedInstances := d.LoadedInstances.filter (fun x => x ≠ Inst) }
    let p ← d1.Parent
    let pkg ← w.Packages[p]?
    let i1 := { i with Desc := none }
    let w1 : World := { w with
      Descs := w.Descs.set this d1
      Packages := w.Packages.set p pkg.InstanceUnSubscribed
      Instances := w.Instances.set Inst i1 }
    match i1.ParentInstance with
    | none => pure w1
    | some c =>
      let cont ← w1.Containers[c]?
      pure { w1 with Containers := w1.Containers.set c cont.ClearFlags_RF_Standalone }

/-- Modelled from the spec: `FOutputDesc::Instantiate` belongs to `SubstanceFOutput`,
whose body is not among the files verified here.  The output instance has its "Uid
copied from descriptor" and the declared pixel format, and "starts
disabled/default": no texture, no container yet. -/
def FOutputDesc.Instantiate (d : FOutputDesc) : FOutputInstance :=
  { Uid := d.Uid, Format := d.Format, bIsEnabled := false, bIsDirty := true,
    Texture := none, ParentInstance := none }

/-- Modelled from the spec: the `Instantiate` of the input descriptors belongs to
`SubstanceInput`, whose body is not among the files verified here.  Instances are
"created fresh at instantiation by cloning descriptor-default values": a numerical
instance takes the default value component by component, an image instance starts
without image; the instance carries the uid and a back-reference to its
descriptor. -/
def FInputDesc.Instantiate (d : FInputDesc) : FInputInstance :=
  { Uid := d.Uid, Desc := d, Parent := none,
    State :=
      match d.DefaultValue with
      | .Float x => .Numerical [x]
      | .Float2 x y => .Numerical [x, y]
      | .Float3 x y z => .Numerical [x, y, z]
      | .Float4 x y z t => .Numerical [x, y, z, t]
      | .Integer x => .Numerical [x]
      | .Integer2 x y => .Numerical [x, y]
      | .Integer3 x y z => .Numerical [x, y, z]
      | .Integer4 x y z t => .Numerical [x, y, z, t]
      | .Image _ => .Image none none
      | .Other _ => .Numerical [] }

/-- The constructor `FGraphInstance::FGraphInstance(GraphDesc, Parent)`.  The new
object is allocated at the first free address; `NewGuid` is the value returned by
`FGuid::NewGuid()`.  Returns the world and the address of the new instance. -/
def FGraphInstance.construct (w : World) (GraphDesc Parent : Option Nat) (NewGuid : Nat) :
    Option (World × Nat) := do
  let this := w.Instances.length
  -- check(ParentInstance); check(GraphDesc); check(GraphDesc->Parent)
  let c ← Parent
  let g ← GraphDesc
  let d ← w.Descs[g]?
  let p ← d.Parent
  let pkg ← w.Packages[p]?
  let cont ← w.Containers[c]?
  -- check(ParentInstance->Instance == 0)
  if cont.Instance ≠ none then none
  else
    let Outputs := d.OutputDescs.map (fun o => { o.Instantiate with ParentInstance := Parent })
    let Inputs := d.InputDescs.map (fun i => { i.Instantiate with Parent := some this })
    let inst : FGraphInstance :=
      { ParentUrl := d.PackageUrl, Desc := GraphDesc, ParentInstance := Parent,
        bIsFreezed := true, bIsBaked := false, bHasPendingImageInputRendering := false,
        Inputs := Inputs, Outputs := Outputs, InstanceGuid := NewGuid, States := [] }
    pure ({ w with
      Instances := w.Instances ++ [inst]
      Containers := w.Containers.set c { cont with Instance := some this, Parent := pkg.Parent } },
      this)

/-- The body of `FGraphDesc::Instantiate` up to the test of `bSubscribeInstance`:
construction, the frozen flag, the registration of the identifier and the optional
creation of the output textures.  `CreateTextures` stands for
`Helpers::CreateTextures`, of which `SubstanceCoreHelpers.h` gives the declaration
only; it works on the outputs of the new instance. -/
def FGraphDesc.Instantiate_create (CreateTextures : List FOutputInstance → List FOutputInstance)
    (w : World) (this : Nat) (Parent : Option Nat)
    (bCreateOutputs bDynamicInstance : Bool) (NewGuid : Nat) :
    Option (World × Nat) := do
  let (w1, NewInstance) ← FGraphInstance.construct w (some this) Parent NewGuid
  let i ← w1.Instances[NewInstance]?
  let i1 := { i with bIsFreezed := !bDynamicInstance }
  -- register the new instance to the desc
  let d ← w1.Descs[this]?
  let d1 := { d with InstanceUids := AddUnique d.InstanceUids i1.InstanceGuid }
  let i2 := if bCreateOutputs then { i1 with Outputs := CreateTextures i1.Outputs } else i1
  pure ({ w1 with
    Instances := w1.Instances.set NewInstance i2
    Descs := w1.Descs.set this d1 }, NewInstance)

/-- `FGraphDesc::Instantiate`. -/
def FGraphDesc.Instantiate (CreateTextures : List FOutputInstance → List FOutputInstance)
    (w : World) (this : Nat) (Parent : Option Nat)
    (bCreateOutputs bSubscribeInstance bDynamicInstance : Bool) (NewGuid : Nat) :
    Option (World × Nat) := do
  let (w2, NewInstance) ←
    FGraphDesc.Instantiate_create CreateTextures w this Parent bCreateOutputs bDynamicInstance
      NewGuid
  if bSubscribeInstance then
    let w3 ← FGraphDesc.Subscribe w2 this NewInstance
    pure (w3, NewInstance)
  else
    pure (w2, NewInstance)

/-! ## Reachable states of the subscription bookkeeping -/

/-- A world right after the packages have been loaded: descriptors exist, no graph
instance has been created yet and no live-instance list has an entry. -/
def World.FreshlyLoaded (w : World) : Prop :=
  w.Instances = [] ∧ ∀ d ∈ w.Descs, d.LoadedInstances = []

/-- The instance at address `k` is detached, or it points to a descriptor whose
live-instance list contains `k`. -/
def InstanceAttached (w : World) (k : Nat) (i : FGraphInstance) : Prop :=
  i.Desc = none ∨ ∃ D d, i.Desc = some D ∧ w.Descs[D]? = some d ∧ k ∈ d.LoadedInstances

/-- Every graph instance of the world is detached or listed by the descriptor it
points to. -/
def World.DescInvariant (w : World) : Prop :=
  ∀ k i, w.Instances[k]? = some i → InstanceAttached w k i

/-- States reached from a freshly loaded world by calls of Instantiate, Subscribe
and UnSubscribe that do not abort.  With `subscribeAlways = true` only the calls
of Instantiate that pass `bSubscribeInstance = true` are taken. -/
inductive Reachable (CreateTextures : List FOutputInstance → List FOutputInstance)
    (subscribeAlways : Bool) : World → Prop where
  | fresh (w : World) : w.FreshlyLoaded → Reachable CreateTextures subscribeAlways w
  | Instantiate (w w1 : World) (D : Nat) (Parent : Option Nat)
      (bCreateOutputs bSubscribeInstance bDynamicInstance : Bool) (NewGuid I : Nat) :
      Reachable CreateTextures subscribeAlways w →
      (subscribeAlways = true → bSubscribeInstance = true) →
      FGraphDesc.Instantiate CreateTextures w D Parent bCreateOutputs bSubscribeInstance
        bDynamicInstance NewGuid = some (w1, I) →
      Reachable CreateTextures subscribeAlways w1
  | Subscribe (w w1 : World) (D I : Nat) :
      Reachable CreateTextures subscribeAlways w →
      FGraphDesc.Subscribe w D I = some w1 →
      Reachable CreateTextures subscribeAlways w1
  | UnSubscribe (w w1 : World) (D I : Nat) :
      Reachable CreateTextures subscribeAlways w →
      FGraphDesc.UnSubscribe w D I = some w1 →
      Reachable CreateTextures subscribeAlways w1

/-- A descriptor without inputs and outputs, owned by package 0, nothing subscribed. -/
def emptyDesc : FGraphDesc :=
  { PackageUrl := "pkg://a", Label := "a", InputDescs := [], OutputDescs := [],
    LoadedInstances := [], InstanceUids := [], Parent := some 0,
    SortedOutputs := [], SortedInputs := [] }

/-- A container that is bound to no graph instance. -/
def freeContainer : USubstanceGraphInstance :=
  { Instance := none, Parent := none, RF_Standalone := true, bPackageDirty := false }

/-- One package, one descriptor, one free container, no instance. -/
def freshWorld : World :=
  { Packages := [{ LoadedInstancesCount := 0, Parent := some 0 }],
    Descs := [emptyDesc], Instances := [], Containers := [freeContainer] }

/-- A graph instance of descriptor 0 bound to container 0, not subscribed. -/
def looseInstance : FGraphInstance :=
  { ParentUrl := "pkg://a", Desc := some 0, ParentInstance := some 0,
    bIsFreezed := true, bIsBaked := false, bHasPendingImageInputRendering := false,
    Inputs := [], Outputs := [], InstanceGuid := 7, States := [] }

/-- The fresh world after the construction of `looseInstance`. -/
def looseWorld : World :=
  { freshWorld with
    Instances := [looseInstance]
    Containers := [{ freeContainer with Instance := some 0, Parent := some 0 }] }

/-- The fresh world after Instantiate with `bSubscribeInstance = true`. -/
def subscribedWorld : World :=
  { Packages := [{ LoadedInstancesCount := 1, Parent := some 0 }],
    Descs := [{ emptyDesc with LoadedInstances := [0], InstanceUids := [7] }],
    Instances := [looseInstance],
    Containers := [{ freeContainer with Instance := some 0, Parent := some 0 }] }

/-! ## The hash of the heavy input defaults -/

/-- The conversion `%d` of `Printf` applied to an `int32`: the decimal digits,
after a minus sign when the value is negative. -/
def Printf_d (x : Int) : FString :=
  match x with
  | .ofNat n => Nat.repr n
  | .negSucc n => "-" ++ Nat.repr (n + 1)

/-- The text that one heavy input adds to the hash: the `switch` on the input type
in `getDefaultHeavyInputHash`.  `Printf_f` is the conversion `%f` of `Printf`
applied to a `float`; it belongs to the platform.  In the image case the full
name is taken when the source is non-null and `IsPendingKill()` holds, and the
text `NoImage;` otherwise. -/
def FInputDesc.HeavyInputHash (Printf_f : Nat → FString) (Input : FInputDesc) : FString :=
  match Input.DefaultValue with
  | .Float x => Printf_f x ++ ";"
  | .Float2 x y => Printf_f x ++ Printf_f y ++ ";"
  | .Float3 x y z => Printf_f x ++ Printf_f y ++ Printf_f z ++ ";"
  | .Float4 x y z t => Printf_f x ++ Printf_f y ++ Printf_f z ++ Printf_f t ++ ";"
  | .Integer x => Printf_d x ++ ";"
  | .Integer2 x y => Printf_d x ++ Printf_d y ++ ";"
  | .Integer3 x y z => Printf_d x ++ Printf_d y ++ Printf_d z ++ ";"
  | .Integer4 x y z t => Printf_d x ++ Printf_d y ++ Printf_d z ++ Printf_d t ++ ";"
  | .Image ImageSource =>
    match ImageSource with
    | some o => if o.bPendingKill then o.FullName else "NoImage;"
    | none => "NoImage;"
  | .Other _ => ""

/-- The loop of `getDefaultHeavyInputHash` over the input descriptors that are
left, with the hash built so far. -/
def getDefaultHeavyInputHash_loop (Printf_f : Nat → FString) :
    List FInputDesc → FString → FString
  | [], Hash => Hash
  | Input :: rest, Hash =>
    if Input.IsHeavyDuty then
      getDefaultHeavyInputHash_loop Printf_f rest (Hash ++ Input.HeavyInputHash Printf_f)
    else
      getDefaultHeavyInputHash_loop Printf_f rest Hash

/-- `FGraphDesc::getDefaultHeavyInputHash`. -/
def FGraphDesc.getDefaultHeavyInputHash (Printf_f : Nat → FString) (this : FGraphDesc) :
    FString :=
  getDefaultHeavyInputHash_loop Printf_f this.InputDescs ""

/-- Two input descriptors that are the same but, possibly, for the default value
of an input that is not flagged heavy. -/
def SameButLightDefault (a b : FInputDesc) : Prop :=
  a = b ∨ (a.IsHeavyDuty = false ∧ ∃ v, b = { a with DefaultValue := v })

/-- Two input descriptors that are the same but, possibly, for the default value
of a heavy input of type Integer. -/
def SameButHeavyIntegerDefault (a b : FInputDesc) : Prop :=
  a = b ∨ (a.IsHeavyDuty = true ∧
    ∃ x y, a.DefaultValue = .Integer x ∧ b = { a with DefaultValue := .Integer y })

/-- An input descriptor with the given uid, heavy flag and default value. -/
def mkInput (Uid : Nat) (IsHeavyDuty : Bool) (DefaultValue : InputDefault) : FInputDesc :=
  { Uid := Uid, Identifier := "in", Label := "In", IsHeavyDuty := IsHeavyDuty,
    DefaultValue := DefaultValue, AlteredOutputUids := [] }

/-- A descriptor with the given input descriptors and nothing else. -/
def descOfInputs (InputDescs : List FInputDesc) : FGraphDesc :=
  { emptyDesc with InputDescs := InputDescs }

/-- A `%f` conversion used in examples: every value prints as `0.000000`. -/
def Printf_f_zero : Nat → FString := fun _ => "0.000000"

/-- Value of a decimal digit character. -/
def digitValue (c : Char) : Nat := c.toNat - 48

/-- Reading a decimal text back, most significant digit first. -/
def parseDecimal (l : List Char) : Nat := l.foldl (fun acc c => 10 * acc + digitValue c) 0

/-- A live image asset: not pending kill. -/
def liveImage : UObject :=
  { FullName := "SubstanceImageInput /Game/Wood.Wood", bPendingKill := false }

/-! ## Image input updates -/

/-- The collaborators of `UpdateInput` whose bodies are not among the files
verified here.  `GetParentGraph` is `FOutputInstance::GetParentGraph` (null when the graph
is not found), `PrepareImageInput` is `Helpers::PrepareImageInput`, `raisesPending`
tells whether `SetImageInput` raises the pending-render flag of the instance, and
`FStringEq` is the operator `==` of the engine strings. -/
structure Engine where
  GetParentGraph : FOutputInstance → Option FGraphDesc
  PrepareImageInput : Option Nat → Option Nat
  raisesPending : FGraphInstance → FInputInstance → Option Nat → Bool
  FStringEq : FString → FString → Bool

/-- What `UpdateInput` reads and writes: the graph instance, the dirty mark of the
package of its container (`ParentInstance->MarkPackageDirty()`), and the record of
the outputs that went through `flagAsDirty()`, each with its position in `Outputs`
and the texture that received `MarkPackageDirty()`, in call order. -/
structure UpdateState where
  Instance : FGraphInstance
  bContainerDirty : Bool
  Marked : List (Nat × Nat)
deriving DecidableEq, Repr

/-- The loop of `FGraphInstance::GetOutput(Uid)` from position `Idx` on: the first
output with that uid, with its position. -/
def GetOutput_loop (Uid : Nat) : List FOutputInstance → Nat → Option (Nat × FOutputInstance)
  | [], _ => none
  | o :: rest, Idx => if Uid = o.Uid then some (Idx, o) else GetOutput_loop Uid rest (Idx + 1)

/-- `FGraphInstance::GetOutput(Uid)`: the pointer is the position in `Outputs`,
given with the output it points to; `none` is the null pointer. -/
def FGraphInstance.GetOutput (this : FGraphInstance) (Uid : Nat) :
    Option (Nat × FOutputInstance) :=
  GetOutput_loop Uid this.Outputs 0

/-- The loop of `FGraphInstance::GetInput(Uid)`, which is also the search loop at
the head of `SetImageInputHelper`: the first input instance with that uid, with its
position. -/
def GetInput_loop (Uid : Nat) : List FInputInstance → Nat → Option (Nat × FInputInstance)
  | [], _ => none
  | i :: rest, Idx => if i.Uid = Uid then some (Idx, i) else GetInput_loop Uid rest (Idx + 1)

/-- The method `flagAsDirty()` of an output instance. -/
def FOutputInstance.flagAsDirty (o : FOutputInstance) : FOutputInstance :=
  { o with bIsDirty := true }

/-- Modelled from the spec: `FImageInputInstance::SetImageInput` belongs to
`SubstanceInput`, whose body is not among the files verified here.  It has to "set
the new image source": the input keeps `InValue` as image source and its prepared
form as image input.  The spec gives the call no other effect; the model lets it
raise the pending-render flag of the instance as well, through `raisesPending`,
and never lower it, so that a call that leaves the flag alone is one case of the
model.  Returns the input instance and the flag after the call. -/
def FImageInputInstance.SetImageInput (E : Engine) (this : FInputInstance)
    (InValue : Option Nat) (Instance : FGraphInstance) : FInputInstance × Bool :=
  ({ this with State := .Image InValue (E.PrepareImageInput InValue) },
    Instance.bHasPendingImageInputRendering || E.raisesPending Instance this InValue)

/-- The loop of `SetImageInputHelper` over `InputDesc->AlteredOutputUids`, with the
count so far.  An enabled output whose texture pointer is null makes the call
dereference a null pointer. -/
def SetImageInputHelper_outputs :
    List Nat → UpdateState → Int → Option (Int × UpdateState)
  | [], s, ModifiedOuputs => some (ModifiedOuputs, s)
  | Uid :: rest, s, ModifiedOuputs =>
    match s.Instance.GetOutput Uid with
    | none => SetImageInputHelper_outputs rest s ModifiedOuputs
    | some (Idx, OutputModified) =>
      if OutputModified.bIsEnabled then
        match OutputModified.Texture with
        | none => none
        | some Texture =>
          SetImageInputHelper_outputs rest
            { s with
              Instance := { s.Instance with
                Outputs := s.Instance.Outputs.set Idx OutputModified.flagAsDirty }
              Marked := s.Marked ++ [(Idx, Texture)] }
            (ModifiedOuputs + 1)
      else SetImageInputHelper_outputs rest s ModifiedOuputs

/-- `SetImageInputHelper(InputDesc, InValue, Instance)`. -/
def SetImageInputHelper (E : Engine) (InputDesc : FInputDesc) (InValue : Option Nat)
    (s : UpdateState) : Option (Int × UpdateState) :=
  match GetInput_loop InputDesc.Uid s.Instance.Inputs 0 with
  | none => none
  | some (Idx, InputInst) =>
    if InputInst.IsNumerical then none
    else
      let r := FImageInputInstance.SetImageInput E InputInst InValue s.Instance
      let s1 : UpdateState := { s with
        Instance := { s.Instance with
          Inputs := s.Instance.Inputs.set Idx r.1
          bHasPendingImageInputRendering := r.2 } }
      if !s1.Instance.bHasPendingImageInputRendering then some (0, s1)
      else
        match SetImageInputHelper_outputs InputDesc.AlteredOutputUids s1 0 with
        | none => none
        | some (ModifiedOuputs, s2) =>
          if ModifiedOuputs ≠ 0 then
            match s2.Instance.ParentInstance with
            | none => none
            | some _ => some (ModifiedOuputs, { s2 with bContainerDirty := true })
          else some (0, s2)

/-- The loop of the branch `Uid == 0` of `UpdateInput` over the positions of
`Inputs` that are left: every image input whose source is `InValue` is updated
through its own descriptor. -/
def UpdateInput_reimported (E : Engine) (InValue : Option Nat) :
    List Nat → UpdateState → Int → Option (Int × UpdateState)
  | [], s, ModifiedOuputs => some (ModifiedOuputs, s)
  | Idx :: rest, s, ModifiedOuputs =>
    match s.Instance.Inputs[Idx]? with
    | none => none
    | some ItIn =>
      if !ItIn.IsNumerical && ItIn.ImageSource == InValue then
        match SetImageInputHelper E ItIn.Desc InValue s with
        | none => none
        | some (n, s1) => UpdateInput_reimported E InValue rest s1 (ModifiedOuputs + n)
      else UpdateInput_reimported E InValue rest s ModifiedOuputs

/-- The loop of `UpdateInput` over the input descriptors of the parent graph that
are left: every descriptor selected by `sel` (same uid, or same identifier) is
updated. -/
def UpdateInput_descs (E : Engine) (sel : FInputDesc → Bool) (InValue : Option Nat) :
    List FInputDesc → UpdateState → Int → Option (Int × UpdateState)
  | [], s, ModifiedOuputs => some (ModifiedOuputs, s)
  | ItInDesc :: rest, s, ModifiedOuputs =>
    if sel ItInDesc then
      match SetImageInputHelper E ItInDesc InValue s with
      | none => none
      | some (n, s1) => UpdateInput_descs E sel InValue rest s1 (ModifiedOuputs + n)
    else UpdateInput_descs E sel InValue rest s ModifiedOuputs

/-- `FGraphInstance::UpdateInput(const uint32& Uid, UObject* InValue)`.  Reading
`Outputs[0]` aborts on an empty output list; the parent graph is dereferenced only
in the branch `Uid != 0`. -/
def FGraphInstance.UpdateInput (E : Engine) (s : UpdateState) (Uid : Nat)
    (InValue : Option Nat) : Option (Int × UpdateState) :=
  match s.Instance.Outputs with
  | [] => none
  | o :: _ =>
    let ParentGraph := E.GetParentGraph o
    if Uid = 0 then
      UpdateInput_reimported E InValue (List.range s.Instance.Inputs.length) s 0
    else
      match ParentGraph with
      | none => none
      | some g => UpdateInput_descs E (fun d => d.Uid == Uid) InValue g.InputDescs s 0

/-- `FGraphInstance::UpdateInput(const FString& ParameterName, UObject* InValue)`. -/
def FGraphInstance.UpdateInput_name (E : Engine) (s : UpdateState) (ParameterName : FString)
    (InValue : Option Nat) : Option (Int × UpdateState) :=
  match s.Instance.Outputs with
  | [] => none
  | o :: _ =>
    match E.GetParentGraph o with
    | none => none
    | some g =>
      UpdateInput_descs E (fun d => E.FStringEq d.Identifier ParameterName) InValue
        g.InputDescs s 0

/-- The effect of a run of image input updates that returns the count `n`: the
record of marked outputs has grown by `n` entries, the container package is dirty
if it was or if `n` is positive, the pending flag has not been lowered, and when
the pending flag is still down at the end, nothing was counted and no output was
touched. -/
def UpdateEffect (s : UpdateState) (n : Int) (s1 : UpdateState) : Prop :=
  (∃ added, s1.Marked = s.Marked ++ added ∧ n = added.length) ∧
  s1.bContainerDirty = (s.bContainerDirty || decide (0 < n)) ∧
  (s.Instance.bHasPendingImageInputRendering = true →
    s1.Instance.bHasPendingImageInputRendering = true) ∧
  (s1.Instance.bHasPendingImageInputRendering = false →
    n = 0 ∧ s1.Instance.Outputs = s.Instance.Outputs)

/-- An image input descriptor with the given uid and altered outputs. -/
def imageDesc (Uid : Nat) (AlteredOutputUids : List Nat) : FInputDesc :=
  { Uid := Uid, Identifier := "image", Label := "Image", IsHeavyDuty := false,
    DefaultValue := .Image none, AlteredOutputUids := AlteredOutputUids }

/-- An image input instance of `imageDesc` with the given image source. -/
def imageInput (Uid : Nat) (AlteredOutputUids : List Nat) (ImageSource : Option Nat) :
    FInputInstance :=
  { Uid := Uid, Desc := imageDesc Uid AlteredOutputUids, Parent := some 0,
    State := .Image ImageSource none }

/-- Output A: uid 10, enabled, clean, with texture 0. -/
def outputA : FOutputInstance :=
  { Uid := 10, Format := 0, bIsEnabled := true, bIsDirty := false, Texture := some 0,
    ParentInstance := some 0 }

/-- Output B: uid 11, disabled, clean, without texture. -/
def outputB : FOutputInstance :=
  { Uid := 11, Format := 0, bIsEnabled := false, bIsDirty := false, Texture := none,
    ParentInstance := some 0 }

/-- A state whose instance has the given inputs and pending flag, the outputs A
and B, a container, and nothing marked. -/
def stateOf (Inputs : List FInputInstance) (bHasPendingImageInputRendering : Bool) :
    UpdateState :=
  { Instance :=
      { ParentUrl := "pkg://a", Desc := some 0, ParentInstance := some 0, bIsFreezed := false,
        bIsBaked := false, bHasPendingImageInputRendering := bHasPendingImageInputRendering,
        Inputs := Inputs, Outputs := [outputA, outputB], InstanceGuid := 7, States := [] },
    bContainerDirty := false, Marked := [] }

/-- An engine whose outputs all belong to the graph with the given input
descriptors; preparing an image keeps its address, `SetImageInput` never raises the
pending flag, strings are compared character by character. -/
def engineOf (InputDescs : List FInputDesc) : Engine :=
  { GetParentGraph := fun _ => some (descOfInputs InputDescs),
    PrepareImageInput := fun v => v,
    raisesPending := fun _ _ _ => false,
    FStringEq := fun a b => a == b }

/-- The image input `imageInput` after `SetImageInput` with the image `v`, for an
engine that keeps the address when it prepares an image. -/
def imageInputSet (Uid : Nat) (AlteredOutputUids : List Nat) (v : Option Nat) :
    FInputInstance :=
  { imageInput Uid AlteredOutputUids v with State := .Image v v }

/-- The state `stateOf Inputs true` after output A has been flagged dirty the
given number of times. -/
def stateFlagged (Inputs : List FInputInstance) (times : Nat) : UpdateState :=
  { Instance :=
      { (stateOf Inputs true).Instance with Outputs := [outputA.flagAsDirty, outputB] },
    bContainerDirty := true, Marked := List.replicate times (0, 0) }

/-- The input instances of a graph instance are well formed: no two of them have
the same uid, and each carries the uid of its descriptor. -/
def InputsWellFormed (Inputs : List FInputInstance) : Prop :=
  (Inputs.map (fun i => i.Uid)).Nodup ∧ ∀ i ∈ Inputs, i.Desc.Uid = i.Uid

/-- The test of the branch `Uid == 0` of `UpdateInput`: an image input whose
current image source is `InValue`. -/
def IsSourcedFrom (InValue : Option Nat) (i : FInputInstance) : Bool :=
  !i.IsNumerical && i.ImageSource == InValue

/-- An input instance after the image update with `InValue`. -/
def ImageUpdated (E : Engine) (InValue : Option Nat) (i : FInputInstance) : FInputInstance :=
  { i with State := .Image InValue (E.PrepareImageInput InValue) }

/-- A numerical input instance with the given uid. -/
def numericalInput (Uid : Nat) : FInputInstance :=
  { Uid := Uid, Desc := mkInput Uid false (.Integer 0), Parent := some 0,
    State := .Numerical [0] }

/-- Three inputs: an image input sourced from image 5 that alters output A, an image
input sourced from image 6 that alters output B, and a numerical input. -/
def mixedInputs : List FInputInstance :=
  [imageInput 1 [10] (some 5), imageInput 2 [11] (some 6), numericalInput 3]

/-- The inputs `mixedInputs` after the image update of the first one. -/
def mixedInputsUpdated : List FInputInstance :=
  [imageInputSet 1 [10] (some 5), imageInput 2 [11] (some 6), numericalInput 3]

/-! ## Reimport: matching a backup to a descriptor -/

/-- The part of `preset_t` that `FindMatch` reads. -/
structure preset_t where
  mPackageUrl : FString
  mLabel : FString
deriving DecidableEq, Repr

/-- `InstanceBackup`: the preset, the container and the map from output uid to
texture name, kept as the list of its entries. -/
structure InstanceBackup where
  Preset : preset_t
  InstanceParent : Option Nat
  UidToName : List (Nat × FString)
deriving DecidableEq, Repr

/-- The engine call `Find(SubStr, ESearchCase::CaseSensitive, ESearchDir::FromEnd)`
on the characters of a string: the start of the last occurrence of `SubStr`. -/
def FString_Find_FromEnd (s SubStr : List Char) : Option Nat :=
  let SearchStringLength := max 1 SubStr.length
  if s.length < SearchStringLength then none
  else
    (List.range (s.length - SearchStringLength + 1)).reverse.find?
      (fun i => SubStr.isPrefixOf (s.drop i))

/-- The engine call `Split(InS, &Left, NULL, ESearchCase::CaseSensitive,
ESearchDir::FromEnd)`: the text on the left of the last occurrence of `InS`, or
`none` when `InS` does not occur, in which case `Left` is not written. -/
def FString_Split_FromEnd (s InS : FString) : Option FString :=
  (FString_Find_FromEnd s.data InS.data).map (fun i => String.mk (s.data.take i))

/-- The local `Left` of the label loop of `FindMatch`: an empty string that the
split overwrites when it finds `_INST`. -/
def FindMatch_Left (Backup : InstanceBackup) : FString :=
  (FString_Split_FromEnd Backup.Preset.mLabel "_INST").getD ""

/-- The counter `OutputMatching` of `FindMatch` for one descriptor: the pairs of a
backup entry and an output descriptor with the same uid. -/
def FindMatch_OutputMatching (Backup : InstanceBackup) (d : FGraphDesc) : Nat :=
  Backup.UidToName.foldl
    (fun n kv => d.OutputDescs.foldl (fun m o => if o.Uid = kv.1 then m + 1 else m) n) 0

/-- The test of the first loop of `FindMatch`: same package URL.  `FStringEq` is
the operator `==` of the engine strings. -/
def FindMatch_url (FStringEq : FString → FString → Bool) (Backup : InstanceBackup)
    (d : FGraphDesc) : Bool :=
  FStringEq Backup.Preset.mPackageUrl d.PackageUrl

/-- The test of the second loop of `FindMatch`: the label is `Left`. -/
def FindMatch_label (FStringEq : FString → FString → Bool) (Backup : InstanceBackup)
    (d : FGraphDesc) : Bool :=
  FStringEq (FindMatch_Left Backup) d.Label

/-- The test of the third loop of `FindMatch`: the counter reaches the size of the
backup map. -/
def FindMatch_outputs (Backup : InstanceBackup) (d : FGraphDesc) : Bool :=
  Backup.UidToName.length == FindMatch_OutputMatching Backup d

/-- One loop of `FindMatch` over the descriptor list from position `Idx` on: the
position of the first descriptor that passes the test. -/
def FindMatch_loop (test : FGraphDesc → Bool) : List FGraphDesc → Nat → Option Nat
  | [], _ => none
  | d :: rest, Idx => if test d then some Idx else FindMatch_loop test rest (Idx + 1)

/-- `FindMatch(Desc, Backup)`: the pointer returned is the position of the
descriptor in the list, `none` is the null pointer. -/
def FindMatch (FStringEq : FString → FString → Bool) (Desc : List FGraphDesc)
    (Backup : InstanceBackup) : Option Nat :=
  match FindMatch_loop (FindMatch_url FStringEq Backup) Desc 0 with
  | some i => some i
  | none =>
    match FindMatch_loop (FindMatch_label FStringEq Backup) Desc 0 with
    | some i => some i
    | none => FindMatch_loop (FindMatch_outputs Backup) Desc 0

/-- The descriptor at position `i` passes the test and no descriptor before it
does. -/
def IsFirstMatch (test : FGraphDesc → Bool) (l : List FGraphDesc) (i : Nat) : Prop :=
  (∃ d, l[i]? = some d ∧ test d = true) ∧
    ∀ (j : Nat) (e : FGraphDesc), j < i → l[j]? = some e → test e = false

/-- A descriptor with the given URL, label and output uids. -/
def descOf (PackageUrl Label : FString) (OutputUids : List Nat) : FGraphDesc :=
  { emptyDesc with
    PackageUrl := PackageUrl, Label := Label,
    OutputDescs := OutputUids.map (fun u =>
      { Uid := u, Identifier := "out", Label := "Out", Format := 0, Channel := 0 }) }

/-- A backup of an instance of package `pkg://wood`, labelled `Wood_INST`, with one
texture on output 10. -/
def woodBackup : InstanceBackup :=
  { Preset := { mPackageUrl := "pkg://wood", mLabel := "Wood_INST" },
    InstanceParent := some 0, UidToName := [(10, "Wood_basecolor")] }

/-! ## Observers and destruction -/

/-- `FGraphInstance::plugState(states)`: the `check` aborts when the observer is
already in `States`; otherwise `push_back`. -/
def FGraphInstance.plugState (this : FGraphInstance) (states : Nat) : Option FGraphInstance :=
  if states ∈ this.States then none
  else some { this with States := this.States ++ [states] }

/-- `FGraphInstance::unplugState(states)`: nothing happens on an empty list; on a
list with entries the `check` aborts when `std::find` does not find the observer,
and `erase` removes the entry found, which is the first one. -/
def FGraphInstance.unplugState (this : FGraphInstance) (states : Nat) : Option FGraphInstance :=
  if this.States.length ≠ 0 then
    if states ∈ this.States then some { this with States := this.States.erase states }
    else none
  else some this

/-- A call on the observer list of a graph instance. -/
inductive ObserverCall where
  | plugState (states : Nat)
  | unplugState (states : Nat)
deriving DecidableEq, Repr

/-- A sequence of calls of `plugState` and `unplugState` on a graph instance, in
order; `none` when one of them aborts. -/
def runObserverCalls : List ObserverCall → FGraphInstance → Option FGraphInstance
  | [], i => some i
  | .plugState s :: rest, i =>
    match i.plugState s with
    | none => none
    | some i1 => runObserverCalls rest i1
  | .unplugState s :: rest, i =>
    match i.unplugState s with
    | none => none
    | some i1 => runObserverCalls rest i1

/-- Whether the observer `s` is attached after the calls, given whether it was
before: the last call that names `s` decides. -/
def attachedAfter (s : Nat) : List ObserverCall → Bool → Bool
  | [], b => b
  | .plugState t :: rest, b => attachedAfter s rest (if t = s then true else b)
  | .unplugState t :: rest, b => attachedAfter s rest (if t = s then false else b)

/-- The destructor `FGraphInstance::~FGraphInstance()` of the instance at address
`this`: the outputs and the inputs are emptied, the descriptor pointer is nulled,
and every observer of `States` receives `notifyDeleted(InstanceGuid)`.  Returns the
world and the calls of `notifyDeleted`, observer and argument, in call order. -/
def FGraphInstance.destruct (w : World) (this : Nat) : Option (World × List (Nat × Nat)) := do
  let i ← w.Instances[this]?
  let i1 := { i with Outputs := [], Inputs := [], Desc := none }
  pure ({ w with Instances := w.Instances.set this i1 },
    i.States.map (fun states => (states, i.InstanceGuid)))

/-- The loop of `FGraphDesc::~FGraphDesc()` over the copy `InstancesToDelete` of the
live-instance list. -/
def FGraphDesc.destruct_loop (this : Nat) : List Nat → World → Option World
  | [], w => some w
  | ItInst :: rest, w =>
    match FGraphDesc.UnSubscribe w this ItInst with
    | none => none
    | some w1 => FGraphDesc.destruct_loop this rest w1

/-- The destructor `FGraphDesc::~FGraphDesc()` of the descriptor at address
`this`. -/
def FGraphDesc.destruct (w : World) (this : Nat) : Option World := do
  let d ← w.Descs[this]?
  let w1 : World := { w with
    Descs := w.Descs.set this { d with OutputDescs := [], InputDescs := [] } }
  let InstancesToDelete := d.LoadedInstances
  let w2 ← FGraphDesc.destruct_loop this InstancesToDelete w1
  let d2 ← w2.Descs[this]?
  pure { w2 with Descs := w2.Descs.set this { d2 with Parent := none } }

/-- An instance without inputs and outputs and with the given observers. -/
def observedInstance (States : List Nat) : FGraphInstance :=
  { looseInstance with States := States }

/-- A world with one package, the descriptor `emptyDesc`, a bound container, and
one instance with the given observers. -/
def observedWorld (States : List Nat) : World :=
  { looseWorld with Instances := [observedInstance States] }

/-- The world `observedWorld` after the destructor of its instance has run. -/
def destroyedWorld (States : List Nat) : World :=
  { looseWorld with
    Instances := [{ observedInstance States with Outputs := [], Inputs := [], Desc := none }] }

/-- A descriptor of package 0 with two outputs, of uids 10 and 11, and two inputs:
an image input of uid 1 and an Integer input of uid 2. -/
def twoByTwoDesc : FGraphDesc :=
  { descOf "pkg://a" "a" [10, 11] with
    InputDescs := [imageDesc 1 [10], mkInput 2 false (.Integer 3)] }

/-- One package, the descriptor `twoByTwoDesc`, one free container, no instance. -/
def twoByTwoWorld : World :=
  { freshWorld with Descs := [twoByTwoDesc] }

/-- The overlap of a backup and a descriptor: the entries of the backup map whose
uid is the uid of an output of the descriptor. -/
def Overlap (Backup : InstanceBackup) (d : FGraphDesc) : Nat :=
  (Backup.UidToName.filter (fun kv => d.OutputDescs.any (fun o => o.Uid == kv.1))).length

/-- Every uid of the backup map is the uid of an output of the descriptor. -/
def ContainsAll (Backup : InstanceBackup) (d : FGraphDesc) : Bool :=
  Backup.UidToName.all (fun kv => d.OutputDescs.any (fun o => o.Uid == kv.1))

/-- A backup of an instance of package `pkg://wood`, labelled `Wood_INST`, with
textures on the outputs 10 and 11. -/
def twoTextureBackup : InstanceBackup :=
  { woodBackup with UidToName := [(10, "Wood_basecolor"), (11, "Wood_normal")] }

/-- A backup of an instance of package `pkg://wood`, labelled `Wood_INST`, none of
whose outputs has a texture: the map is empty. -/
def noTextureBackup : InstanceBackup :=
  { woodBackup with UidToName := [] }

/-! ## Reimport: rebuilding an instance -/

/-- The loop of `FindMatchingOutput` over the candidates from position `Idx` on: the
index of the first candidate with the uid wanted; `none` stands for `-1`. -/
def FindMatchingOutput_loop (Uid : Nat) : List FOutputInstance → Nat → Option Nat
  | [], _ => none
  | ItOther :: rest, Idx =>
    if Uid = ItOther.Uid then some Idx else FindMatchingOutput_loop Uid rest (Idx + 1)

/-- `FindMatchingOutput(WantedOutput, CandidateOutputs)`, exact match by uid. -/
def FindMatchingOutput (WantedOutput : FOutputInstance)
    (CandidateOutputs : List FOutputInstance) : Option Nat :=
  FindMatchingOutput_loop WantedOutput.Uid CandidateOutputs 0

/-- Modelled from the spec: `Helpers::CreateSubstanceTexture2D`, of which
`SubstanceCoreHelpers.h` gives the declaration only, as `TransferOutput` calls it:
"if the pixel format changed, rebuild the backing texture object in place".  The
texture object behind the handle is built again; the output keeps the handle and
its other fields.  Returns the output and the handle of the texture rebuilt. -/
def CreateSubstanceTexture2D_inPlace (OutputInstance : FOutputInstance) (Texture : Nat) :
    FOutputInstance × Nat :=
  (OutputInstance, Texture)

/-- `TransferOutput(ItNew, PrevOutput)`: the new output slot takes every field of
the previous output, then its own uid and format again, and is flagged dirty; when
the formats differ the texture is dereferenced for its name, which aborts on a
null texture, and rebuilt.  Returns the new output and the textures rebuilt. -/
def TransferOutput (ItNew PrevOutput : FOutputInstance) :
    Option (FOutputInstance × List Nat) :=
  let FormatChanged := PrevOutput.Format != ItNew.Format
  let NewUid := ItNew.Uid
  let NewFormat := ItNew.Format
  let o : FOutputInstance :=
    { PrevOutput with Uid := NewUid, Format := NewFormat, bIsDirty := true }
  if FormatChanged then
    match o.Texture with
    | none => none
    | some Texture =>
      let r := CreateSubstanceTexture2D_inPlace o Texture
      some (r.1, [r.2])
  else some (o, [])

/-- What `GiveOutputsBack` leaves behind: the outputs of the new instance, the
previous outputs that no new output has taken, the local list `NoMatch` and the
textures rebuilt. -/
structure OutputsBack where
  Outputs : List FOutputInstance
  PrevOutputs : List FOutputInstance
  NoMatch : List FOutputInstance
  Rebuilt : List Nat
deriving DecidableEq, Repr

/-- The loop of `GiveOutputsBack` over the outputs of the new instance that are
left, with the previous outputs that are left. -/
def GiveOutputsBack_loop :
    List FOutputInstance → List FOutputInstance → Option OutputsBack
  | [], PrevOutputs =>
    some { Outputs := [], PrevOutputs := PrevOutputs, NoMatch := [], Rebuilt := [] }
  | ItNew :: rest, PrevOutputs =>
    match FindMatchingOutput ItNew PrevOutputs with
    | none =>
      match GiveOutputsBack_loop rest PrevOutputs with
      | none => none
      | some r => some { r with Outputs := ItNew :: r.Outputs, NoMatch := ItNew :: r.NoMatch }
    | some IdxMatch =>
      match PrevOutputs[IdxMatch]? with
      | none => none
      | some PrevOutput =>
        match TransferOutput ItNew PrevOutput with
        | none => none
        | some t =>
          match GiveOutputsBack_loop rest (PrevOutputs.eraseIdx IdxMatch) with
          | none => none
          | some r => some { r with Outputs := t.1 :: r.Outputs, Rebuilt := t.2 ++ r.Rebuilt }

/-- `GiveOutputsBack(NewInstance, PrevOutputs)`, on the outputs of the new
instance. -/
def GiveOutputsBack (Outputs PrevOutputs : List FOutputInstance) : Option OutputsBack :=
  GiveOutputsBack_loop Outputs PrevOutputs

/-- The previous outputs that are not consumed yet once the given new outputs have
been matched, in order: each new output consumes the first previous output left
with its uid. -/
def PrevLeft : List FOutputInstance → List FOutputInstance → List FOutputInstance
  | [], Prev => Prev
  | o :: rest, Prev =>
    match FindMatchingOutput o Prev with
    | none => PrevLeft rest Prev
    | some j => PrevLeft rest (Prev.eraseIdx j)

/-- The previous outputs that the given new outputs consume, in the order of the
new outputs. -/
def PrevConsumed : List FOutputInstance → List FOutputInstance → List FOutputInstance
  | [], _ => []
  | o :: rest, Prev =>
    match FindMatchingOutput o Prev with
    | none => PrevConsumed rest Prev
    | some j =>
      match Prev[j]? with
      | none => PrevConsumed rest (Prev.eraseIdx j)
      | some p => p :: PrevConsumed rest (Prev.eraseIdx j)

/-- Field `ImageInput` of an input instance read as an `FImageInputInstance`. -/
def FInputInstance.ImageInput (i : FInputInstance) : Option Nat :=
  match i.State with
  | .Numerical _ => none
  | .Image _ img => img

/-- The inner loop of `GiveImageInputsBack` over the inputs of the new instance from
position `Idx` on: the first input that is not numerical and has the uid, with its
position. -/
def InputMatch_loop (Uid : Nat) : List FInputInstance → Nat → Option (Nat × FInputInstance)
  | [], _ => none
  | ItNew :: rest, Idx =>
    if ItNew.IsNumerical then InputMatch_loop Uid rest (Idx + 1)
    else if ItNew.Uid = Uid then some (Idx, ItNew)
    else InputMatch_loop Uid rest (Idx + 1)

/-- What the body of `GiveImageInputsBack` writes into the input matched: the
fields of the previous input, base part and image part, under the descriptor of
the input matched. -/
def ImageInputGivenBack (InputMatch ItPrev : FInputInstance) : FInputInstance :=
  { Uid := ItPrev.Uid, Desc := InputMatch.Desc, Parent := ItPrev.Parent,
    State := .Image ItPrev.ImageSource ItPrev.ImageInput }

/-- `GiveImageInputsBack(NewInstance, PrevImageInputs)`, on the inputs of the new
instance: the loop over the previous image inputs that are left. -/
def GiveImageInputsBack : List FInputInstance → List FInputInstance → List FInputInstance
  | Inputs, [] => Inputs
  | Inputs, ItPrev :: rest =>
    match InputMatch_loop ItPrev.Uid Inputs 0 with
    | none => GiveImageInputsBack Inputs rest
    | some (Idx, InputMatch) =>
      GiveImageInputsBack (Inputs.set Idx (ImageInputGivenBack InputMatch ItPrev)) rest

/-- The last loop of `RebuildInstance`, over the previous outputs that are left:
the texture of every enabled output is dereferenced for its name, which aborts on a
null texture, and handed to `Helpers::RegisterForDeletion`.  Returns the textures
registered, in call order. -/
def RebuildInstance_deleteLoop : List FOutputInstance → Option (List Nat)
  | [] => some []
  | itOut :: rest =>
    if itOut.bIsEnabled then
      match itOut.Texture with
      | none => none
      | some Texture =>
        match RebuildInstance_deleteLoop rest with
        | none => none
        | some Registered => some (Texture :: Registered)
    else RebuildInstance_deleteLoop rest

/-- What `RebuildInstance` leaves behind: the object graph, the address of the new
instance (the value returned), the `notifyDeleted` calls of the destructor of the
previous instance, the textures handed to `RegisterForDeletion` and the textures
rebuilt for a change of format. -/
structure RebuildResult where
  After : World
  NewInstance : Nat
  Notified : List (Nat × Nat)
  Registered : List Nat
  Rebuilt : List Nat
deriving DecidableEq, Repr

/-- `RebuildInstance(Desc, Backup)`.  `Apply` stands for `preset_t::Apply`, whose
body is not among the files verified here; it works on the new instance.
`bSubscribeInstance` and `bDynamicInstance` are the default arguments of
`FGraphDesc::Instantiate`, which the declaration gives and the call leaves out.
`NewGuid` is the value returned by `FGuid::NewGuid()`. -/
def RebuildInstance (CreateTextures : List FOutputInstance → List FOutputInstance)
    (Apply : preset_t → FGraphInstance → FGraphInstance)
    (bSubscribeInstance bDynamicInstance : Bool) (NewGuid : Nat)
    (w : World) (Desc : Option Nat) (Backup : InstanceBackup) : Option RebuildResult := do
  -- check(Desc); check(Backup.InstanceParent)
  let desc ← Desc
  let Parent ← Backup.InstanceParent
  let cont ← w.Containers[Parent]?
  let old ← cont.Instance
  let inst ← w.Instances[old]?
  -- save the outputs of the previous instance
  let PrevOutputs := inst.Outputs
  -- save the image inputs as they are not part of the preset
  let PrevImageInputs := inst.Inputs.filter (fun ItInput => !ItInput.IsNumerical)
  -- empty the previous instance container
  let (w1, Notified) ← FGraphInstance.destruct w old
  let cont1 ← w1.Containers[Parent]?
  let w2 : World := { w1 with
    Containers := w1.Containers.set Parent
      { cont1 with RF_Standalone := true, Instance := none, Parent := none } }
  -- recreate an instance
  let (w3, NewInstance) ←
    FGraphDesc.Instantiate CreateTextures w2 desc (some Parent) false bSubscribeInstance
      bDynamicInstance NewGuid
  let n ← w3.Instances[NewInstance]?
  let n1 := { n with Desc := some desc }
  -- apply the preset
  let n2 := Apply Backup.Preset n1
  let back ← GiveOutputsBack n2.Outputs PrevOutputs
  let n3 := { n2 with
    Outputs := back.Outputs
    Inputs := GiveImageInputsBack n2.Inputs PrevImageInputs }
  let cont3 ← w3.Containers[Parent]?
  let w4 : World := { w3 with
    Instances := w3.Instances.set NewInstance n3
    Containers := w3.Containers.set Parent { cont3 with Instance := some NewInstance } }
  -- delete the old outputs no longer belonging to the instance
  let Registered ← RebuildInstance_deleteLoop back.PrevOutputs
  pure { After := w4, NewInstance := NewInstance, Notified := Notified,
         Registered := Registered, Rebuilt := back.Rebuilt }

/-- Output C: uid 12, enabled, clean, with texture 1. -/
def outputC : FOutputInstance :=
  { Uid := 12, Format := 0, bIsEnabled := true, bIsDirty := false, Texture := some 1,
    ParentInstance := some 0 }

/-- One package, the descriptor `descOf "pkg://a" "a" [10]` with one output of uid
10, one container bound to the instance 0, whose outputs are A, C and B and which
has no input. -/
def reimportWorld : World :=
  { Packages := [{ LoadedInstancesCount := 0, Parent := some 0 }],
    Descs := [descOf "pkg://a" "a" [10]],
    Instances := [{ looseInstance with Outputs := [outputA, outputC, outputB] }],
    Containers := [{ freeContainer with Instance := some 0, Parent := some 0 }] }

/-- The world `reimportWorld` after `RebuildInstance`: the previous instance is
emptied, the new instance 1 has the output A back, flagged dirty, and the container
is bound to it. -/
def reimportedWorld : World :=
  { Packages := [{ LoadedInstancesCount := 0, Parent := some 0 }],
    Descs := [{ descOf "pkg://a" "a" [10] with InstanceUids := [8] }],
    Instances := [{ looseInstance with Desc := none },
      { looseInstance with
        InstanceGuid := 8, Outputs := [{ outputA with bIsDirty := true }] }],
    Containers := [{ freeContainer with Instance := some 1, Parent := some 0 }] }

/-- What `GiveImageInputsBack` reads of an input of the new instance before it
writes into it, and keeps: the kind, the uid and the descriptor. -/
def InputProfile (i : FInputInstance) : Bool × Nat × FInputDesc :=
  (i.IsNumerical, i.Uid, i.Desc)

/-- The inputs of a new instance: a numerical input of uid 1, an image input of uid
1 and an image input of uid 2, both without image. -/
def newInputs : List FInputInstance :=
  [numericalInput 1, imageInput 1 [10] none, imageInput 2 [11] none]

/-- A previous image input of uid 1, of the instance 7, sourced from image 5, with a
descriptor that alters the output 99. -/
def prevImageInput : FInputInstance :=
  { imageInput 1 [99] (some 5) with Parent := some 7 }

/-! ## The binding of a container -/

/-- The statements of `RebuildInstance` between the saving of the previous outputs
and inputs and the call of `Instantiate`: `delete Parent->Instance`,
`Parent->SetFlags(RF_Standalone)`, `Parent->Instance = 0`, `Parent->Parent = 0`,
for the container `Parent` bound to the instance `old`.  Returns the world in
which `Instantiate` is called and the `notifyDeleted` calls of the destructor. -/
def RebuildInstance_unbind (w : World) (Parent old : Nat) :
    Option (World × List (Nat × Nat)) := do
  let (w1, Notified) ← FGraphInstance.destruct w old
  let cont1 ← w1.Containers[Parent]?
  pure ({ w1 with
    Containers := w1.Containers.set Parent
      { cont1 with RF_Standalone := true, Instance := none, Parent := none } }, Notified)

/-! ## The renderer queue -/

/-- `Substance::Renderer::push(FGraphInstance* graph)`.  `getLinkData` stands for
`FPackage::getLinkData`, whose body is not among the files verified here: for the
package at an address, `none` when the link data pointer is null and the value of
`getSize()` otherwise.  `mRendererImpl` is the list of the graphs handed to
`mRendererImpl->push`, in call order.  The error branch reads the names of the
container and of the instance factory for the log line and so dereferences both
pointers. -/
def Renderer.push (getLinkData : Nat → Option Nat) (w : World) (mRendererImpl : List Nat)
    (graph : Nat) : Option (List Nat) := do
  let g ← w.Instances[graph]?
  let desc ← g.Desc
  let d ← w.Descs[desc]?
  let p ← d.Parent
  let pkg ← w.Packages[p]?
  let linkdata := getLinkData p
  if linkdata = none ∨ linkdata = some 0 then
    let c ← g.ParentInstance
    let _ ← w.Containers[c]?
    let _ ← pkg.Parent
    pure mRendererImpl
  else
    pure (mRendererImpl ++ [graph])

/-- `Substance::Renderer::push(List<FGraphInstance*>& graphs)`: the loop over the
graphs that are left. -/
def Renderer.push_graphs (getLinkData : Nat → Option Nat) (w : World) :
    List Nat → List Nat → Option (List Nat)
  | [], mRendererImpl => some mRendererImpl
  | ItGraph :: rest, mRendererImpl =>
    match Renderer.push getLinkData w mRendererImpl ItGraph with
    | none => none
    | some q => Renderer.push_graphs getLinkData w rest q

/-- The pointers that `Renderer::push` follows from a graph instance are valid: the
descriptor, its package, the instance factory of the package and the container. -/
def GraphPointersValid (w : World) (graph : Nat) : Bool :=
  match w.Instances[graph]? with
  | none => false
  | some g =>
    match g.Desc.bind (fun desc => w.Descs[desc]?) with
    | none => false
    | some d =>
      match d.Parent.bind (fun p => w.Packages[p]?) with
      | none => false
      | some pkg =>
        pkg.Parent.isSome && (g.ParentInstance.bind (fun c => w.Containers[c]?)).isSome

/-- The link data of the package of a graph instance is there and is not empty. -/
def HasLinkData (getLinkData : Nat → Option Nat) (w : World) (graph : Nat) : Bool :=
  match w.Instances[graph]? with
  | none => false
  | some g =>
    match (g.Desc.bind (fun desc => w.Descs[desc]?)).bind (fun d => d.Parent) with
    | none => false
    | some p =>
      match getLinkData p with
      | none => false
      | some size => size != 0

/-- Two packages, the first with link data of size 64 and the second with link data
of size 0, both owned by the instance factory 0; one descriptor in each; the
instances 0 and 2 of the first descriptor, the instance 1 of the second, and the
instance 3, which has lost its descriptor; one container. -/
def renderWorld : World :=
  { Packages := [{ LoadedInstancesCount := 2, Parent := some 0 },
                 { LoadedInstancesCount := 1, Parent := some 0 }],
    Descs := [{ emptyDesc with LoadedInstances := [0, 2] },
              { emptyDesc with Parent := some 1, LoadedInstances := [1] }],
    Instances := [looseInstance, { looseInstance with Desc := some 1 }, looseInstance,
                  { looseInstance with Desc := none }],
    Containers := [{ freeContainer with Instance := some 0, Parent := some 0 }] }

/-- The link data of `renderWorld`: 64 bytes for package 0, none for package 1 and
a null pointer for every other address. -/
def renderLinkData : Nat → Option Nat
  | 0 => some 64
  | 1 => some 0
  | _ => none

/-! ## The sorted indexes of a descriptor -/

/-- The predicate `FCompareUIDS`: `A.Key < B.Key`. -/
def FCompareUIDS (A B : Nat × Nat) : Bool := decide (A.1 < B.1)

/-- The loop of `commitOutputs` and of `commitInputs` over the uids of the
descriptors that are left: each adds the pair of a uid and of the size of the
index so far. -/
def commit_loop : List Nat → List (Nat × Nat) → List (Nat × Nat)
  | [], Sorted => Sorted
  | Uid :: rest, Sorted => commit_loop rest (Sorted ++ [(Uid, Sorted.length)])

/-- `FGraphDesc::commitOutputs`.  `ArraySort` stands for the array method
`Sort(FCompareUIDS())` of the engine; `Empty(n)` leaves an empty array. -/
def FGraphDesc.commitOutputs (ArraySort : List (Nat × Nat) → List (Nat × Nat))
    (this : FGraphDesc) : Option FGraphDesc :=
  if this.SortedOutputs.length ≠ 0 then none
  else
    some { this with
      SortedOutputs := ArraySort (commit_loop (this.OutputDescs.map (fun itOut => itOut.Uid)) []) }

/-- `FGraphDesc::commitInputs`. -/
def FGraphDesc.commitInputs (ArraySort : List (Nat × Nat) → List (Nat × Nat))
    (this : FGraphDesc) : Option FGraphDesc :=
  if this.SortedInputs.length ≠ 0 then none
  else
    some { this with
      SortedInputs := ArraySort (commit_loop (this.InputDescs.map (fun itIn => itIn.Uid)) []) }

/-- What the engine promises of `Sort` with the predicate `FCompareUIDS`: the
result holds the same entries, and no entry compares less than an entry before
it. -/
def SortsByUid (ArraySort : List (Nat × Nat) → List (Nat × Nat)) : Prop :=
  ∀ l, List.Perm (ArraySort l) l ∧ List.Pairwise (fun A B => FCompareUIDS B A = false) (ArraySort l)

/-- The order of keys that `FCompareUIDS` sorts by. -/
def UidLE (A B : Nat × Nat) : Prop := A.1 ≤ B.1

instance : DecidableRel UidLE := fun A B => inferInstanceAs (Decidable (A.1 ≤ B.1))

instance : IsTotal (Nat × Nat) UidLE := ⟨fun A B => Nat.le_total A.1 B.1⟩

instance : IsTrans (Nat × Nat) UidLE := ⟨fun _ _ _ h1 h2 => Nat.le_trans h1 h2⟩

/-- One sort that keeps the promise: insertion sort by key. -/
def insertionSortByUid (l : List (Nat × Nat)) : List (Nat × Nat) :=
  l.insertionSort UidLE

/-- A descriptor with three outputs, of uids 30, 10 and 20 in list order, and two
inputs, of uids 2 and 1, before the sorted indexes are built. -/
def unsortedDesc : FGraphDesc :=
  { descOf "pkg://a" "a" [30, 10, 20] with
    InputDescs := [mkInput 2 false (.Integer 3), imageDesc 1 [10]] }

/-! ## Lookups by unique id -/

/-- A backup of an instance of package `pkg://wood` that was renamed `Wood`: its
label carries no `_INST`. -/
def plainLabelBackup : InstanceBackup :=
  { woodBackup with Preset := { mPackageUrl := "pkg://wood", mLabel := "Wood" } }

/-- One package, the descriptor `twoByTwoDesc`, one container bound to the
instance 0, which has the output A, an image input of uid 1 sourced from image 5
and a numerical input of uid 2, both owned by the instance 0. -/
def imageReimportWorld : World :=
  { Packages := [{ LoadedInstancesCount := 0, Parent := some 0 }],
    Descs := [twoByTwoDesc],
    Instances := [{ looseInstance with
      Outputs := [outputA], Inputs := [imageInput 1 [10] (some 5), numericalInput 2] }],
    Containers := [{ freeContainer with Instance := some 0, Parent := some 0 }] }

/-- The inputs of the new instance that `RebuildInstance` returns: uid, kind and
owner back-reference of each. -/
def inputOwners (r : RebuildResult) : Option (List (Nat × Bool × Option Nat)) :=
  (r.After.Instances[r.NewInstance]?).map
    (fun n => n.Inputs.map (fun i => (i.Uid, i.IsNumerical, i.Parent)))

/-- The descriptor back-references of the inputs of the new instance that
`RebuildInstance` returns. -/
def inputDescs (r : RebuildResult) : Option (List FInputDesc) :=
  (r.After.Instances[r.NewInstance]?).map (fun n => n.Inputs.map (fun i => i.Desc))

/-! ## The import of a JPEG image input -/

/-- The fields of `USubstanceImageInput` that `FactoryCreateBinaryFromJpeg`
writes. -/
structure USubstanceImageInput where
  CompressedImageRGB : List Nat
  SizeX : Int
  SizeY : Int
  NumComponents : Int
  SourceFilePath : FString
  SourceFileTimestamp : FString
  CompRGB : Int
  CompA : Int
deriving DecidableEq, Repr

/-- The conversion of an integer to `int32`. -/
def toInt32 (n : Int) : Int := (n + 2 ^ 31) % 2 ^ 32 - 2 ^ 31

/-- `USubstanceImageInputFactory::FactoryCreateBinaryFromJpeg`.  `Buffer` holds the
bytes between the pointers `Buffer` and `BufferEnd`, and is `none` when one of the
two pointers is null.  `DecompressJpeg` stands for `Helpers::DecompressJpeg`, of
which `SubstanceCoreHelpers.h` gives the declaration only: for the bytes and the
length it gives the pixel buffer, the width and the height after the call.
`SourceFilePath` and `SourceFileTimestamp` are what the file manager returns.  The
outer `none` is an abort, the inner `none` the return of `NULL`; a negative length
makes `Realloc` and `Memcpy` fail. -/
def FactoryCreateBinaryFromJpeg (DecompressJpeg : List Nat → Int → List Nat × Int × Int)
    (SourceFilePath SourceFileTimestamp : FString) (Buffer : Option (List Nat)) :
    Option (Option USubstanceImageInput) :=
  match Buffer with
  | none => none
  | some Bytes =>
    let Length := toInt32 Bytes.length
    let r := DecompressJpeg Bytes Length
    let DecompressedImage := r.1
    let Width := r.2.1
    let Height := r.2.2
    if DecompressedImage.length ≤ 0 then some none
    else if Width < 16 ∨ Height < 16 then some none
    else if Width > 2048 ∨ Height > 2048 then some none
    else if Length < 0 then none
    else
      some (some
        { CompressedImageRGB := Bytes.take Length.toNat,
          SizeX := Width, SizeY := Height, NumComponents := 3,
          SourceFilePath := SourceFilePath, SourceFileTimestamp := SourceFileTimestamp,
          CompRGB := 1, CompA := 0 })

/-- A decoder that reads the width and the height from the first two bytes and
gives one pixel, or no pixel on an empty buffer. -/
def firstBytesDecoder (Bytes : List Nat) (_Length : Int) : List Nat × Int × Int :=
  match Bytes with
  | w :: h :: _ => ([0, 0, 0, 255], (w : Int), (h : Int))
  | _ => ([], 0, 0)

/-! ## Reimport -/

/-- The values of `EReimportResult::Type` that `Reimport` returns. -/
inductive EReimportResult where
  | Failed
  | Succeeded
deriving DecidableEq, Repr

/-- The object handed to `Reimport`, as its two casts see it: a graph instance
container, an instance factory, or an object of another class, for which both
casts give a null pointer. -/
inductive ReimportObject where
  | GraphInstance (c : Nat)
  | InstanceFactory (f : Nat)
  | Other
deriving DecidableEq, Repr

/-- The collaborators of `Reimport` whose bodies are not among the files verified
here.  `SubstancePackage` is the package pointer of an instance factory,
`GetInstanceCount` and `Graphs` are `FPackage::GetInstanceCount` and the graph list
of a package, `ReadFrom` is `preset_t::ReadFrom`, `GetName` the name of a texture,
`StaticImportObject` the import of the source file, which gives the new instance
factory, or a null pointer, and the object graph after the import, `NewGuid` the
value of `FGuid::NewGuid()`, `RenderSync` and `UpdateTextures` the two helpers
called at the end; the other fields are the parameters of `FindMatch` and of
`RebuildInstance`. -/
structure ReimportEngine where
  SubstancePackage : Nat → Option Nat
  GetInstanceCount : World → Nat → Int
  Graphs : World → Nat → List Nat
  ReadFrom : FGraphInstance → preset_t
  GetName : Nat → FString
  StaticImportObject : World → Nat → World × Option Nat
  NewGuid : World → Nat
  RenderSync : World → List Nat → World
  UpdateTextures : World → List Nat → World
  FStringEq : FString → FString → Bool
  CreateTextures : List FOutputInstance → List FOutputInstance
  Apply : preset_t → FGraphInstance → FGraphInstance
  bSubscribeInstance : Bool
  bDynamicInstance : Bool

/-- What a call of `Reimport` that returns leaves: the value returned, the object
graph, the flag `local::bIsPerformingReimport` and the instances handed to
`RenderSync`. -/
structure ReimportOutcome where
  Result : EReimportResult
  After : World
  bIsPerformingReimport : Bool
  Instances : List Nat
deriving DecidableEq, Repr

/-- The map method `Add`: the value of an existing key is replaced, a new key is
added at the end. -/
def TMap_Add (m : List (Nat × FString)) (Key : Nat) (Value : FString) : List (Nat × FString) :=
  if m.any (fun e => e.1 == Key) then m.map (fun e => if e.1 = Key then (Key, Value) else e)
  else m ++ [(Key, Value)]

/-- The loop of `Reimport` over the outputs of an instance: the outputs that have a
texture give the map from uid to texture name. -/
def Reimport_UidToName (GetName : Nat → FString) :
    List FOutputInstance → List (Nat × FString) → List (Nat × FString)
  | [], UidToName => UidToName
  | it :: rest, UidToName =>
    match it.Texture with
    | none => Reimport_UidToName GetName rest UidToName
    | some Texture => Reimport_UidToName GetName rest (TMap_Add UidToName it.Uid (GetName Texture))

/-- The loop of `Reimport` over the live instances of one graph: one backup per
instance. -/
def Reimport_backup_instances (E : ReimportEngine) (w : World) :
    List Nat → List InstanceBackup → Option (List InstanceBackup)
  | [], OriginalInstances => some OriginalInstances
  | ItInst :: rest, OriginalInstances =>
    match w.Instances[ItInst]? with
    | none => none
    | some inst =>
      Reimport_backup_instances E w rest
        (OriginalInstances ++
          [{ Preset := E.ReadFrom inst, InstanceParent := inst.ParentInstance,
             UidToName := Reimport_UidToName E.GetName inst.Outputs [] }])

/-- The loop of `Reimport` over the graphs of the original package. -/
def Reimport_backup_graphs (E : ReimportEngine) (w : World) :
    List Nat → List InstanceBackup → Option (List InstanceBackup)
  | [], OriginalInstances => some OriginalInstances
  | ItGraph :: rest, OriginalInstances =>
    match w.Descs[ItGraph]? with
    | none => none
    | some d =>
      match Reimport_backup_instances E w d.LoadedInstances OriginalInstances with
      | none => none
      | some acc => Reimport_backup_graphs E w rest acc

/-- The loop of `Reimport` over the backups that are left: a backup without match
has its container marked dirty and detached from its factory, a backup with a match
has its instance rebuilt and added to `Instances`.  The descriptor pointers of the
new package have to be valid. -/
def Reimport_rebuild (E : ReimportEngine) (NewSubstance : Nat) :
    List InstanceBackup → World → List Nat → Option (World × List Nat)
  | [], w, Instances => some (w, Instances)
  | ItBack :: rest, w, Instances =>
    match E.SubstancePackage NewSubstance with
    | none => none
    | some p =>
      let Graphs := E.Graphs w p
      match Graphs.mapM (fun D => w.Descs[D]?) with
      | none => none
      | some Desc =>
        match FindMatch E.FStringEq Desc ItBack with
        | none =>
          match ItBack.InstanceParent with
          | none => none
          | some c =>
            match w.Containers[c]? with
            | none => none
            | some cont =>
              Reimport_rebuild E NewSubstance rest
                { w with
                  Containers := w.Containers.set c
                    { cont with bPackageDirty := true, Parent := none } }
                Instances
        | some i =>
          match Graphs[i]? with
          | none => none
          | some DescMatch =>
            match RebuildInstance E.CreateTextures E.Apply E.bSubscribeInstance
                E.bDynamicInstance (E.NewGuid w) w (some DescMatch) ItBack with
            | none => none
            | some r => Reimport_rebuild E NewSubstance rest r.After (Instances ++ [r.NewInstance])

/-- `UReimportSubstanceFactory::Reimport` from the point where `OriginalSubstance`
is known.  `NewSubstance->MarkPackageDirty()` comes before the test of
`NewSubstance` and dereferences it. -/
def Reimport_factory (E : ReimportEngine) (w : World) (bIsPerformingReimport : Bool)
    (OriginalSubstance : Nat) : Option ReimportOutcome :=
  match E.SubstancePackage OriginalSubstance with
  | none => none
  | some p =>
    match w.Packages[p]? with
    | none => none
    | some SubstancePackage =>
      let TotalInstanceCount := E.GetInstanceCount w p
      let LoadedInstanceCount := SubstancePackage.LoadedInstancesCount
      -- check that all instances are loaded
      if LoadedInstanceCount ≠ TotalInstanceCount then
        some { Result := .Failed, After := w,
               bIsPerformingReimport := bIsPerformingReimport, Instances := [] }
      else
        -- backup the instances values before recreating the desc
        match Reimport_backup_graphs E w (E.Graphs w p) [] with
        | none => none
        | some OriginalInstances =>
          -- local::bIsPerformingReimport = true
          let flag1 := true
          let imported := E.StaticImportObject w OriginalSubstance
          let NewSubstance := imported.2
          -- NewSubstance->MarkPackageDirty(): a null pointer is dereferenced here
          match NewSubstance with
          | none => none
          | some n =>
            -- if (NULL == NewSubstance && local::bIsPerformingReimport)
            if NewSubstance = none ∧ flag1 = true then
              some { Result := .Failed, After := imported.1,
                     bIsPerformingReimport := false, Instances := [] }
            else
              match Reimport_rebuild E n OriginalInstances imported.1 [] with
              | none => none
              | some (w2, Instances) =>
                some { Result := .Succeeded,
                       After := E.UpdateTextures (E.RenderSync w2 Instances) Instances,
                       bIsPerformingReimport := false, Instances := Instances }

/-- `UReimportSubstanceFactory::Reimport(UObject* Obj)`, with the value of
`local::bIsPerformingReimport` at the call. -/
def Reimport (E : ReimportEngine) (w : World) (bIsPerformingReimport : Bool)
    (Obj : ReimportObject) : Option ReimportOutcome :=
  match Obj with
  | .GraphInstance c =>
    match w.Containers[c]? with
    | none => none
    | some GraphInstance =>
      match GraphInstance.Parent with
      | none =>
        some { Result := .Failed, After := w,
               bIsPerformingReimport := bIsPerformingReimport, Instances := [] }
      | some OriginalSubstance => Reimport_factory E w bIsPerformingReimport OriginalSubstance
  | .InstanceFactory f => Reimport_factory E w bIsPerformingReimport f
  | .Other => none

/-- An engine for the world `reimportWorld`: the instance factory 0 owns the
package 0, whose graph is the descriptor 0 and which counts as many instances as
are loaded; the import gives the factory `NewSubstance` and leaves the object graph
as it is. -/
def reimportEngine (NewSubstance : Option Nat) : ReimportEngine :=
  { SubstancePackage := fun _ => some 0,
    GetInstanceCount := fun w p => ((w.Packages[p]?).map (fun x => x.LoadedInstancesCount)).getD 0,
    Graphs := fun _ _ => [0],
    ReadFrom := fun _ => { mPackageUrl := "pkg://a", mLabel := "a_INST" },
    GetName := fun _ => "Wood_basecolor",
    StaticImportObject := fun w _ => (w, NewSubstance),
    NewGuid := fun _ => 8,
    RenderSync := fun w _ => w,
    UpdateTextures := fun w _ => w,
    FStringEq := fun a b => a == b,
    CreateTextures := id,
    Apply := fun _ i => i,
    bSubscribeInstance := false,
    bDynamicInstance := false }

/-- The world `reimportWorld` with its instance in the live list of the
descriptor. -/
def liveReimportWorld : World :=
  { reimportWorld with Descs := [{ descOf "pkg://a" "a" [10] with LoadedInstances := [0] }] }

/-- Appending an element that is not in the list and removing every occurrence of
it gives the list back. -/
theorem filter_ne_append_singleton (l : List Nat) (x : Nat) (h : x ∉ l) :
    (l ++ [x]).filter (fun y => decide (y ≠ x)) = l := by
  rw [List.filter_append]
  have h1 : l.filter (fun y => decide (y ≠ x)) = l := by
    rw [List.filter_eq_self]
    intro a ha
    have : a ≠ x := fun e => h (e ▸ ha)
    simpa using this
  rw [h1]
  simp

/-- The conditional registration in Subscribe never changes the identifier set. -/
theorem Subscribe_InstanceUids_eq (l : List Nat) (g : Nat) : Subscribe_InstanceUids l g = l := by
  unfold Subscribe_InstanceUids AddUnique
  split <;> simp_all

/-- What Subscribe returns when it does not abort. -/
theorem Subscribe_eq_some (w w1 : World) (D I : Nat)
    (h : FGraphDesc.Subscribe w D I = some w1) :
    ∃ d d1 i p pkg, w.Descs[D]? = some d ∧ w.Instances[I]? = some i ∧ I ∉ d.LoadedInstances ∧
      d.Parent = some p ∧ w.Packages[p]? = some pkg ∧
      w1.Descs = w.Descs.set D d1 ∧ d1.LoadedInstances = d.LoadedInstances ++ [I] ∧
      d1.Parent = d.Parent ∧ w1.Instances = w.Instances ∧
      w1.Packages = w.Packages.set p pkg.InstanceSubscribed ∧
      w1.Containers = w.Containers := by
  unfold FGraphDesc.Subscribe at h
  simp only [Option.bind_eq_bind, Option.bind_eq_some, Subscribe_InstanceUids_eq] at h
  obtain ⟨d, hd, i, hi, h⟩ := h
  by_cases hm : I ∈ d.LoadedInstances
  · simp [hm] at h
  · simp only [hm, if_false, Option.bind_eq_some] at h
    obtain ⟨p, hp, pkg, hpkg, h⟩ := h
    cases h
    exact ⟨d, _, i, p, pkg, hd, hi, hm, hp, hpkg, rfl, rfl, rfl, rfl, rfl, rfl⟩

/-- What UnSubscribe returns when it does not abort. -/
theorem UnSubscribe_eq_some (w w2 : World) (D I : Nat)
    (h : FGraphDesc.UnSubscribe w D I = some w2) :
    ∃ d d1 i i1, w.Descs[D]? = some d ∧ w.Instances[I]? = some i ∧ i.Desc = some D ∧
      w2.Descs = w.Descs.set D d1 ∧
      d1.LoadedInstances = d.LoadedInstances.filter (fun x => x ≠ I) ∧
      w2.Instances = w.Instances.set I i1 ∧ i1.Desc = none := by
  unfold FGraphDesc.UnSubscribe at h
  simp only [Option.bind_eq_bind, Option.bind_eq_some] at h
  obtain ⟨d, hd, i, hi, h⟩ := h
  by_cases hm : i.Desc = some D
  · simp only [hm, ne_eq, not_true_eq_false, if_false, Option.bind_eq_some] at h
    obtain ⟨p, _, pkg, _, h⟩ := h
    refine ⟨d, { d with LoadedInstances := d.LoadedInstances.filter (fun x => x ≠ I) }, i,
      { i with Desc := none }, hd, hi, hm, ?_⟩
    split at h
    · cases h
      exact ⟨rfl, rfl, rfl, rfl⟩
    · simp only [Option.pure_def, Option.bind_eq_some] at h
      obtain ⟨cont, _, h⟩ := h
      cases h
      exact ⟨rfl, rfl, rfl, rfl⟩
  · simp [hm] at h

/-- C1. Subscribe followed by UnSubscribe, on an instance that points to the
descriptor and is not yet in its live list: whenever the two calls run, the
instance ends with a null descriptor pointer and the live list of the descriptor
is the list from before the Subscribe, element for element; and the two calls do
run, without abort, when the package pointer of the descriptor and the container
pointer of the instance are valid. -/
theorem Subscribe_UnSubscribe_inverse (w : World) (D I : Nat)
    (d : FGraphDesc) (i : FGraphInstance)
    (hd : w.Descs[D]? = some d) (hi : w.Instances[I]? = some i)
    (hdesc : i.Desc = some D) (hnot : I ∉ d.LoadedInstances) :
    (∀ w1 w2, FGraphDesc.Subscribe w D I = some w1 → FGraphDesc.UnSubscribe w1 D I = some w2 →
      (w2.Instances[I]?).map (fun x => x.Desc) = some none ∧
      (w2.Descs[D]?).map (fun x => x.LoadedInstances) = some d.LoadedInstances) ∧
    ((∃ p, d.Parent = some p ∧ p < w.Packages.length) →
      (∀ c, i.ParentInstance = some c → c < w.Containers.length) →
      ∃ w1 w2, FGraphDesc.Subscribe w D I = some w1 ∧
        FGraphDesc.UnSubscribe w1 D I = some w2) := by
  have hDlt : D < w.Descs.length := (List.getElem?_eq_some.1 hd).1
  have hIlt : I < w.Instances.length := (List.getElem?_eq_some.1 hi).1
  constructor
  · intro w1 w2 h1 h2
    obtain ⟨d0, d1, i0, p, pkg, hd0, hi0, _, _, _, hD1, hL1, _, hI1, _, _⟩ :=
      Subscribe_eq_some w w1 D I h1
    rw [hd] at hd0
    cases hd0
    obtain ⟨d2, d3, i2, i3, hd2, hi2, _, hD2, hL2, hI2, hdesc3⟩ := UnSubscribe_eq_some w1 w2 D I h2
    rw [hD1, List.getElem?_set_self hDlt] at hd2
    cases hd2
    have hDlt1 : D < w1.Descs.length := by rw [hD1]; simpa using hDlt
    have hIlt1 : I < w1.Instances.length := by rw [hI1]; exact hIlt
    rw [hD2, hI2, List.getElem?_set_self hDlt1, List.getElem?_set_self hIlt1]
    simp only [Option.map_some', hdesc3, hL2, hL1, true_and]
    rw [filter_ne_append_singleton _ _ hnot]
  · rintro ⟨p, hp, hplt⟩ hc
    have hpkg : w.Packages[p]? = some (w.Packages[p]) := List.getElem?_eq_getElem hplt
    have hS : ∃ w1, FGraphDesc.Subscribe w D I = some w1 := by
      unfold FGraphDesc.Subscribe
      simp [hd, hi, hnot, hp, hpkg]
    obtain ⟨w1, h1⟩ := hS
    refine ⟨w1, ?_⟩
    obtain ⟨d0, d1, i0, p0, pkg, hd0, hi0, _, hp0, _, hD1, _, hPar1, hI1, hP1, hC1⟩ :=
      Subscribe_eq_some w w1 D I h1
    rw [hd] at hd0
    cases hd0
    have hd1 : w1.Descs[D]? = some d1 := by rw [hD1]; exact List.getElem?_set_self hDlt
    have hi1 : w1.Instances[I]? = some i := by rw [hI1]; exact hi
    have hplt1 : p < w1.Packages.length := by rw [hP1]; simpa using hplt
    have hpkg1 : w1.Packages[p]? = some (w1.Packages[p]) := List.getElem?_eq_getElem hplt1
    unfold FGraphDesc.UnSubscribe
    simp only [hd1, hi1, hdesc, Option.bind_eq_bind, Option.some_bind, ne_eq, not_true_eq_false,
      if_false, hPar1, hp, hpkg1]
    cases hpi : i.ParentInstance with
    | none => exact ⟨_, h1, rfl⟩
    | some c =>
      have hclt : c < w1.Containers.length := by rw [hC1]; exact hc c hpi
      simp only [List.getElem?_eq_getElem hclt, Option.some_bind]
      exact ⟨_, h1, rfl⟩

/-- C1, at a concrete world: the instance `looseInstance` of `looseWorld` points to
descriptor 0 and is not in its live list. -/
theorem Subscribe_UnSubscribe_inverse_witness :
    (∀ w1 w2, FGraphDesc.Subscribe looseWorld 0 0 = some w1 →
      FGraphDesc.UnSubscribe w1 0 0 = some w2 →
      (w2.Instances[0]?).map (fun x => x.Desc) = some none ∧
      (w2.Descs[0]?).map (fun x => x.LoadedInstances) = some emptyDesc.LoadedInstances) ∧
    ((∃ p, emptyDesc.Parent = some p ∧ p < looseWorld.Packages.length) →
      (∀ c, looseInstance.ParentInstance = some c → c < looseWorld.Containers.length) →
      ∃ w1 w2, FGraphDesc.Subscribe looseWorld 0 0 = some w1 ∧
        FGraphDesc.UnSubscribe w1 0 0 = some w2) :=
  Subscribe_UnSubscribe_inverse looseWorld 0 0 emptyDesc looseInstance rfl rfl rfl
    (by simp [emptyDesc])

/-! ## The descriptor pointer invariant -/

/-- An instance stays attached when its descriptor pointer is kept and every live
list of the old world is contained in the live list at the same address of the new
world. -/
theorem InstanceAttached_mono (w w1 : World) (k : Nat) (i i1 : FGraphInstance)
    (hgrow : ∀ (D : Nat) (d : FGraphDesc), w.Descs[D]? = some d →
      ∃ d1, w1.Descs[D]? = some d1 ∧ d.LoadedInstances ⊆ d1.LoadedInstances)
    (hdesc : i1.Desc = i.Desc) (h : InstanceAttached w k i) : InstanceAttached w1 k i1 := by
  rcases h with h | ⟨D, d, hD, hd, hk⟩
  · exact Or.inl (hdesc.trans h)
  · obtain ⟨d1, hd1, hsub⟩ := hgrow D d hd
    exact Or.inr ⟨D, d1, hdesc.trans hD, hd1, hsub hk⟩

/-- Replacing one descriptor by one with a larger live list makes every live list
grow. -/
theorem descs_grow_of_set (l : List FGraphDesc) (D : Nat) (d0 d1 : FGraphDesc)
    (hd0 : l[D]? = some d0) (hsub : d0.LoadedInstances ⊆ d1.LoadedInstances) :
    ∀ (E : Nat) (d : FGraphDesc), l[E]? = some d →
      ∃ d2, (l.set D d1)[E]? = some d2 ∧ d.LoadedInstances ⊆ d2.LoadedInstances := by
  intro E d hE
  by_cases hED : D = E
  · subst hED
    rw [hd0] at hE
    cases hE
    exact ⟨d1, List.getElem?_set_self (List.getElem?_eq_some.1 hd0).1, hsub⟩
  · exact ⟨d, by rw [List.getElem?_set_ne hED]; exact hE, fun _ h => h⟩

/-- Subscribe keeps the descriptor pointer invariant. -/
theorem Subscribe_preserves (w w1 : World) (D I : Nat) (hinv : w.DescInvariant)
    (h : FGraphDesc.Subscribe w D I = some w1) : w1.DescInvariant := by
  obtain ⟨d, d1, i, p, pkg, hd, _, _, _, _, hD1, hL1, _, hI1, _, _⟩ := Subscribe_eq_some w w1 D I h
  intro k j hk
  rw [hI1] at hk
  refine InstanceAttached_mono w w1 k j j ?_ rfl (hinv k j hk)
  rw [hD1]
  exact descs_grow_of_set w.Descs D d d1 hd (by rw [hL1]; exact List.subset_append_left _ _)

/-- UnSubscribe keeps the descriptor pointer invariant. -/
theorem UnSubscribe_preserves (w w1 : World) (D I : Nat) (hinv : w.DescInvariant)
    (h : FGraphDesc.UnSubscribe w D I = some w1) : w1.DescInvariant := by
  obtain ⟨d, d1, i, i1, hd, hi, _, hD1, hL1, hI1, hdesc1⟩ := UnSubscribe_eq_some w w1 D I h
  have hDlt : D < w.Descs.length := (List.getElem?_eq_some.1 hd).1
  intro k j hk
  rw [hI1] at hk
  by_cases hkI : I = k
  · subst hkI
    rw [List.getElem?_set_self (List.getElem?_eq_some.1 hi).1] at hk
    cases hk
    exact Or.inl hdesc1
  · rw [List.getElem?_set_ne hkI] at hk
    rcases hinv k j hk with h0 | ⟨E, e, hE, he, hmem⟩
    · exact Or.inl h0
    · by_cases hED : D = E
      · subst hED
        rw [hd] at he
        cases he
        refine Or.inr ⟨D, d1, hE, by rw [hD1]; exact List.getElem?_set_self hDlt, ?_⟩
        rw [hL1]
        exact List.mem_filter.2 ⟨hmem, by simpa using fun e => hkI e.symm⟩
      · exact Or.inr ⟨E, e, hE, by rw [hD1, List.getElem?_set_ne hED]; exact he, hmem⟩

/-- What the constructor returns when it does not abort: the new instance sits at
the first free address and points to the descriptor; descriptors are untouched. -/
theorem construct_eq_some (w w1 : World) (GraphDesc Parent : Option Nat) (NewGuid n : Nat)
    (h : FGraphInstance.construct w GraphDesc Parent NewGuid = some (w1, n)) :
    n = w.Instances.length ∧ w1.Descs = w.Descs ∧
      ∃ inst, w1.Instances = w.Instances ++ [inst] ∧ inst.Desc = GraphDesc ∧
        inst.InstanceGuid = NewGuid := by
  unfold FGraphInstance.construct at h
  simp only [Option.bind_eq_bind, Option.bind_eq_some] at h
  obtain ⟨c, _, g, _, d, _, p, _, pkg, _, cont, _, h⟩ := h
  by_cases hc : cont.Instance = none
  · simp only [hc, ne_eq, not_true_eq_false, if_false, Option.pure_def, Option.some.injEq,
      Prod.mk.injEq] at h
    obtain ⟨hw, hn⟩ := h
    subst hw
    exact ⟨hn.symm, rfl, _, rfl, rfl, rfl⟩
  · simp [hc] at h

/-- What the first part of Instantiate returns when it does not abort: the new
instance, pointing to the descriptor, sits at the first free address and the live
lists are untouched. -/
theorem Instantiate_create_eq_some
    (CreateTextures : List FOutputInstance → List FOutputInstance)
    (w w2 : World) (D : Nat) (Parent : Option Nat)
    (bCreateOutputs bDynamicInstance : Bool) (NewGuid I : Nat)
    (h : FGraphDesc.Instantiate_create CreateTextures w D Parent bCreateOutputs
      bDynamicInstance NewGuid = some (w2, I)) :
    I = w.Instances.length ∧
    ∃ i2 d d1, w.Descs[D]? = some d ∧ w2.Descs = w.Descs.set D d1 ∧
      d1.LoadedInstances = d.LoadedInstances ∧
      w2.Instances = w.Instances ++ [i2] ∧ i2.Desc = some D ∧
      i2.bIsFreezed = !bDynamicInstance := by
  unfold FGraphDesc.Instantiate_create at h
  simp only [Option.bind_eq_bind, Option.bind_eq_some] at h
  obtain ⟨⟨w0, n⟩, hc, i, hi, d, hd, h⟩ := h
  obtain ⟨hn, hD0, inst, hI0, hdesc, _⟩ := construct_eq_some w w0 (some D) Parent NewGuid n hc
  simp only at hi hd h
  rw [hD0] at hd
  have hset : ∀ x : FGraphInstance, w0.Instances.set n x = w.Instances ++ [x] := by
    intro x
    rw [hI0, hn]
    simp
  have hi0 : i = inst := by
    rw [hI0, hn, List.getElem?_concat_length] at hi
    exact (Option.some.inj hi).symm
  subst hi0
  simp only [Option.pure_def, Option.some.injEq, Prod.mk.injEq] at h
  obtain ⟨hw, hIn⟩ := h
  subst hw
  subst hIn
  refine ⟨hn, if bCreateOutputs = true then
      { i with bIsFreezed := !bDynamicInstance, Outputs := CreateTextures i.Outputs }
    else { i with bIsFreezed := !bDynamicInstance }, d,
    { d with InstanceUids := AddUnique d.InstanceUids i.InstanceGuid }, hd, ?_, rfl, ?_, ?_, ?_⟩
  · show w0.Descs.set D _ = w.Descs.set D _
    rw [hD0]
  · exact hset _
  · cases bCreateOutputs <;> exact hdesc
  · cases bCreateOutputs <;> rfl

/-- What Instantiate returns when it does not abort: the result of its first part,
followed by Subscribe when `bSubscribeInstance` is set. -/
theorem Instantiate_eq_some (CreateTextures : List FOutputInstance → List FOutputInstance)
    (w w1 : World) (D : Nat) (Parent : Option Nat)
    (bCreateOutputs bSubscribeInstance bDynamicInstance : Bool) (NewGuid I : Nat)
    (h : FGraphDesc.Instantiate CreateTextures w D Parent bCreateOutputs bSubscribeInstance
      bDynamicInstance NewGuid = some (w1, I)) :
    ∃ w2, FGraphDesc.Instantiate_create CreateTextures w D Parent bCreateOutputs
        bDynamicInstance NewGuid = some (w2, I) ∧
      (if bSubscribeInstance = true then FGraphDesc.Subscribe w2 D I = some w1 else w1 = w2) := by
  unfold FGraphDesc.Instantiate at h
  simp only [Option.bind_eq_bind, Option.bind_eq_some] at h
  obtain ⟨⟨w2, n⟩, hc, h⟩ := h
  cases bSubscribeInstance with
  | true =>
    simp only [if_true, Option.bind_eq_some, Option.pure_def, Option.some.injEq,
      Prod.mk.injEq] at h
    obtain ⟨w3, hS, hw, hIn⟩ := h
    subst hw
    subst hIn
    exact ⟨w2, hc, by simpa using hS⟩
  | false =>
    simp only [Bool.false_eq_true, if_false, Option.pure_def, Option.some.injEq,
      Prod.mk.injEq] at h
    obtain ⟨hw, hIn⟩ := h
    subst hw
    subst hIn
    exact ⟨w2, hc, by simp⟩

/-- Instantiate with `bSubscribeInstance = true` keeps the descriptor pointer
invariant. -/
theorem Instantiate_preserves (CreateTextures : List FOutputInstance → List FOutputInstance)
    (w w1 : World) (D : Nat) (Parent : Option Nat)
    (bCreateOutputs bDynamicInstance : Bool) (NewGuid I : Nat) (hinv : w.DescInvariant)
    (h : FGraphDesc.Instantiate CreateTextures w D Parent bCreateOutputs true
      bDynamicInstance NewGuid = some (w1, I)) : w1.DescInvariant := by
  obtain ⟨w2, hc, hS⟩ := Instantiate_eq_some CreateTextures w w1 D Parent bCreateOutputs true
    bDynamicInstance NewGuid I h
  simp only [if_true] at hS
  obtain ⟨hI, i2, d, d1, hd, hD2, hL2, hI2, hdesc2, _⟩ :=
    Instantiate_create_eq_some CreateTextures w w2 D Parent bCreateOutputs bDynamicInstance
      NewGuid I hc
  obtain ⟨e, e1, _, p, pkg, he, _, _, _, _, hD1, hL1, _, hI1, _, _⟩ := Subscribe_eq_some w2 w1 D I hS
  have hDlt : D < w.Descs.length := (List.getElem?_eq_some.1 hd).1
  have hDlt2 : D < w2.Descs.length := by rw [hD2]; simpa using hDlt
  have hgrow : ∀ (E : Nat) (x : FGraphDesc), w.Descs[E]? = some x →
      ∃ x1, w1.Descs[E]? = some x1 ∧ x.LoadedInstances ⊆ x1.LoadedInstances := by
    intro E x hx
    obtain ⟨x2, hx2, hsub2⟩ := descs_grow_of_set w.Descs D d d1 hd (by rw [hL2]; exact fun _ h => h)
      E x hx
    rw [← hD2] at hx2
    obtain ⟨x1, hx1, hsub1⟩ := descs_grow_of_set w2.Descs D e e1 he
      (by rw [hL1]; exact List.subset_append_left _ _) E x2 hx2
    rw [← hD1] at hx1
    exact ⟨x1, hx1, fun _ hm => hsub1 (hsub2 hm)⟩
  intro k j hk
  rw [hI1, hI2] at hk
  by_cases hlt : k < w.Instances.length
  · rw [List.getElem?_append_left hlt] at hk
    exact InstanceAttached_mono w w1 k j j hgrow rfl (hinv k j hk)
  · have hk2 : k = w.Instances.length := by
      have hlen := (List.getElem?_eq_some.1 hk).1
      simp only [List.length_append, List.length_singleton] at hlen
      omega
    subst hk2
    rw [List.getElem?_concat_length] at hk
    cases hk
    refine Or.inr ⟨D, e1, hdesc2, by rw [hD1]; exact List.getElem?_set_self hDlt2, ?_⟩
    rw [hL1, hI]
    simp

/-- A freshly loaded world satisfies the descriptor pointer invariant. -/
theorem FreshlyLoaded_invariant (w : World) (h : w.FreshlyLoaded) : w.DescInvariant := by
  intro k i hk
  rw [h.1] at hk
  simp at hk

/-- C2, amended. In every state reached from freshly loaded descriptors by calls of
Instantiate that subscribe the new instance, Subscribe and UnSubscribe, none of
which aborts, every graph instance has a null descriptor pointer or points to a
descriptor whose live-instance list contains it. -/
theorem Reachable_DescInvariant (CreateTextures : List FOutputInstance → List FOutputInstance)
    (w : World) (h : Reachable CreateTextures true w) : w.DescInvariant := by
  induction h with
  | fresh w hf => exact FreshlyLoaded_invariant w hf
  | Instantiate w w1 D Parent bCreateOutputs bSubscribeInstance bDynamicInstance NewGuid I _
      hsub hrun ih =>
    rw [hsub rfl] at hrun
    exact Instantiate_preserves CreateTextures w w1 D Parent bCreateOutputs bDynamicInstance
      NewGuid I ih hrun
  | Subscribe w w1 D I _ hrun ih => exact Subscribe_preserves w w1 D I ih hrun
  | UnSubscribe w w1 D I _ hrun ih => exact UnSubscribe_preserves w w1 D I ih hrun

/-- The world `looseWorld` is what Instantiate returns on the fresh world when it
is told not to subscribe. -/
theorem Instantiate_freshWorld :
    FGraphDesc.Instantiate id freshWorld 0 (some 0) false false false 7 =
      some ({ looseWorld with Descs := [{ emptyDesc with InstanceUids := [7] }] }, 0) := by
  decide

/-- C2, as stated, fails: Instantiate with `bSubscribeInstance = false` on a freshly
loaded world returns an instance that points to descriptor 0 while the live list of
descriptor 0 is empty. -/
theorem Reachable_not_DescInvariant :
    ∃ w, Reachable id false w ∧ ¬ w.DescInvariant := by
  refine ⟨{ looseWorld with Descs := [{ emptyDesc with InstanceUids := [7] }] }, ?_, ?_⟩
  · refine Reachable.Instantiate freshWorld _ 0 (some 0) false false false 7 0 ?_ ?_
      Instantiate_freshWorld
    · exact Reachable.fresh freshWorld ⟨rfl, by simp [freshWorld, emptyDesc]⟩
    · intro h
      cases h
  · intro hinv
    rcases hinv 0 looseInstance rfl with h | ⟨D, d, hD, hd, hmem⟩
    · simp [looseInstance] at h
    · have hD0 : D = 0 := by
        simp only [looseInstance, Option.some.injEq] at hD
        exact hD.symm
      subst hD0
      simp only [List.getElem?_cons_zero, Option.some.injEq] at hd
      subst hd
      simp [emptyDesc] at hmem

/-- The subscribing Instantiate on the fresh world. -/
theorem Instantiate_subscribe_freshWorld :
    FGraphDesc.Instantiate id freshWorld 0 (some 0) false true false 7 =
      some (subscribedWorld, 0) := by
  decide

/-- C2, amended, at a concrete state: the world reached by one subscribing
Instantiate. -/
theorem Reachable_DescInvariant_witness :
    Reachable id true subscribedWorld ∧ subscribedWorld.DescInvariant :=
  have hr : Reachable id true subscribedWorld :=
    Reachable.Instantiate freshWorld subscribedWorld 0 (some 0) false true false 7 0
      (Reachable.fresh freshWorld ⟨rfl, by simp [freshWorld, emptyDesc]⟩) (fun _ => rfl)
      Instantiate_subscribe_freshWorld
  ⟨hr, Reachable_DescInvariant id subscribedWorld hr⟩

/-! ## The hash of the heavy input defaults: theorems -/

/-- The loop appends to the hash it starts from. -/
theorem getDefaultHeavyInputHash_loop_append (Printf_f : Nat → FString)
    (l : List FInputDesc) (Hash : FString) :
    getDefaultHeavyInputHash_loop Printf_f l Hash =
      Hash ++ getDefaultHeavyInputHash_loop Printf_f l "" := by
  induction l generalizing Hash with
  | nil => simp [getDefaultHeavyInputHash_loop]
  | cons a l ih =>
    simp only [getDefaultHeavyInputHash_loop]
    split
    · rw [ih (Hash ++ _), ih ("" ++ _)]
      simp [String.append_assoc]
    · exact ih Hash

/-- The hash of a list that starts with a heavy input. -/
theorem getDefaultHeavyInputHash_loop_heavy (Printf_f : Nat → FString)
    (a : FInputDesc) (l : List FInputDesc) (h : a.IsHeavyDuty = true) :
    getDefaultHeavyInputHash_loop Printf_f (a :: l) "" =
      a.HeavyInputHash Printf_f ++ getDefaultHeavyInputHash_loop Printf_f l "" := by
  simp only [getDefaultHeavyInputHash_loop, h, if_true]
  rw [getDefaultHeavyInputHash_loop_append]
  simp

/-- The hash of a list that starts with an input that is not heavy. -/
theorem getDefaultHeavyInputHash_loop_light (Printf_f : Nat → FString)
    (a : FInputDesc) (l : List FInputDesc) (h : a.IsHeavyDuty = false) :
    getDefaultHeavyInputHash_loop Printf_f (a :: l) "" =
      getDefaultHeavyInputHash_loop Printf_f l "" := by
  simp [getDefaultHeavyInputHash_loop, h]

/-- Changing default values of inputs that are not flagged heavy does not change
what the loop computes. -/
theorem getDefaultHeavyInputHash_loop_light_default (Printf_f : Nat → FString)
    (l1 l2 : List FInputDesc) (h : List.Forall₂ SameButLightDefault l1 l2) :
    getDefaultHeavyInputHash_loop Printf_f l1 "" =
      getDefaultHeavyInputHash_loop Printf_f l2 "" := by
  induction h with
  | nil => rfl
  | @cons a b l1 l2 hab _ ih =>
    rcases hab with hab | ⟨hlight, v, hb⟩
    · subst hab
      cases hh : a.IsHeavyDuty with
      | true =>
        rw [getDefaultHeavyInputHash_loop_heavy _ _ _ hh,
          getDefaultHeavyInputHash_loop_heavy _ _ _ hh, ih]
      | false =>
        rw [getDefaultHeavyInputHash_loop_light _ _ _ hh,
          getDefaultHeavyInputHash_loop_light _ _ _ hh, ih]
    · have hlb : b.IsHeavyDuty = false := by rw [hb]; exact hlight
      rw [getDefaultHeavyInputHash_loop_light _ _ _ hlight,
        getDefaultHeavyInputHash_loop_light _ _ _ hlb, ih]

/-- C4. Two descriptors whose input lists are the same but for default values of
inputs that are not flagged heavy have the same hash, whatever else differs
between the descriptors. -/
theorem getDefaultHeavyInputHash_light_default (Printf_f : Nat → FString)
    (d1 d2 : FGraphDesc)
    (h : List.Forall₂ SameButLightDefault d1.InputDescs d2.InputDescs) :
    d1.getDefaultHeavyInputHash Printf_f = d2.getDefaultHeavyInputHash Printf_f :=
  getDefaultHeavyInputHash_loop_light_default Printf_f _ _ h

/-- C4 at concrete descriptors: a light Integer2 input with two different defaults,
followed by the same heavy Integer input. -/
theorem getDefaultHeavyInputHash_light_default_witness :
    List.Forall₂ SameButLightDefault
      (descOfInputs [mkInput 1 false (.Integer2 1 2), mkInput 2 true (.Integer 5)]).InputDescs
      (descOfInputs [mkInput 1 false (.Integer2 3 4), mkInput 2 true (.Integer 5)]).InputDescs ∧
    (descOfInputs [mkInput 1 false (.Integer2 1 2),
        mkInput 2 true (.Integer 5)]).getDefaultHeavyInputHash Printf_f_zero =
      (descOfInputs [mkInput 1 false (.Integer2 3 4),
        mkInput 2 true (.Integer 5)]).getDefaultHeavyInputHash Printf_f_zero :=
  have h : List.Forall₂ SameButLightDefault
      (descOfInputs [mkInput 1 false (.Integer2 1 2), mkInput 2 true (.Integer 5)]).InputDescs
      (descOfInputs [mkInput 1 false (.Integer2 3 4), mkInput 2 true (.Integer 5)]).InputDescs :=
    List.Forall₂.cons (Or.inr ⟨rfl, .Integer2 3 4, rfl⟩)
      (List.Forall₂.cons (Or.inl rfl) List.Forall₂.nil)
  ⟨h, getDefaultHeavyInputHash_light_default Printf_f_zero _ _ h⟩

/-- The digits that `Nat.toDigitsCore` puts in front of the accumulator. -/
theorem toDigitsCore_eq_digits (fuel : Nat) : ∀ (n : Nat) (ds : List Char), 0 < n → n < fuel →
    Nat.toDigitsCore 10 fuel n ds = (Nat.digits 10 n).reverse.map Nat.digitChar ++ ds := by
  induction fuel with
  | zero => intro n ds _ h; omega
  | succ fuel ih =>
    intro n ds hpos hlt
    have hd : Nat.digits 10 n = (n % 10) :: Nat.digits 10 (n / 10) :=
      Nat.digits_def' (by norm_num) hpos
    simp only [Nat.toDigitsCore]
    by_cases h0 : n / 10 = 0
    · simp [h0, hd]
    · simp only [h0, if_false]
      rw [ih (n / 10) _ (Nat.pos_of_ne_zero h0) (by omega), hd]
      simp

/-- The characters of the decimal text of a natural number. -/
theorem repr_data (n : Nat) :
    (Nat.repr n).data = if n = 0 then ['0'] else (Nat.digits 10 n).reverse.map Nat.digitChar := by
  by_cases h : n = 0
  · subst h; rfl
  · simp only [h, if_false]
    show Nat.toDigitsCore 10 (n + 1) n [] = _
    rw [toDigitsCore_eq_digits (n + 1) n [] (Nat.pos_of_ne_zero h) (by omega)]
    simp

/-- The ten digit characters: none is a semicolon or a minus sign, and each has
its digit as value. -/
theorem digitChar_facts : ∀ d < 10, Nat.digitChar d ≠ ';' ∧ Nat.digitChar d ≠ '-' ∧
    digitValue (Nat.digitChar d) = d := by
  decide

/-- Every character of the decimal text of a natural number is a digit. -/
theorem repr_chars (n : Nat) : ∀ c ∈ (Nat.repr n).data, ∃ d < 10, c = Nat.digitChar d := by
  intro c hc
  rw [repr_data] at hc
  by_cases h : n = 0
  · simp only [h, if_true, List.mem_singleton] at hc
    exact ⟨0, by norm_num, hc⟩
  · simp only [h, if_false, List.mem_map, List.mem_reverse] at hc
    obtain ⟨d, hd, rfl⟩ := hc
    exact ⟨d, Nat.digits_lt_base (by norm_num) hd, rfl⟩

/-- Reading back the characters of a digit list gives the number of the digits. -/
theorem parseDecimal_digits (l : List Nat) (hl : ∀ d ∈ l, d < 10) :
    parseDecimal (l.reverse.map Nat.digitChar) = Nat.ofDigits 10 l := by
  unfold parseDecimal
  induction l with
  | nil => rfl
  | cons a l ih =>
    rw [List.reverse_cons, List.map_append, List.foldl_append, ih (fun d hd => hl d (List.mem_cons_of_mem _ hd))]
    simp only [List.map_cons, List.map_nil, List.foldl_cons, List.foldl_nil, Nat.ofDigits_cons]
    rw [(digitChar_facts a (hl a (List.mem_cons_self _ _))).2.2]
    ring

/-- Reading back the decimal text of a number gives the number. -/
theorem parseDecimal_repr (n : Nat) : parseDecimal (Nat.repr n).data = n := by
  rw [repr_data]
  by_cases h : n = 0
  · subst h; rfl
  · simp only [h, if_false]
    rw [parseDecimal_digits _ (fun d hd => Nat.digits_lt_base (by norm_num) hd), Nat.ofDigits_digits]

/-- Two natural numbers with the same decimal text are equal. -/
theorem repr_injective (n m : Nat) (h : (Nat.repr n).data = (Nat.repr m).data) : n = m := by
  rw [← parseDecimal_repr n, ← parseDecimal_repr m, h]

/-- The conversion `%d` never prints a semicolon. -/
theorem Printf_d_no_semicolon (x : Int) : ';' ∉ (Printf_d x).data := by
  intro h
  cases x with
  | ofNat n =>
    obtain ⟨d, hd, hc⟩ := repr_chars n _ h
    exact (digitChar_facts d hd).1 hc.symm
  | negSucc n =>
    simp only [Printf_d, String.data_append, List.mem_append] at h
    rcases h with h | h
    · revert h; decide
    · obtain ⟨d, hd, hc⟩ := repr_chars _ _ h
      exact (digitChar_facts d hd).1 hc.symm

/-- Two integers with the same `%d` text are equal. -/
theorem Printf_d_injective (x y : Int) (h : (Printf_d x).data = (Printf_d y).data) : x = y := by
  have hminus : ∀ n : Nat, '-' ∉ (Nat.repr n).data := by
    intro n hm
    obtain ⟨d, hd, hc⟩ := repr_chars n _ hm
    exact (digitChar_facts d hd).2.1 hc.symm
  cases x with
  | ofNat n =>
    cases y with
    | ofNat m => exact congrArg Int.ofNat (repr_injective n m h)
    | negSucc m =>
      exfalso
      simp only [Printf_d, String.data_append] at h
      apply hminus n
      rw [h]
      simp
  | negSucc n =>
    cases y with
    | ofNat m =>
      exfalso
      simp only [Printf_d, String.data_append] at h
      apply hminus m
      rw [← h]
      simp
    | negSucc m =>
      simp only [Printf_d, String.data_append, List.append_cancel_left_eq] at h
      have := repr_injective _ _ h
      have hnm : n = m := by omega
      rw [hnm]

/-- Two texts without the separator, each followed by the separator and anything,
are equal when the whole texts are. -/
theorem append_sep_inj (c : Char) : ∀ (l1 l2 r1 r2 : List Char), c ∉ l1 → c ∉ l2 →
    l1 ++ c :: r1 = l2 ++ c :: r2 → l1 = l2 := by
  intro l1
  induction l1 with
  | nil =>
    intro l2 r1 r2 _ h2 h
    cases l2 with
    | nil => rfl
    | cons b l2 =>
      simp only [List.nil_append, List.cons_append, List.cons.injEq] at h
      exact absurd (h.1 ▸ List.mem_cons_self _ _) h2
  | cons a l1 ih =>
    intro l2 r1 r2 h1 h2 h
    cases l2 with
    | nil =>
      simp only [List.nil_append, List.cons_append, List.cons.injEq] at h
      exact absurd (h.1 ▸ List.mem_cons_self _ _) h1
    | cons b l2 =>
      simp only [List.cons_append, List.cons.injEq] at h
      rw [h.1, ih l2 r1 r2 (fun hm => h1 (List.mem_cons_of_mem _ hm))
        (fun hm => h2 (List.mem_cons_of_mem _ hm)) h.2]

/-- Changing the default of heavy Integer inputs, at one place at least, changes
what the loop computes. -/
theorem getDefaultHeavyInputHash_loop_Integer_default (Printf_f : Nat → FString)
    (l1 l2 : List FInputDesc) (h : List.Forall₂ SameButHeavyIntegerDefault l1 l2)
    (hne : l1 ≠ l2) :
    getDefaultHeavyInputHash_loop Printf_f l1 "" ≠
      getDefaultHeavyInputHash_loop Printf_f l2 "" := by
  induction h with
  | nil => exact absurd rfl hne
  | @cons a b l1 l2 hab _ ih =>
    have hsame : a = b → getDefaultHeavyInputHash_loop Printf_f (a :: l1) "" ≠
        getDefaultHeavyInputHash_loop Printf_f (b :: l2) "" := by
      intro hab
      subst hab
      have hl : l1 ≠ l2 := fun e => hne (by rw [e])
      cases hh : a.IsHeavyDuty with
      | true =>
        rw [getDefaultHeavyInputHash_loop_heavy _ _ _ hh,
          getDefaultHeavyInputHash_loop_heavy _ _ _ hh]
        intro e
        apply ih hl
        have e1 := congrArg String.data e
        simp only [String.data_append, List.append_cancel_left_eq] at e1
        exact String.ext e1
      | false =>
        rw [getDefaultHeavyInputHash_loop_light _ _ _ hh,
          getDefaultHeavyInputHash_loop_light _ _ _ hh]
        exact ih hl
    rcases hab with hab | ⟨hheavy, x, y, hx, hb⟩
    · exact hsame hab
    · by_cases hxy : x = y
      · apply hsame
        rw [hb, ← hxy, ← hx]
      · have hhb : b.IsHeavyDuty = true := by rw [hb]; exact hheavy
        have hy : b.DefaultValue = .Integer y := by rw [hb]
        rw [getDefaultHeavyInputHash_loop_heavy _ _ _ hheavy,
          getDefaultHeavyInputHash_loop_heavy _ _ _ hhb]
        intro e
        have e1 := congrArg String.data e
        simp only [FInputDesc.HeavyInputHash, hx, hy, String.data_append,
          List.append_assoc] at e1
        exact hxy (Printf_d_injective x y
          (append_sep_inj ';' _ _ _ _ (Printf_d_no_semicolon x) (Printf_d_no_semicolon y) e1))

/-- C3, amended. Two descriptors with the same input list that differ only in the
default value of heavy inputs of type Integer, at one place at least, have
different hashes. -/
theorem getDefaultHeavyInputHash_Integer_default (Printf_f : Nat → FString)
    (d1 d2 : FGraphDesc)
    (h : List.Forall₂ SameButHeavyIntegerDefault d1.InputDescs d2.InputDescs)
    (hne : d1.InputDescs ≠ d2.InputDescs) :
    d1.getDefaultHeavyInputHash Printf_f ≠ d2.getDefaultHeavyInputHash Printf_f :=
  getDefaultHeavyInputHash_loop_Integer_default Printf_f _ _ h hne

/-- C3, amended, at concrete descriptors: an Integer2 input kept as it is and a
heavy Integer input whose default goes from 5 to 6. -/
theorem getDefaultHeavyInputHash_Integer_default_witness :
    (descOfInputs [mkInput 1 true (.Integer2 1 2),
        mkInput 2 true (.Integer 5)]).getDefaultHeavyInputHash Printf_f_zero ≠
      (descOfInputs [mkInput 1 true (.Integer2 1 2),
        mkInput 2 true (.Integer 6)]).getDefaultHeavyInputHash Printf_f_zero :=
  getDefaultHeavyInputHash_Integer_default Printf_f_zero
    (descOfInputs [mkInput 1 true (.Integer2 1 2), mkInput 2 true (.Integer 5)])
    (descOfInputs [mkInput 1 true (.Integer2 1 2), mkInput 2 true (.Integer 6)])
    (List.Forall₂.cons (Or.inl rfl)
      (List.Forall₂.cons (Or.inr ⟨rfl, 5, 6, rfl, rfl⟩) List.Forall₂.nil))
    (by decide)

/-- C3, as stated, fails: two descriptors with one heavy Integer2 input each, with
the defaults (1, 23) and (12, 3), have the same hash `123;`. -/
theorem getDefaultHeavyInputHash_Integer2_collision :
    mkInput 1 true (.Integer2 1 23) ≠ mkInput 1 true (.Integer2 12 3) ∧
    (mkInput 1 true (.Integer2 1 23)).InputType = (mkInput 1 true (.Integer2 12 3)).InputType ∧
    (descOfInputs [mkInput 1 true (.Integer2 1 23)]).getDefaultHeavyInputHash Printf_f_zero =
      (descOfInputs [mkInput 1 true (.Integer2 12 3)]).getDefaultHeavyInputHash Printf_f_zero := by
  decide

/-- C5: a heavy image input that references a live image asset adds `NoImage;` to
the hash, not the full name of the asset. -/
theorem getDefaultHeavyInputHash_live_image :
    (descOfInputs [mkInput 1 true (.Image (some liveImage))]).getDefaultHeavyInputHash
      Printf_f_zero = "NoImage;" := by
  decide

/-! ## Image input updates: theorems -/

/-- The loop over the altered outputs only appends to the record of marked
outputs, one entry for each unit of the count; it touches neither the inputs, nor
the pending flag, nor the container, nor the mark of the container package. -/
theorem SetImageInputHelper_outputs_spec (l : List Nat) :
    ∀ (s s1 : UpdateState) (acc n : Int),
      SetImageInputHelper_outputs l s acc = some (n, s1) →
      (∃ added, s1.Marked = s.Marked ++ added ∧ n = acc + added.length) ∧
      s1.bContainerDirty = s.bContainerDirty ∧
      s1.Instance.Inputs = s.Instance.Inputs ∧
      s1.Instance.bHasPendingImageInputRendering = s.Instance.bHasPendingImageInputRendering ∧
      s1.Instance.ParentInstance = s.Instance.ParentInstance := by
  induction l with
  | nil =>
    intro s s1 acc n h
    simp only [SetImageInputHelper_outputs, Option.some.injEq, Prod.mk.injEq] at h
    obtain ⟨h1, h2⟩ := h
    subst h1
    subst h2
    exact ⟨⟨[], by simp, by simp⟩, rfl, rfl, rfl, rfl⟩
  | cons u l ih =>
    intro s s1 acc n h
    simp only [SetImageInputHelper_outputs] at h
    split at h
    · exact ih s s1 acc n h
    · split at h
      · split at h
        · exact absurd h (by simp)
        · rename_i Idx OutputModified _ _ _ Texture _
          obtain ⟨⟨added, hm, hn⟩, hc, hi, hp, hpar⟩ := ih _ s1 _ n h
          refine ⟨⟨(Idx, Texture) :: added, ?_, ?_⟩, hc, hi, hp, hpar⟩
          · rw [hm]
            simp
          · rw [hn]
            simp only [List.length_cons, Nat.cast_add, Nat.cast_one]
            ring
      · exact ih s s1 acc n h

/-- Doing nothing is an update that counts nothing. -/
theorem UpdateEffect_refl (s : UpdateState) : UpdateEffect s 0 s :=
  ⟨⟨[], by simp, by simp⟩, by simp, fun h => h, fun _ => ⟨rfl, rfl⟩⟩

/-- Two updates in a row add their counts. -/
theorem UpdateEffect_trans (s s1 s2 : UpdateState) (n m : Int)
    (h1 : UpdateEffect s n s1) (h2 : UpdateEffect s1 m s2) : UpdateEffect s (n + m) s2 := by
  obtain ⟨⟨a1, hm1, hn1⟩, hc1, hp1, hz1⟩ := h1
  obtain ⟨⟨a2, hm2, hn2⟩, hc2, hp2, hz2⟩ := h2
  have hn0 : (0 : Int) ≤ n := by rw [hn1]; exact Int.natCast_nonneg _
  have hm0 : (0 : Int) ≤ m := by rw [hn2]; exact Int.natCast_nonneg _
  refine ⟨⟨a1 ++ a2, ?_, ?_⟩, ?_, fun h => hp2 (hp1 h), ?_⟩
  · rw [hm2, hm1, List.append_assoc]
  · rw [hn1, hn2]
    simp
  · rw [hc2, hc1, Bool.or_assoc]
    congr 1
    by_cases hn : 0 < n <;> by_cases hm : 0 < m <;> simp [hn, hm] <;> omega
  · intro h
    have h1f : s1.Instance.bHasPendingImageInputRendering = false := by
      cases hs : s1.Instance.bHasPendingImageInputRendering with
      | false => rfl
      | true => rw [hp2 hs] at h; exact absurd h (by simp)
    obtain ⟨hm0, ho2⟩ := hz2 h
    obtain ⟨hn0, ho1⟩ := hz1 h1f
    exact ⟨by rw [hn0, hm0]; rfl, ho2.trans ho1⟩

/-- What `SetImageInputHelper` does when it does not abort: the first input with
the uid of the descriptor is an image input and receives the new source, and the
rest of the state changes as `UpdateEffect` says. -/
theorem SetImageInputHelper_spec (E : Engine) (d : FInputDesc) (v : Option Nat)
    (s s1 : UpdateState) (n : Int) (h : SetImageInputHelper E d v s = some (n, s1)) :
    (∃ Idx InputInst, GetInput_loop d.Uid s.Instance.Inputs 0 = some (Idx, InputInst) ∧
      InputInst.IsNumerical = false ∧
      s1.Instance.Inputs = s.Instance.Inputs.set Idx
        { InputInst with State := .Image v (E.PrepareImageInput v) }) ∧
    UpdateEffect s n s1 := by
  unfold SetImageInputHelper at h
  split at h
  · exact absurd h (by simp)
  · rename_i Idx InputInst hfind
    cases hnum : InputInst.IsNumerical with
    | true => simp [hnum] at h
    | false =>
      simp only [hnum, Bool.false_eq_true, if_false, FImageInputInstance.SetImageInput] at h
      generalize hp : (s.Instance.bHasPendingImageInputRendering ||
        E.raisesPending s.Instance InputInst v) = p at h
      cases p with
      | false =>
        simp only [Bool.not_false, if_true, Option.some.injEq, Prod.mk.injEq] at h
        obtain ⟨h0, hs⟩ := h
        subst h0
        subst hs
        refine ⟨⟨Idx, InputInst, hfind, hnum, rfl⟩, ⟨[], by simp, by simp⟩, by simp, ?_,
          fun _ => ⟨rfl, rfl⟩⟩
        intro hs
        rw [hs] at hp
        simp at hp
      | true =>
        simp only [Bool.not_true, Bool.false_eq_true, if_false] at h
        split at h
        · exact absurd h (by simp)
        · rename_i m s2 hout
          obtain ⟨⟨added, hm, hn⟩, hc, hi, hpend, hpar⟩ :=
            SetImageInputHelper_outputs_spec _ _ _ _ _ hout
          simp only [zero_add] at hn
          by_cases hm0 : m = 0
          · simp only [hm0, ne_eq, not_true_eq_false, if_false, Option.some.injEq,
              Prod.mk.injEq] at h
            obtain ⟨h0, hs⟩ := h
            subst h0
            subst hs
            refine ⟨⟨Idx, InputInst, hfind, hnum, hi⟩, ⟨added, hm, by rw [← hm0, hn]⟩,
              by simpa using hc, fun _ => hpend, ?_⟩
            intro hf
            rw [hpend] at hf
            exact absurd hf (by simp)
          · simp only [hm0, ne_eq, not_false_eq_true, if_true] at h
            split at h
            · exact absurd h (by simp)
            · simp only [Option.some.injEq, Prod.mk.injEq] at h
              obtain ⟨h0, hs⟩ := h
              subst h0
              subst hs
              have hpos : 0 < m := by
                rw [hn] at hm0 ⊢
                have : (0 : Int) ≤ (added.length : Int) := Int.natCast_nonneg _
                omega
              refine ⟨⟨Idx, InputInst, hfind, hnum, hi⟩, ⟨added, hm, hn⟩, by simp [hpos],
                fun _ => hpend, ?_⟩
              intro hf
              have hf2 : s2.Instance.bHasPendingImageInputRendering = false := hf
              rw [hpend] at hf2
              exact absurd hf2 (by simp)

/-- The loop over the input descriptors adds up the effects of the updates it
makes. -/
theorem UpdateInput_descs_effect (E : Engine) (sel : FInputDesc → Bool) (v : Option Nat)
    (l : List FInputDesc) :
    ∀ (s s1 : UpdateState) (acc n : Int),
      UpdateInput_descs E sel v l s acc = some (n, s1) → UpdateEffect s (n - acc) s1 := by
  induction l with
  | nil =>
    intro s s1 acc n h
    simp only [UpdateInput_descs, Option.some.injEq, Prod.mk.injEq] at h
    obtain ⟨h1, h2⟩ := h
    subst h1
    subst h2
    simpa using UpdateEffect_refl s
  | cons d l ih =>
    intro s s1 acc n h
    simp only [UpdateInput_descs] at h
    split at h
    · split at h
      · exact absurd h (by simp)
      · rename_i m s2 hh
        have e1 := (SetImageInputHelper_spec E d v s s2 m hh).2
        have e2 := ih s2 s1 (acc + m) n h
        have e := UpdateEffect_trans s s2 s1 m (n - (acc + m)) e1 e2
        have hsum : m + (n - (acc + m)) = n - acc := by ring
        rw [hsum] at e
        exact e
    · exact ih s s1 acc n h

/-- The loop of the branch `Uid == 0` adds up the effects of the updates it
makes. -/
theorem UpdateInput_reimported_effect (E : Engine) (v : Option Nat) (l : List Nat) :
    ∀ (s s1 : UpdateState) (acc n : Int),
      UpdateInput_reimported E v l s acc = some (n, s1) → UpdateEffect s (n - acc) s1 := by
  induction l with
  | nil =>
    intro s s1 acc n h
    simp only [UpdateInput_reimported, Option.some.injEq, Prod.mk.injEq] at h
    obtain ⟨h1, h2⟩ := h
    subst h1
    subst h2
    simpa using UpdateEffect_refl s
  | cons k l ih =>
    intro s s1 acc n h
    simp only [UpdateInput_reimported] at h
    split at h
    · exact absurd h (by simp)
    · split at h
      · split at h
        · exact absurd h (by simp)
        · rename_i m s2 hh
          have e1 := (SetImageInputHelper_spec E _ v s s2 m hh).2
          have e2 := ih s2 s1 (acc + m) n h
          have e := UpdateEffect_trans s s2 s1 m (n - (acc + m)) e1 e2
          have hsum : m + (n - (acc + m)) = n - acc := by ring
          rw [hsum] at e
          exact e
      · exact ih s s1 acc n h

/-- Both overloads of `UpdateInput`, when they return, have the effect described by
`UpdateEffect`. -/
theorem UpdateInput_effect (E : Engine) (s s1 : UpdateState) (Uid : Nat)
    (ParameterName : FString) (v : Option Nat) (n : Int)
    (h : FGraphInstance.UpdateInput E s Uid v = some (n, s1) ∨
      FGraphInstance.UpdateInput_name E s ParameterName v = some (n, s1)) :
    UpdateEffect s n s1 := by
  rcases h with h | h
  · unfold FGraphInstance.UpdateInput at h
    split at h
    · exact absurd h (by simp)
    · simp only at h
      split at h
      · simpa using UpdateInput_reimported_effect E v _ s s1 0 n h
      · split at h
        · exact absurd h (by simp)
        · simpa using UpdateInput_descs_effect E _ v _ s s1 0 n h
  · unfold FGraphInstance.UpdateInput_name at h
    split at h
    · exact absurd h (by simp)
    · split at h
      · exact absurd h (by simp)
      · simpa using UpdateInput_descs_effect E _ v _ s s1 0 n h

/-- C7, amended. When either overload of UpdateInput returns `n`, the call has
flagged outputs dirty exactly `n` times, an output being counted once for each
time it was flagged, so that the number of distinct outputs flagged is at most
`n`; and the package of the container is dirty afterwards if and only if it was
before or `n` is positive. -/
theorem UpdateInput_count (E : Engine) (s s1 : UpdateState) (Uid : Nat)
    (ParameterName : FString) (v : Option Nat) (n : Int)
    (h : FGraphInstance.UpdateInput E s Uid v = some (n, s1) ∨
      FGraphInstance.UpdateInput_name E s ParameterName v = some (n, s1)) :
    (∃ added, s1.Marked = s.Marked ++ added ∧ n = added.length ∧
      (((added.map Prod.fst).dedup.length : Nat) : Int) ≤ n) ∧
    s1.bContainerDirty = (s.bContainerDirty || decide (0 < n)) := by
  obtain ⟨⟨added, hm, hn⟩, hc, _, _⟩ := UpdateInput_effect E s s1 Uid ParameterName v n h
  refine ⟨⟨added, hm, hn, ?_⟩, hc⟩
  rw [hn]
  have h1 : (added.map Prod.fst).dedup.length ≤ (added.map Prod.fst).length :=
    (List.dedup_sublist _).length_le
  rw [List.length_map] at h1
  exact_mod_cast h1

/-- C7, as stated, fails: with two image inputs sourced from image 5 that both
alter output A, `UpdateInput(0, image 5)` returns 2 while one output only was
flagged, and one output only has a dirty flag that differs from before. -/
theorem UpdateInput_count_not_distinct :
    (FGraphInstance.UpdateInput (engineOf [])
        (stateOf [imageInput 1 [10] (some 5), imageInput 2 [10] (some 5)] true) 0 (some 5)).map
      (fun r => (r.1, (r.2.Marked.map Prod.fst).dedup.length,
        (List.zipWith (fun a b => a.bIsDirty != b.bIsDirty) [outputA, outputB]
          r.2.Instance.Outputs).count true)) = some (2, 1, 1) := by
  decide

/-- C7, amended, at the run with two image inputs that both alter output A. -/
theorem UpdateInput_count_witness :
    (∃ added,
      (stateFlagged [imageInputSet 1 [10] (some 5), imageInputSet 2 [10] (some 5)] 2).Marked =
        (stateOf [imageInput 1 [10] (some 5), imageInput 2 [10] (some 5)] true).Marked ++ added ∧
      (2 : Int) = added.length ∧
      (((added.map Prod.fst).dedup.length : Nat) : Int) ≤ 2) ∧
    (stateFlagged [imageInputSet 1 [10] (some 5),
        imageInputSet 2 [10] (some 5)] 2).bContainerDirty =
      ((stateOf [imageInput 1 [10] (some 5), imageInput 2 [10] (some 5)] true).bContainerDirty ||
        decide ((0 : Int) < 2)) :=
  UpdateInput_count (engineOf [])
    (stateOf [imageInput 1 [10] (some 5), imageInput 2 [10] (some 5)] true)
    (stateFlagged [imageInputSet 1 [10] (some 5), imageInputSet 2 [10] (some 5)] 2)
    0 "" (some 5) 2 (Or.inl (by decide))

/-- C8. When either overload of UpdateInput returns and the pending-render flag of
the instance is down after the call, hence after each image source was set, the
value returned is 0, the outputs are what they were, dirty flags included, and
neither the container package nor any texture has been marked. -/
theorem UpdateInput_no_pending (E : Engine) (s s1 : UpdateState) (Uid : Nat)
    (ParameterName : FString) (v : Option Nat) (n : Int)
    (h : FGraphInstance.UpdateInput E s Uid v = some (n, s1) ∨
      FGraphInstance.UpdateInput_name E s ParameterName v = some (n, s1))
    (hp : s1.Instance.bHasPendingImageInputRendering = false) :
    n = 0 ∧ s1.Instance.Outputs = s.Instance.Outputs ∧
      s1.bContainerDirty = s.bContainerDirty ∧ s1.Marked = s.Marked := by
  obtain ⟨⟨added, hm, hn⟩, hc, _, hz⟩ := UpdateInput_effect E s s1 Uid ParameterName v n h
  obtain ⟨h0, ho⟩ := hz hp
  subst h0
  have hadd : added = [] := by
    have : added.length = 0 := by exact_mod_cast hn.symm
    exact List.length_eq_zero.1 this
  subst hadd
  exact ⟨rfl, ho, by simpa using hc, by simpa using hm⟩

/-- C8 at a concrete run: the pending flag is down, the input alters the enabled
output A and the disabled output B, and a new image is set through the uid. -/
theorem UpdateInput_no_pending_witness :
    FGraphInstance.UpdateInput (engineOf [imageDesc 1 [10, 11]])
        (stateOf [imageInput 1 [10, 11] none] false) 1 (some 6) =
      some (0, stateOf [imageInputSet 1 [10, 11] (some 6)] false) ∧
    ((0 : Int) = 0 ∧
      (stateOf [imageInputSet 1 [10, 11] (some 6)] false).Instance.Outputs =
        (stateOf [imageInput 1 [10, 11] none] false).Instance.Outputs ∧
      (stateOf [imageInputSet 1 [10, 11] (some 6)] false).bContainerDirty =
        (stateOf [imageInput 1 [10, 11] none] false).bContainerDirty ∧
      (stateOf [imageInputSet 1 [10, 11] (some 6)] false).Marked =
        (stateOf [imageInput 1 [10, 11] none] false).Marked) :=
  ⟨by decide,
    UpdateInput_no_pending (engineOf [imageDesc 1 [10, 11]])
      (stateOf [imageInput 1 [10, 11] none] false)
      (stateOf [imageInputSet 1 [10, 11] (some 6)] false) 1 "" (some 6) 0
      (Or.inl (by decide)) rfl⟩

/-- The descriptors that are not selected play no part in the loop over the input
descriptors. -/
theorem UpdateInput_descs_filter (E : Engine) (sel : FInputDesc → Bool) (v : Option Nat)
    (l : List FInputDesc) :
    ∀ (s : UpdateState) (acc : Int),
      UpdateInput_descs E sel v l s acc = UpdateInput_descs E sel v (l.filter sel) s acc := by
  induction l with
  | nil => intro s acc; rfl
  | cons d l ih =>
    intro s acc
    cases hd : sel d with
    | true =>
      rw [List.filter_cons_of_pos hd]
      simp only [UpdateInput_descs, hd, if_true]
      cases SetImageInputHelper E d v s with
      | none => rfl
      | some r => exact ih r.2 (acc + r.1)
    | false =>
      rw [List.filter_cons_of_neg (by simp [hd])]
      simp only [UpdateInput_descs, hd, Bool.false_eq_true, if_false]
      exact ih s acc

/-- What the lookup of an output finds: an output with the uid asked for, at the
position returned. -/
theorem GetOutput_loop_some (U : Nat) (l : List FOutputInstance) :
    ∀ (i0 j : Nat) (o : FOutputInstance), GetOutput_loop U l i0 = some (j, o) →
      i0 ≤ j ∧ l[j - i0]? = some o ∧ o.Uid = U := by
  induction l with
  | nil => intro i0 j o h; simp [GetOutput_loop] at h
  | cons a l ih =>
    intro i0 j o h
    simp only [GetOutput_loop] at h
    split at h
    · rename_i hu
      simp only [Option.some.injEq, Prod.mk.injEq] at h
      obtain ⟨h1, h2⟩ := h
      subst h1
      subst h2
      exact ⟨le_refl _, by simp, hu.symm⟩
    · obtain ⟨h1, h2, h3⟩ := ih (i0 + 1) j o h
      refine ⟨by omega, ?_, h3⟩
      have hj : j - i0 = (j - (i0 + 1)) + 1 := by omega
      rw [hj, List.getElem?_cons_succ]
      exact h2

/-- Flagging one output dirty does not change which output a lookup finds; the
output found is the flagged one when the lookup lands on that position. -/
theorem GetOutput_loop_set (U : Nat) (l : List FOutputInstance) :
    ∀ (i0 j : Nat) (o : FOutputInstance), l[j]? = some o →
      GetOutput_loop U (l.set j o.flagAsDirty) i0 =
        (GetOutput_loop U l i0).map
          (fun r => if r.1 = i0 + j then (r.1, r.2.flagAsDirty) else r) := by
  induction l with
  | nil => intro i0 j o h; simp at h
  | cons a l ih =>
    intro i0 j o h
    cases j with
    | zero =>
      simp only [List.getElem?_cons_zero, Option.some.injEq] at h
      subst h
      simp only [List.set_cons_zero, GetOutput_loop, FOutputInstance.flagAsDirty]
      by_cases hu : U = a.Uid
      · simp [hu]
      · simp only [hu, if_false]
        cases hr : GetOutput_loop U l (i0 + 1) with
        | none => rfl
        | some r =>
          have hle := (GetOutput_loop_some U l (i0 + 1) r.1 r.2 hr).1
          have hne : ¬ r.1 = i0 := by omega
          simp [hne]
    | succ j =>
      simp only [List.getElem?_cons_succ] at h
      simp only [List.set_cons_succ, GetOutput_loop]
      by_cases hu : U = a.Uid
      · simp [hu]
      · simp only [hu, if_false]
        rw [ih (i0 + 1) j o h]
        have hij : i0 + 1 + j = i0 + (j + 1) := by omega
        rw [hij]

/-- `SetImageInputHelper` on an input that alters an enabled output A and a
disabled output B, with the pending flag up: A is flagged and the count is 1. -/
theorem SetImageInputHelper_dirty_propagation (E : Engine) (s : UpdateState)
    (d : FInputDesc) (A B : Nat) (v : Option Nat)
    (k : Nat) (inp : FInputInstance) (jA jB t c : Nat) (oA oB : FOutputInstance)
    (halt : d.AlteredOutputUids = [A, B])
    (hinp : GetInput_loop d.Uid s.Instance.Inputs 0 = some (k, inp))
    (himg : inp.IsNumerical = false)
    (hpend : s.Instance.bHasPendingImageInputRendering = true)
    (hA : s.Instance.GetOutput A = some (jA, oA)) (hAen : oA.bIsEnabled = true)
    (hAtex : oA.Texture = some t)
    (hB : s.Instance.GetOutput B = some (jB, oB)) (hBdis : oB.bIsEnabled = false)
    (hcont : s.Instance.ParentInstance = some c) :
    SetImageInputHelper E d v s = some (1,
      { Instance := { s.Instance with
          Inputs := s.Instance.Inputs.set k
            { inp with State := .Image v (E.PrepareImageInput v) }
          Outputs := s.Instance.Outputs.set jA oA.flagAsDirty },
        bContainerDirty := true,
        Marked := s.Marked ++ [(jA, t)] }) := by
  have hjA : s.Instance.Outputs[jA]? = some oA := by
    have := (GetOutput_loop_some A _ 0 jA oA hA).2.1
    simpa using this
  obtain ⟨oB1, hB2, hBen⟩ : ∃ oB1,
      GetOutput_loop B (s.Instance.Outputs.set jA oA.flagAsDirty) 0 = some (jB, oB1) ∧
      oB1.bIsEnabled = false := by
    rw [GetOutput_loop_set B _ 0 jA oA hjA]
    have hB1 : GetOutput_loop B s.Instance.Outputs 0 = some (jB, oB) := hB
    rw [hB1]
    by_cases hj : jB = 0 + jA
    · exact ⟨oB.flagAsDirty, by simp [hj], by simpa [FOutputInstance.flagAsDirty] using hBdis⟩
    · exact ⟨oB, by simp only [Option.map_some', hj, if_false], hBdis⟩
  unfold SetImageInputHelper
  simp only [hinp, himg, Bool.false_eq_true, if_false, FImageInputInstance.SetImageInput,
    hpend, Bool.true_or, Bool.not_true, halt]
  have hA1 : GetOutput_loop A s.Instance.Outputs 0 = some (jA, oA) := hA
  simp only [SetImageInputHelper_outputs, FGraphInstance.GetOutput, hA1, hAen, if_true, hAtex,
    hB2, hBen, Bool.false_eq_true, if_false, zero_add, ne_eq, one_ne_zero, not_false_eq_true,
    hcont]

/-- C6, amended. For an instance with the pending flag up and a non-zero uid that
one input descriptor of the parent graph carries, and only one, whose altered
outputs are A and B in this order: when the first input with that uid is an
image input, output A exists, is enabled and has a texture, output B exists and
is disabled, and the container is bound, `UpdateInput(uid, image)` returns 1; it
flags output A dirty and leaves every other output, B included, as it was. -/
theorem UpdateInput_dirty_propagation (E : Engine) (s : UpdateState) (g : FGraphDesc)
    (d : FInputDesc) (Uid A B : Nat) (v : Option Nat)
    (k : Nat) (inp : FInputInstance) (jA jB t c : Nat) (oA oB : FOutputInstance)
    (hgraph : (s.Instance.Outputs.head?).bind E.GetParentGraph = some g)
    (huid : Uid ≠ 0)
    (hdesc : g.InputDescs.filter (fun x => x.Uid == Uid) = [d])
    (halt : d.AlteredOutputUids = [A, B])
    (hinp : GetInput_loop Uid s.Instance.Inputs 0 = some (k, inp))
    (himg : inp.IsNumerical = false)
    (hpend : s.Instance.bHasPendingImageInputRendering = true)
    (hA : s.Instance.GetOutput A = some (jA, oA)) (hAen : oA.bIsEnabled = true)
    (hAtex : oA.Texture = some t)
    (hB : s.Instance.GetOutput B = some (jB, oB)) (hBdis : oB.bIsEnabled = false)
    (hcont : s.Instance.ParentInstance = some c) :
    FGraphInstance.UpdateInput E s Uid v = some (1,
      { Instance := { s.Instance with
          Inputs := s.Instance.Inputs.set k
            { inp with State := .Image v (E.PrepareImageInput v) }
          Outputs := s.Instance.Outputs.set jA oA.flagAsDirty },
        bContainerDirty := true,
        Marked := s.Marked ++ [(jA, t)] }) := by
  have hsel : (d.Uid == Uid) = true := by
    have hmem : d ∈ g.InputDescs.filter (fun x => x.Uid == Uid) := by rw [hdesc]; simp
    exact (List.mem_filter.1 hmem).2
  have hdU : d.Uid = Uid := by simpa using hsel
  unfold FGraphInstance.UpdateInput
  cases hO : s.Instance.Outputs with
  | nil => simp [hO] at hgraph
  | cons o0 rest =>
    have hg : E.GetParentGraph o0 = some g := by simpa [hO] using hgraph
    simp only [huid, if_false, hg]
    rw [UpdateInput_descs_filter, hdesc]
    simp only [UpdateInput_descs, hsel, if_true]
    rw [SetImageInputHelper_dirty_propagation E s d A B v k inp jA jB t c oA oB halt
      (by rw [hdU]; exact hinp) himg hpend hA hAen hAtex hB hBdis hcont]
    simp [hO]

/-- C6, as stated, fails when the uid of the image input is 0: `UpdateInput(0,
image)` takes the branch of the reimported images, finds no input sourced from
the new image, returns 0 and leaves output A clean. -/
theorem UpdateInput_uid_zero :
    (stateOf [imageInput 0 [10, 11] none] true).Instance.GetOutput 10 = some (0, outputA) ∧
    (stateOf [imageInput 0 [10, 11] none] true).Instance.GetOutput 11 = some (1, outputB) ∧
    FGraphInstance.UpdateInput (engineOf [imageDesc 0 [10, 11]])
        (stateOf [imageInput 0 [10, 11] none] true) 0 (some 6) =
      some (0, stateOf [imageInput 0 [10, 11] none] true) := by
  decide

/-- C6, amended, at a concrete run: the image input has uid 1. -/
theorem UpdateInput_dirty_propagation_witness :
    FGraphInstance.UpdateInput (engineOf [imageDesc 1 [10, 11]])
        (stateOf [imageInput 1 [10, 11] none] true) 1 (some 6) =
      some (1,
        { Instance := { (stateOf [imageInput 1 [10, 11] none] true).Instance with
            Inputs := (stateOf [imageInput 1 [10, 11] none] true).Instance.Inputs.set 0
              { imageInput 1 [10, 11] none with
                State := .Image (some 6)
                  ((engineOf [imageDesc 1 [10, 11]]).PrepareImageInput (some 6)) }
            Outputs := (stateOf [imageInput 1 [10, 11] none] true).Instance.Outputs.set 0
              outputA.flagAsDirty },
          bContainerDirty := true,
          Marked := (stateOf [imageInput 1 [10, 11] none] true).Marked ++ [(0, 0)] }) :=
  UpdateInput_dirty_propagation (engineOf [imageDesc 1 [10, 11]])
    (stateOf [imageInput 1 [10, 11] none] true) (descOfInputs [imageDesc 1 [10, 11]])
    (imageDesc 1 [10, 11]) 1 10 11 (some 6) 0 (imageInput 1 [10, 11] none) 0 1 0 0
    outputA outputB rfl (by decide) (by decide) rfl (by decide) rfl rfl (by decide) rfl rfl
    (by decide) rfl rfl

/-- With pairwise distinct uids, the lookup of the uid of the input at position
`k` finds that very input. -/
theorem GetInput_loop_nodup (l : List FInputInstance) :
    ∀ (i0 k : Nat) (inp : FInputInstance), (l.map (fun i => i.Uid)).Nodup →
      l[k]? = some inp → GetInput_loop inp.Uid l i0 = some (i0 + k, inp) := by
  induction l with
  | nil => intro i0 k inp _ h; simp at h
  | cons a l ih =>
    intro i0 k inp hnd h
    rw [List.map_cons, List.nodup_cons] at hnd
    cases k with
    | zero =>
      simp only [List.getElem?_cons_zero, Option.some.injEq] at h
      subst h
      simp [GetInput_loop]
    | succ k =>
      simp only [List.getElem?_cons_succ] at h
      have hmem : inp.Uid ∈ l.map (fun i => i.Uid) :=
        List.mem_map.2 ⟨inp, List.getElem?_mem h, rfl⟩
      have hne : ¬ a.Uid = inp.Uid := fun e => hnd.1 (e ▸ hmem)
      simp only [GetInput_loop, hne, if_false]
      rw [ih (i0 + 1) k inp hnd.2 h]
      congr 2
      omega

/-- Updating the input at one position keeps the inputs well formed. -/
theorem InputsWellFormed_set (E : Engine) (v : Option Nat) (l : List FInputInstance)
    (k : Nat) (inp : FInputInstance) (hk : l[k]? = some inp) (h : InputsWellFormed l) :
    InputsWellFormed (l.set k (ImageUpdated E v inp)) := by
  have hmap : (l.set k (ImageUpdated E v inp)).map (fun i => i.Uid) = l.map (fun i => i.Uid) := by
    apply List.ext_getElem?
    intro j
    simp only [List.getElem?_map]
    by_cases hjk : k = j
    · subst hjk
      rw [List.getElem?_set_self (List.getElem?_eq_some.1 hk).1, hk]
      rfl
    · rw [List.getElem?_set_ne hjk]
  refine ⟨by rw [hmap]; exact h.1, ?_⟩
  intro i hi
  rcases List.mem_or_eq_of_mem_set hi with hi | hi
  · exact h.2 i hi
  · rw [hi]
    exact h.2 inp (List.getElem?_mem hk)

/-- The image update is idempotent and its result is an image input sourced from
the new image. -/
theorem ImageUpdated_facts (E : Engine) (v : Option Nat) (i : FInputInstance) :
    ImageUpdated E v (ImageUpdated E v i) = ImageUpdated E v i ∧
      IsSourcedFrom v (ImageUpdated E v i) = true := by
  constructor
  · rfl
  · simp [IsSourcedFrom, ImageUpdated, FInputInstance.IsNumerical, FInputInstance.ImageSource]

/-- The inputs after the loop of the branch `Uid == 0`: at the positions the loop
went through, the image inputs sourced from the new image are updated; every
other input is what it was. -/
theorem UpdateInput_reimported_inputs (E : Engine) (v : Option Nat) (l : List Nat) :
    ∀ (s s1 : UpdateState) (acc n : Int), InputsWellFormed s.Instance.Inputs →
      UpdateInput_reimported E v l s acc = some (n, s1) →
      ∀ (k : Nat) (inp : FInputInstance), s.Instance.Inputs[k]? = some inp →
        s1.Instance.Inputs[k]? =
          some (if k ∈ l ∧ IsSourcedFrom v inp = true then ImageUpdated E v inp else inp) := by
  induction l with
  | nil =>
    intro s s1 acc n _ h k inp hk
    simp only [UpdateInput_reimported, Option.some.injEq, Prod.mk.injEq] at h
    obtain ⟨_, h2⟩ := h
    subst h2
    simpa using hk
  | cons k0 l ih =>
    intro s s1 acc n hwf h k inp hk
    simp only [UpdateInput_reimported] at h
    split at h
    · exact absurd h (by simp)
    · rename_i ItIn hItIn
      have htest : (!ItIn.IsNumerical && ItIn.ImageSource == v) = IsSourcedFrom v ItIn := rfl
      rw [htest] at h
      cases hsrc : IsSourcedFrom v ItIn with
      | true =>
        simp only [hsrc, if_true] at h
        split at h
        · exact absurd h (by simp)
        · rename_i m s2 hh
          obtain ⟨⟨Idx, InputInst, hfind, _, hset⟩, _⟩ := SetImageInputHelper_spec E _ v s s2 m hh
          rw [hwf.2 ItIn (List.getElem?_mem hItIn),
            GetInput_loop_nodup _ 0 k0 ItIn hwf.1 hItIn] at hfind
          simp only [zero_add, Option.some.injEq, Prod.mk.injEq] at hfind
          obtain ⟨hIdx, hInst⟩ := hfind
          subst hIdx
          subst hInst
          have hset2 : s2.Instance.Inputs = s.Instance.Inputs.set k0 (ImageUpdated E v ItIn) :=
            hset
          have hwf2 : InputsWellFormed s2.Instance.Inputs := by
            rw [hset2]
            exact InputsWellFormed_set E v _ k0 ItIn hItIn hwf
          by_cases hkk : k0 = k
          · subst hkk
            have e : ItIn = inp := Option.some.inj (hItIn.symm.trans hk)
            subst e
            have h2 : s2.Instance.Inputs[k0]? = some (ImageUpdated E v ItIn) := by
              rw [hset2]
              exact List.getElem?_set_self (List.getElem?_eq_some.1 hItIn).1
            rw [ih s2 s1 _ n hwf2 h k0 _ h2]
            simp [(ImageUpdated_facts E v ItIn).1, hsrc]
          · have h2 : s2.Instance.Inputs[k]? = some inp := by
              rw [hset2, List.getElem?_set_ne hkk]
              exact hk
            rw [ih s2 s1 _ n hwf2 h k inp h2]
            have hkk2 : ¬ k = k0 := fun e => hkk e.symm
            simp [hkk2]
      | false =>
        simp only [hsrc, Bool.false_eq_true, if_false] at h
        rw [ih s s1 acc n hwf h k inp hk]
        by_cases hkk : k = k0
        · subst hkk
          have e : ItIn = inp := Option.some.inj (hItIn.symm.trans hk)
          subst e
          simp [hsrc]
        · simp [hkk]

/-- C9, amended. When the input instances have pairwise distinct uids, each the uid of its
descriptor, and `UpdateInput(0, image)` returns: every input instance that is an
image input whose source is that image has received the image update, every other
input, numerical or sourced from another object, is what it was, and the value
returned is the number of outputs that these updates have flagged, all
together. -/
theorem UpdateInput_reimported_images (E : Engine) (s s1 : UpdateState) (v : Option Nat)
    (n : Int) (hwf : InputsWellFormed s.Instance.Inputs)
    (h : FGraphInstance.UpdateInput E s 0 v = some (n, s1)) :
    (∀ (k : Nat) (inp : FInputInstance), s.Instance.Inputs[k]? = some inp →
      s1.Instance.Inputs[k]? =
        some (if IsSourcedFrom v inp = true then ImageUpdated E v inp else inp)) ∧
    ∃ added, s1.Marked = s.Marked ++ added ∧ n = added.length := by
  refine ⟨?_, (UpdateInput_effect E s s1 0 "" v n (Or.inl h)).1⟩
  unfold FGraphInstance.UpdateInput at h
  split at h
  · exact absurd h (by simp)
  · simp only [if_true] at h
    intro k inp hk
    rw [UpdateInput_reimported_inputs E v _ s s1 0 n hwf h k inp hk]
    have hmem : k ∈ List.range s.Instance.Inputs.length :=
      List.mem_range.2 (List.getElem?_eq_some.1 hk).1
    simp [hmem]

/-- C9, amended, at a concrete run: of the three inputs, the one sourced from image 5 is
updated and its output is counted. -/
theorem UpdateInput_reimported_images_witness :
    FGraphInstance.UpdateInput (engineOf []) (stateOf mixedInputs true) 0 (some 5) =
      some (1, stateFlagged mixedInputsUpdated 1) ∧
    ((∀ (k : Nat) (inp : FInputInstance),
      (stateOf mixedInputs true).Instance.Inputs[k]? = some inp →
      (stateFlagged mixedInputsUpdated 1).Instance.Inputs[k]? =
        some (if IsSourcedFrom (some 5) inp = true then ImageUpdated (engineOf []) (some 5) inp
          else inp)) ∧
    ∃ added, (stateFlagged mixedInputsUpdated 1).Marked =
      (stateOf mixedInputs true).Marked ++ added ∧ (1 : Int) = added.length) :=
  ⟨by decide,
    UpdateInput_reimported_images (engineOf []) (stateOf mixedInputs true)
      (stateFlagged mixedInputsUpdated 1) (some 5) 1
      ⟨by decide, by decide⟩ (by decide)⟩

/-! ## Reimport matching: theorems -/

/-- A loop of `FindMatch` returns the first position that passes the test. -/
theorem FindMatch_loop_first (test : FGraphDesc → Bool) (l : List FGraphDesc) :
    ∀ (Idx i : Nat), IsFirstMatch test l i → FindMatch_loop test l Idx = some (Idx + i) := by
  induction l with
  | nil =>
    intro Idx i h
    obtain ⟨⟨d, hd, _⟩, _⟩ := h
    simp at hd
  | cons a l ih =>
    intro Idx i h
    obtain ⟨⟨d, hd, ht⟩, hbefore⟩ := h
    cases i with
    | zero =>
      simp only [List.getElem?_cons_zero, Option.some.injEq] at hd
      subst hd
      simp [FindMatch_loop, ht]
    | succ i =>
      have ha : test a = false := hbefore 0 a (Nat.succ_pos i) (by simp)
      simp only [List.getElem?_cons_succ] at hd
      simp only [FindMatch_loop, ha, Bool.false_eq_true, if_false]
      rw [ih (Idx + 1) i ⟨⟨d, hd, ht⟩, fun j e hj he =>
        hbefore (j + 1) e (Nat.succ_lt_succ hj) (by simpa using he)⟩]
      congr 1
      omega

/-- A loop of `FindMatch` returns null when no descriptor passes the test. -/
theorem FindMatch_loop_none (test : FGraphDesc → Bool) (l : List FGraphDesc) :
    ∀ (Idx : Nat), (∀ d ∈ l, test d = false) → FindMatch_loop test l Idx = none := by
  induction l with
  | nil => intro Idx _; rfl
  | cons a l ih =>
    intro Idx h
    simp only [FindMatch_loop, h a (List.mem_cons_self _ _), Bool.false_eq_true, if_false]
    exact ih (Idx + 1) (fun d hd => h d (List.mem_cons_of_mem _ hd))

/-- C10. The three criteria of FindMatch in strict priority order, over the whole
list: the first descriptor with the URL of the backup is returned, whatever the
descriptors before it match by label or by output uids; when no descriptor has the
URL, the first descriptor with the label is returned, whatever the descriptors
before it match by output uids; when no descriptor has the URL or the label, the
first descriptor that passes the output uid test is returned, and null when there
is none. -/
theorem FindMatch_priority (FStringEq : FString → FString → Bool)
    (Desc : List FGraphDesc) (Backup : InstanceBackup) (i : Nat) :
    (IsFirstMatch (FindMatch_url FStringEq Backup) Desc i →
      FindMatch FStringEq Desc Backup = some i) ∧
    ((∀ d ∈ Desc, FindMatch_url FStringEq Backup d = false) →
      IsFirstMatch (FindMatch_label FStringEq Backup) Desc i →
      FindMatch FStringEq Desc Backup = some i) ∧
    ((∀ d ∈ Desc, FindMatch_url FStringEq Backup d = false) →
      (∀ d ∈ Desc, FindMatch_label FStringEq Backup d = false) →
      (IsFirstMatch (FindMatch_outputs Backup) Desc i →
        FindMatch FStringEq Desc Backup = some i) ∧
      ((∀ d ∈ Desc, FindMatch_outputs Backup d = false) →
        FindMatch FStringEq Desc Backup = none)) := by
  refine ⟨?_, ?_, ?_⟩
  · intro h
    unfold FindMatch
    rw [FindMatch_loop_first _ _ 0 i h]
    simp
  · intro hu h
    unfold FindMatch
    rw [FindMatch_loop_none _ _ 0 hu, FindMatch_loop_first _ _ 0 i h]
    simp
  · intro hu hl
    unfold FindMatch
    rw [FindMatch_loop_none _ _ 0 hu, FindMatch_loop_none _ _ 0 hl]
    refine ⟨fun h => ?_, fun h => ?_⟩
    · rw [FindMatch_loop_first _ _ 0 i h]
      simp
    · exact FindMatch_loop_none _ _ 0 h

/-- C10 at a concrete list: the first descriptor matches the backup by label and by
output uids, the second one by URL, and the second one is returned. -/
theorem FindMatch_priority_witness :
    FindMatch_label (fun a b => a == b) woodBackup (descOf "pkg://other" "Wood" [10]) = true ∧
    FindMatch_outputs woodBackup (descOf "pkg://other" "Wood" [10]) = true ∧
    FindMatch (fun a b => a == b)
      [descOf "pkg://other" "Wood" [10], descOf "pkg://wood" "Oak" [11]] woodBackup = some 1 :=
  ⟨by decide, by decide,
    (FindMatch_priority (fun a b => a == b)
      [descOf "pkg://other" "Wood" [10], descOf "pkg://wood" "Oak" [11]] woodBackup 1).1
      ⟨⟨descOf "pkg://wood" "Oak" [11], rfl, by decide⟩, by
        intro j e hj he
        have hj0 : j = 0 := by omega
        subst hj0
        simp only [List.getElem?_cons_zero, Option.some.injEq] at he
        subst he
        decide⟩⟩

/-! ## Observers and destruction: theorems -/

/-- C18, amended. `plugState(s)` aborts when `s` is attached and appends `s`
otherwise, so a list without duplicates stays without duplicates; `unplugState(s)`
on an attached `s` removes it, so `plugState(s)` followed by `unplugState(s)` gives
the list back; `unplugState(s)` of an observer that is not attached leaves an empty
list as it is and aborts on a list that has entries. -/
theorem plugState_unplugState (this : FGraphInstance) (s : Nat) :
    (s ∈ this.States → this.plugState s = none) ∧
    (s ∉ this.States →
      this.plugState s = some { this with States := this.States ++ [s] }) ∧
    (this.States.Nodup →
      (∀ i1, this.plugState s = some i1 → i1.States.Nodup) ∧
      (∀ i1, this.unplugState s = some i1 → i1.States.Nodup)) ∧
    (s ∈ this.States →
      this.unplugState s = some { this with States := this.States.erase s } ∧
      (this.States.Nodup → s ∉ this.States.erase s)) ∧
    (s ∉ this.States →
      (this.plugState s).bind (fun i1 => i1.unplugState s) = some this) ∧
    (s ∉ this.States →
      this.unplugState s = if this.States = [] then some this else none) := by
  refine ⟨?_, ?_, ?_, ?_, ?_, ?_⟩
  · intro h
    simp [FGraphInstance.plugState, h]
  · intro h
    simp [FGraphInstance.plugState, h]
  · intro hnd
    constructor
    · intro i1 h
      unfold FGraphInstance.plugState at h
      split at h
      · exact absurd h (by simp)
      · rename_i hs
        cases h
        exact List.Nodup.append hnd (List.nodup_singleton s) (by simpa using hs)
    · intro i1 h
      unfold FGraphInstance.unplugState at h
      split at h
      · split at h
        · cases h
          exact hnd.erase s
        · exact absurd h (by simp)
      · cases h
        exact hnd
  · intro h
    have hlen : this.States.length ≠ 0 := by
      intro h0
      rw [List.length_eq_zero.1 h0] at h
      simp at h
    refine ⟨by simp [FGraphInstance.unplugState, hlen, h], fun hnd => ?_⟩
    exact fun hm => ((List.Nodup.mem_erase_iff hnd).1 hm).1 rfl
  · intro h
    simp only [FGraphInstance.plugState, h, if_false, Option.some_bind,
      FGraphInstance.unplugState]
    have hera : (this.States ++ [s]).erase s = this.States := by
      rw [List.erase_append_right _ h]
      simp
    simp [hera]
  · intro h
    unfold FGraphInstance.unplugState
    by_cases he : this.States = []
    · simp [he]
    · have hlen : this.States.length ≠ 0 := fun h0 => he (List.length_eq_zero.1 h0)
      simp [hlen, h, he]

/-- C18, as stated, fails: on a list that holds observer 1, `unplugState(2)` aborts
instead of leaving the list unchanged. -/
theorem unplugState_not_attached_aborts :
    2 ∉ (observedInstance [1]).States ∧ (observedInstance [1]).unplugState 2 = none := by
  decide

/-- C18, amended, at concrete lists: observer 2 on the list that holds observer 1. -/
theorem plugState_unplugState_witness :
    (observedInstance [1]).plugState 2 = some (observedInstance [1, 2]) ∧
    ((observedInstance [1]).plugState 2).bind (fun i1 => i1.unplugState 2) =
      some (observedInstance [1]) :=
  ⟨by decide, (plugState_unplugState (observedInstance [1]) 2).2.2.2.2.1 (by decide)⟩

/-- After a sequence of observer calls that does not abort, on a list without
duplicates: the list has no duplicates, it holds the observers that were attached
last, and the identifier of the instance is what it was. -/
theorem runObserverCalls_spec (calls : List ObserverCall) :
    ∀ (i0 i : FGraphInstance), runObserverCalls calls i0 = some i → i0.States.Nodup →
      i.States.Nodup ∧ i.InstanceGuid = i0.InstanceGuid ∧
      ∀ s, s ∈ i.States ↔ attachedAfter s calls (decide (s ∈ i0.States)) = true := by
  induction calls with
  | nil =>
    intro i0 i h hnd
    simp only [runObserverCalls, Option.some.injEq] at h
    subst h
    exact ⟨hnd, rfl, fun s => by simp [attachedAfter]⟩
  | cons c calls ih =>
    intro i0 i h hnd
    cases c with
    | plugState t =>
      simp only [runObserverCalls] at h
      split at h
      · exact absurd h (by simp)
      · rename_i i1 h1
        unfold FGraphInstance.plugState at h1
        split at h1
        · exact absurd h1 (by simp)
        · rename_i ht
          cases h1
          obtain ⟨h2, h3, h4⟩ := ih _ i h
            (List.Nodup.append hnd (List.nodup_singleton t) (by simpa using ht))
          refine ⟨h2, h3, fun s => ?_⟩
          rw [h4 s]
          simp only [attachedAfter]
          congr! 2
          by_cases hts : t = s
          · simp [hts]
          · have hst : ¬ s = t := fun e => hts e.symm
            simp [hts, hst]
    | unplugState t =>
      simp only [runObserverCalls] at h
      split at h
      · exact absurd h (by simp)
      · rename_i i1 h1
        unfold FGraphInstance.unplugState at h1
        split at h1
        · split at h1
          · cases h1
            obtain ⟨h2, h3, h4⟩ := ih _ i h (hnd.erase t)
            refine ⟨h2, h3, fun s => ?_⟩
            rw [h4 s]
            simp only [attachedAfter]
            congr! 2
            by_cases hts : t = s
            · subst hts
              have : t ∉ i0.States.erase t := fun hm =>
                ((List.Nodup.mem_erase_iff hnd).1 hm).1 rfl
              simp [this]
            · have hst : s ≠ t := fun e => hts e.symm
              simp [hts, List.mem_erase_of_ne hst]
          · exact absurd h1 (by simp)
        · rename_i hlen
          cases h1
          obtain ⟨h2, h3, h4⟩ := ih _ i h hnd
          refine ⟨h2, h3, fun s => ?_⟩
          rw [h4 s]
          simp only [attachedAfter]
          congr! 2
          have hnil : i0.States = [] := by
            have : i0.States.length = 0 := by simpa using hlen
            exact List.length_eq_zero.1 this
          by_cases hts : t = s <;> simp [hts, hnil]

/-- The calls of `notifyDeleted` that reach one observer, for a list of observers
without duplicates: one call when the observer is in the list, none otherwise. -/
theorem notified_filter (l : List Nat) (g s : Nat) (hnd : l.Nodup) :
    (l.map (fun x => (x, g))).filter (fun x => x.1 = s) =
      if s ∈ l then [(s, g)] else [] := by
  induction l with
  | nil => simp
  | cons a l ih =>
    rw [List.nodup_cons] at hnd
    rw [List.map_cons]
    by_cases ha : a = s
    · subst ha
      rw [List.filter_cons_of_pos (by simp), ih hnd.2]
      simp [hnd.1]
    · rw [List.filter_cons_of_neg (by simpa using ha), ih hnd.2]
      have hsa : ¬ s = a := fun e => ha e.symm
      simp [hsa]

/-- C17. For a graph instance that started without observers and went through
calls of `plugState` and `unplugState`, the destructor calls `notifyDeleted` with
the identifier of the instance once for each observer in the list; an observer
receives exactly one call when it was attached and not detached since, and no call
otherwise. -/
theorem destruct_notifies (i0 i : FGraphInstance) (calls : List ObserverCall)
    (w w1 : World) (I : Nat) (notes : List (Nat × Nat))
    (h0 : i0.States = [])
    (hrun : runObserverCalls calls i0 = some i)
    (hI : w.Instances[I]? = some i)
    (hd : FGraphInstance.destruct w I = some (w1, notes)) :
    notes = i.States.map (fun s => (s, i.InstanceGuid)) ∧
    ∀ s, notes.filter (fun x => x.1 = s) =
      if attachedAfter s calls false = true then [(s, i.InstanceGuid)] else [] := by
  obtain ⟨hnd, _, hmem⟩ := runObserverCalls_spec calls i0 i hrun (by rw [h0]; exact List.nodup_nil)
  have hn : notes = i.States.map (fun s => (s, i.InstanceGuid)) := by
    unfold FGraphInstance.destruct at hd
    simp only [hI, Option.bind_eq_bind, Option.some_bind, Option.pure_def, Option.some.injEq,
      Prod.mk.injEq] at hd
    exact hd.2.symm
  refine ⟨hn, fun s => ?_⟩
  rw [hn, notified_filter _ _ s hnd]
  have := hmem s
  rw [h0] at this
  simp only [List.not_mem_nil, decide_False] at this
  by_cases hs : s ∈ i.States
  · simp [hs, this.1 hs]
  · have hf : ¬ attachedAfter s calls false = true := fun h => hs (this.2 h)
    simp [hs, hf]

/-- C17 at a concrete run: observers 1 and 2 are attached, observer 1 is detached,
and the destructor notifies observer 2 only, with the identifier 7. -/
theorem destruct_notifies_witness :
    FGraphInstance.destruct (observedWorld [2]) 0 = some (destroyedWorld [2], [(2, 7)]) ∧
    ([(2, 7)] = (observedInstance [2]).States.map
        (fun s => (s, (observedInstance [2]).InstanceGuid)) ∧
      ∀ s, ([(2, 7)] : List (Nat × Nat)).filter (fun x => x.1 = s) =
        if attachedAfter s [.plugState 1, .plugState 2, .unplugState 1] false = true
          then [(s, (observedInstance [2]).InstanceGuid)] else []) :=
  ⟨by decide,
    destruct_notifies (observedInstance []) (observedInstance [2])
      [.plugState 1, .plugState 2, .unplugState 1] (observedWorld [2]) (destroyedWorld [2]) 0
      [(2, 7)] rfl (by decide) rfl (by decide)⟩

/-- C16: in `subscribedWorld` instance 0 points to descriptor 0 and is in its live
list; after the destructor of instance 0 the live list of descriptor 0 still holds
address 0. -/
theorem destruct_keeps_subscription :
    (subscribedWorld.Instances[0]?).map (fun i => i.Desc) = some (some 0) ∧
    (subscribedWorld.Descs[0]?).map (fun d => d.LoadedInstances) = some [0] ∧
    (FGraphInstance.destruct subscribedWorld 0).map
      (fun r => r.1.Descs.map (fun d => d.LoadedInstances)) = some [[0]] := by
  decide

/-- C20. The constructor of a graph instance, for the descriptor `d` at address `D`
and the container `Parent`: when it returns, the new instance has one output for
each output descriptor and one input for each input descriptor, in descriptor
order, the instance at each position carrying the uid of the descriptor at that
position, every output pointing back to `Parent` and every input to the new graph
instance; and it does return when the descriptor has a package and the container
exists and is not bound. -/
theorem construct_clones (w : World) (D : Nat) (Parent : Option Nat) (NewGuid : Nat)
    (d : FGraphDesc) (hd : w.Descs[D]? = some d) :
    (∀ w1 n, FGraphInstance.construct w (some D) Parent NewGuid = some (w1, n) →
      ∃ inst, w1.Instances[n]? = some inst ∧ n = w.Instances.length ∧
        inst.Outputs.length = d.OutputDescs.length ∧
        inst.Inputs.length = d.InputDescs.length ∧
        (∀ (k : Nat) (od : FOutputDesc), d.OutputDescs[k]? = some od →
          ∃ o, inst.Outputs[k]? = some o ∧ o.Uid = od.Uid ∧ o.ParentInstance = Parent) ∧
        (∀ (k : Nat) (x : FInputDesc), d.InputDescs[k]? = some x →
          ∃ i, inst.Inputs[k]? = some i ∧ i.Uid = x.Uid ∧ i.Desc = x ∧ i.Parent = some n)) ∧
    (∀ p c cont, d.Parent = some p → p < w.Packages.length → Parent = some c →
      w.Containers[c]? = some cont → cont.Instance = none →
      ∃ w1 n, FGraphInstance.construct w (some D) Parent NewGuid = some (w1, n)) := by
  constructor
  · intro w1 n h
    unfold FGraphInstance.construct at h
    simp only [Option.bind_eq_bind, Option.bind_eq_some, Option.some.injEq] at h
    obtain ⟨c, hc, g, hg, d0, hd0, p, _, pkg, _, cont, _, h⟩ := h
    subst hg
    rw [hd] at hd0
    cases hd0
    by_cases hci : cont.Instance = none
    · simp only [hci, ne_eq, not_true_eq_false, if_false, Option.pure_def, Option.some.injEq,
        Prod.mk.injEq] at h
      obtain ⟨hw, hn⟩ := h
      subst hw
      subst hn
      refine ⟨_, List.getElem?_concat_length _ _, rfl, by simp, by simp, ?_, ?_⟩
      · intro k od hk
        refine ⟨{ od.Instantiate with ParentInstance := Parent }, ?_, rfl, rfl⟩
        simp [List.getElem?_map, hk]
      · intro k x hk
        refine ⟨{ x.Instantiate with Parent := some w.Instances.length }, ?_, rfl, rfl, rfl⟩
        simp [List.getElem?_map, hk]
    · simp [hci] at h
  · intro p c cont hp hplt hPar hcont hfree
    unfold FGraphInstance.construct
    simp [hPar, hd, hp, List.getElem?_eq_getElem hplt, hcont, hfree]

/-- C20 at a concrete world: the descriptor with outputs 10 and 11 and inputs 1 and
2, instantiated on container 0. -/
theorem construct_clones_witness :
    (∀ w1 n, FGraphInstance.construct twoByTwoWorld (some 0) (some 0) 7 = some (w1, n) →
      ∃ inst, w1.Instances[n]? = some inst ∧ n = twoByTwoWorld.Instances.length ∧
        inst.Outputs.length = twoByTwoDesc.OutputDescs.length ∧
        inst.Inputs.length = twoByTwoDesc.InputDescs.length ∧
        (∀ (k : Nat) (od : FOutputDesc), twoByTwoDesc.OutputDescs[k]? = some od →
          ∃ o, inst.Outputs[k]? = some o ∧ o.Uid = od.Uid ∧ o.ParentInstance = some 0) ∧
        (∀ (k : Nat) (x : FInputDesc), twoByTwoDesc.InputDescs[k]? = some x →
          ∃ i, inst.Inputs[k]? = some i ∧ i.Uid = x.Uid ∧ i.Desc = x ∧ i.Parent = some n)) ∧
    (∃ w1 n, FGraphInstance.construct twoByTwoWorld (some 0) (some 0) 7 = some (w1, n)) :=
  ⟨(construct_clones twoByTwoWorld 0 (some 0) 7 twoByTwoDesc rfl).1,
    (construct_clones twoByTwoWorld 0 (some 0) 7 twoByTwoDesc rfl).2 0 0 freeContainer
      rfl (by decide) rfl rfl rfl⟩

/-- The inner loop of the output uid test adds, to the counter, the number of
outputs with the uid. -/
theorem OutputMatching_inner (u : Nat) (l : List FOutputDesc) :
    ∀ n : Nat, l.foldl (fun m o => if o.Uid = u then m + 1 else m) n =
      n + (l.filter (fun o => o.Uid == u)).length := by
  induction l with
  | nil => intro n; simp
  | cons a l ih =>
    intro n
    simp only [List.foldl_cons]
    rw [ih]
    by_cases ha : a.Uid = u
    · simp [ha]
      omega
    · simp [ha]

/-- With distinct output uids, at most one output has a given uid. -/
theorem filter_uid_length (u : Nat) (l : List FOutputDesc)
    (hnd : (l.map (fun o => o.Uid)).Nodup) :
    (l.filter (fun o => o.Uid == u)).length = if l.any (fun o => o.Uid == u) then 1 else 0 := by
  induction l with
  | nil => simp
  | cons a l ih =>
    rw [List.map_cons, List.nodup_cons] at hnd
    by_cases ha : a.Uid = u
    · have hnone : l.filter (fun o => o.Uid == u) = [] := by
        rw [List.filter_eq_nil_iff]
        intro o ho hou
        have : o.Uid = u := by simpa using hou
        exact hnd.1 (List.mem_map.2 ⟨o, ho, by rw [this, ha]⟩)
      simp [ha, hnone]
    · rw [List.filter_cons_of_neg (by simpa using ha), ih hnd.2]
      simp [ha]

/-- With distinct output uids in the descriptor, the counter of the output uid test
is the overlap of the backup and the descriptor. -/
theorem OutputMatching_eq_Overlap (Backup : InstanceBackup) (d : FGraphDesc)
    (hnd : (d.OutputDescs.map (fun o => o.Uid)).Nodup) :
    FindMatch_OutputMatching Backup d = Overlap Backup d := by
  unfold FindMatch_OutputMatching Overlap
  have key : ∀ (l : List (Nat × FString)) (n : Nat),
      l.foldl (fun n kv => d.OutputDescs.foldl
        (fun m o => if o.Uid = kv.1 then m + 1 else m) n) n =
      n + (l.filter (fun kv => d.OutputDescs.any (fun o => o.Uid == kv.1))).length := by
    intro l
    induction l with
    | nil => intro n; simp
    | cons kv l ih =>
      intro n
      simp only [List.foldl_cons]
      rw [ih, OutputMatching_inner, filter_uid_length _ _ hnd]
      by_cases hk : d.OutputDescs.any (fun o => o.Uid == kv.1) = true
      · simp only [List.filter_cons, hk, if_true, List.length_cons]
        omega
      · have hk2 : d.OutputDescs.any (fun o => o.Uid == kv.1) = false := by
          simpa using hk
        simp only [List.filter_cons, hk2, Bool.false_eq_true, if_false]
        omega
  rw [key]
  simp

/-- The overlap is at most the size of the backup map, and reaches it when, and
only when, the descriptor has every uid of the map. -/
theorem Overlap_le (Backup : InstanceBackup) (d : FGraphDesc) :
    Overlap Backup d ≤ Backup.UidToName.length ∧
    (Overlap Backup d = Backup.UidToName.length ↔ ContainsAll Backup d = true) := by
  unfold Overlap ContainsAll
  refine ⟨List.length_filter_le _ _, ?_⟩
  rw [List.all_eq_true]
  constructor
  · intro h kv hkv
    have hs := List.filter_sublist (p := fun kv => d.OutputDescs.any (fun o => o.Uid == kv.1))
      Backup.UidToName
    have heq := hs.eq_of_length h
    have : kv ∈ Backup.UidToName.filter
        (fun kv => d.OutputDescs.any (fun o => o.Uid == kv.1)) := by rw [heq]; exact hkv
    exact (List.mem_filter.1 this).2
  · intro h
    rw [List.filter_eq_self.2 h]

/-- With distinct output uids in the descriptor, the output uid test of FindMatch
passes when, and only when, the descriptor has every uid of the backup map. -/
theorem FindMatch_outputs_eq (Backup : InstanceBackup) (d : FGraphDesc)
    (hnd : (d.OutputDescs.map (fun o => o.Uid)).Nodup) :
    FindMatch_outputs Backup d = ContainsAll Backup d := by
  unfold FindMatch_outputs
  rw [OutputMatching_eq_Overlap Backup d hnd]
  have h := (Overlap_le Backup d).2
  cases hc : ContainsAll Backup d with
  | true => simpa using (h.2 hc).symm
  | false =>
    have hne : ¬ Overlap Backup d = Backup.UidToName.length := fun e => by
      rw [h.1 e] at hc
      exact absurd hc (by simp)
    simpa using fun e => hne e.symm

/-- What a loop of FindMatch has found when it returns a position. -/
theorem FindMatch_loop_some (test : FGraphDesc → Bool) (l : List FGraphDesc) :
    ∀ (Idx j : Nat), FindMatch_loop test l Idx = some j →
      ∃ i, j = Idx + i ∧ IsFirstMatch test l i := by
  induction l with
  | nil => intro Idx j h; simp [FindMatch_loop] at h
  | cons a l ih =>
    intro Idx j h
    simp only [FindMatch_loop] at h
    cases ha : test a with
    | true =>
      simp only [ha, if_true, Option.some.injEq] at h
      exact ⟨0, by omega, ⟨a, by simp, ha⟩, fun j e hj _ => absurd hj (Nat.not_lt_zero j)⟩
    | false =>
      simp only [ha, Bool.false_eq_true, if_false] at h
      obtain ⟨i, hi, ⟨d, hd, ht⟩, hb⟩ := ih (Idx + 1) j h
      refine ⟨i + 1, by omega, ⟨d, by simpa using hd, ht⟩, ?_⟩
      intro k e hk he
      cases k with
      | zero =>
        simp only [List.getElem?_cons_zero, Option.some.injEq] at he
        subst he
        exact ha
      | succ k =>
        simp only [List.getElem?_cons_succ] at he
        exact hb k e (by omega) he

/-- What a loop of FindMatch has seen when it returns null. -/
theorem FindMatch_loop_eq_none (test : FGraphDesc → Bool) (l : List FGraphDesc) :
    ∀ (Idx : Nat), FindMatch_loop test l Idx = none → ∀ d ∈ l, test d = false := by
  induction l with
  | nil => intro Idx _ d hd; simp at hd
  | cons a l ih =>
    intro Idx h d hd
    simp only [FindMatch_loop] at h
    cases ha : test a with
    | true => simp [ha] at h
    | false =>
      simp only [ha, Bool.false_eq_true, if_false] at h
      rcases List.mem_cons.1 hd with hda | hdl
      · rw [hda]; exact ha
      · exact ih (Idx + 1) h d hdl

/-- Two tests that agree on the descriptors of the list give the same loop. -/
theorem FindMatch_loop_congr (test1 test2 : FGraphDesc → Bool) (l : List FGraphDesc) :
    ∀ (Idx : Nat), (∀ d ∈ l, test1 d = test2 d) →
      FindMatch_loop test1 l Idx = FindMatch_loop test2 l Idx := by
  induction l with
  | nil => intro Idx _; rfl
  | cons a l ih =>
    intro Idx h
    simp only [FindMatch_loop, h a (List.mem_cons_self _ _)]
    rw [ih (Idx + 1) (fun d hd => h d (List.mem_cons_of_mem _ hd))]

/-- C11, amended. When no descriptor matches the backup by URL or by label, and
the output uids of each descriptor are distinct: FindMatch returns the first
descriptor that has every uid of the backup map among its output uids, and null
when no descriptor has them all; a descriptor that is returned shares at least as
many uids with the map as any descriptor of the list. -/
theorem FindMatch_outputs_fallback (FStringEq : FString → FString → Bool)
    (Desc : List FGraphDesc) (Backup : InstanceBackup)
    (hu : ∀ d ∈ Desc, FindMatch_url FStringEq Backup d = false)
    (hl : ∀ d ∈ Desc, FindMatch_label FStringEq Backup d = false)
    (hwf : ∀ d ∈ Desc, (d.OutputDescs.map (fun o => o.Uid)).Nodup) :
    (∀ i, FindMatch FStringEq Desc Backup = some i ↔
      IsFirstMatch (ContainsAll Backup) Desc i) ∧
    (FindMatch FStringEq Desc Backup = none ↔ ∀ d ∈ Desc, ContainsAll Backup d = false) ∧
    (∀ i d, FindMatch FStringEq Desc Backup = some i → Desc[i]? = some d →
      ∀ e ∈ Desc, Overlap Backup e ≤ Overlap Backup d) := by
  have hF : FindMatch FStringEq Desc Backup = FindMatch_loop (ContainsAll Backup) Desc 0 := by
    unfold FindMatch
    rw [FindMatch_loop_none _ _ 0 hu, FindMatch_loop_none _ _ 0 hl]
    exact FindMatch_loop_congr _ _ _ 0 (fun d hd => FindMatch_outputs_eq Backup d (hwf d hd))
  have hiff : ∀ i, FindMatch FStringEq Desc Backup = some i ↔
      IsFirstMatch (ContainsAll Backup) Desc i := by
    intro i
    rw [hF]
    constructor
    · intro h
      obtain ⟨k, hk, hfirst⟩ := FindMatch_loop_some _ _ 0 i h
      have hik : i = k := by omega
      rw [hik]
      exact hfirst
    · intro h
      rw [FindMatch_loop_first _ _ 0 i h]
      simp
  refine ⟨hiff, ?_, ?_⟩
  · rw [hF]
    exact ⟨FindMatch_loop_eq_none _ _ 0, FindMatch_loop_none _ _ 0⟩
  · intro i d h hd e _
    obtain ⟨⟨d0, hd0, hall⟩, _⟩ := (hiff i).1 h
    rw [hd] at hd0
    cases hd0
    rw [((Overlap_le Backup d).2).2 hall]
    exact (Overlap_le Backup e).1

/-- C11, as stated, fails: no descriptor matches by URL or label, the first
descriptor shares one uid with the backup map and the second none, and FindMatch
returns null instead of the first descriptor. -/
theorem FindMatch_partial_overlap :
    FindMatch_loop (FindMatch_url (fun a b => a == b) twoTextureBackup)
      [descOf "pkg://other" "Oak" [10], descOf "pkg://other" "Pine" []] 0 = none ∧
    FindMatch_loop (FindMatch_label (fun a b => a == b) twoTextureBackup)
      [descOf "pkg://other" "Oak" [10], descOf "pkg://other" "Pine" []] 0 = none ∧
    Overlap twoTextureBackup (descOf "pkg://other" "Oak" [10]) = 1 ∧
    Overlap twoTextureBackup (descOf "pkg://other" "Pine" []) = 0 ∧
    FindMatch (fun a b => a == b)
      [descOf "pkg://other" "Oak" [10], descOf "pkg://other" "Pine" []] twoTextureBackup =
        none := by
  decide

/-- C11, amended, at a concrete list: the first descriptor has one of the two uids
of the backup map, the second has both, and the second is returned. -/
theorem FindMatch_outputs_fallback_witness :
    FindMatch (fun a b => a == b)
      [descOf "pkg://other" "Oak" [10], descOf "pkg://other" "Pine" [11, 10]]
      twoTextureBackup = some 1 ∧
    ∀ e ∈ [descOf "pkg://other" "Oak" [10], descOf "pkg://other" "Pine" [11, 10]],
      Overlap twoTextureBackup e ≤ Overlap twoTextureBackup (descOf "pkg://other" "Pine" [11, 10]) :=
  ⟨by decide,
    (FindMatch_outputs_fallback (fun a b => a == b)
      [descOf "pkg://other" "Oak" [10], descOf "pkg://other" "Pine" [11, 10]] twoTextureBackup
      (by decide) (by decide) (by decide)).2.2 1 (descOf "pkg://other" "Pine" [11, 10])
      (by decide) rfl⟩

/-- C12: a backup whose map is empty, a package whose only descriptor matches
neither by URL nor by label and has no output uid in the map: FindMatch returns
that descriptor, not null. -/
theorem FindMatch_empty_map :
    FindMatch_url (fun a b => a == b) noTextureBackup (descOf "pkg://other" "Oak" [10]) = false ∧
    FindMatch_label (fun a b => a == b) noTextureBackup (descOf "pkg://other" "Oak" [10]) = false ∧
    Overlap noTextureBackup (descOf "pkg://other" "Oak" [10]) = 0 ∧
    FindMatch (fun a b => a == b) [descOf "pkg://other" "Oak" [10]] noTextureBackup = some 0 := by
  decide

/-! ## Reimport, giving the outputs back: theorems -/

/-- What `TransferOutput` returns when it does not abort: the previous output under
the uid and the format of the new one, flagged dirty. -/
theorem TransferOutput_some (ItNew PrevOutput : FOutputInstance)
    (t : FOutputInstance × List Nat) (h : TransferOutput ItNew PrevOutput = some t) :
    t.1 = { PrevOutput with Uid := ItNew.Uid, Format := ItNew.Format, bIsDirty := true } := by
  unfold TransferOutput at h
  simp only [CreateSubstanceTexture2D_inPlace] at h
  split at h
  · split at h
    · exact absurd h (by simp)
    · cases h
      rfl
  · cases h
    rfl

/-- A concrete run of `RebuildInstance`: of the previous outputs A, C and B, the new
instance takes A back, the texture 1 of the enabled output C is registered for
deletion, and the disabled output B is dropped. -/
theorem RebuildInstance_run :
    RebuildInstance id (fun _ i => i) false false 8 reimportWorld (some 0) woodBackup =
      some { After := reimportedWorld, NewInstance := 1, Notified := [],
             Registered := [1], Rebuilt := [] } := by
  decide

/-- What `RebuildInstance` returns when it does not abort, step by step: the
previous instance `inst` of the container, the new instance `n2` as the preset
leaves it, the outcome `back` of `GiveOutputsBack`, the new instance in the final
world and the binding of the container. -/
theorem RebuildInstance_eq_some (CreateTextures : List FOutputInstance → List FOutputInstance)
    (Apply : preset_t → FGraphInstance → FGraphInstance)
    (bSubscribeInstance bDynamicInstance : Bool) (NewGuid : Nat)
    (w : World) (Desc : Option Nat) (Backup : InstanceBackup) (r : RebuildResult)
    (h : RebuildInstance CreateTextures Apply bSubscribeInstance bDynamicInstance NewGuid
      w Desc Backup = some r) :
    ∃ (Parent : Nat) (cont : USubstanceGraphInstance) (old : Nat) (inst n2 : FGraphInstance)
        (back : OutputsBack) (cont4 : USubstanceGraphInstance),
      Backup.InstanceParent = some Parent ∧ w.Containers[Parent]? = some cont ∧
      cont.Instance = some old ∧ w.Instances[old]? = some inst ∧
      GiveOutputsBack n2.Outputs inst.Outputs = some back ∧
      RebuildInstance_deleteLoop back.PrevOutputs = some r.Registered ∧
      r.Rebuilt = back.Rebuilt ∧
      r.After.Instances[r.NewInstance]? =
        some { n2 with
          Outputs := back.Outputs
          Inputs := GiveImageInputsBack n2.Inputs
            (inst.Inputs.filter (fun ItInput => !ItInput.IsNumerical)) } ∧
      r.After.Containers[Parent]? = some cont4 ∧ cont4.Instance = some r.NewInstance := by
  unfold RebuildInstance at h
  simp only [Option.bind_eq_bind] at h
  obtain ⟨desc, hdesc, h⟩ := Option.bind_eq_some.mp h
  obtain ⟨Parent, hP, h⟩ := Option.bind_eq_some.mp h
  obtain ⟨cont, hc, h⟩ := Option.bind_eq_some.mp h
  obtain ⟨old, ho, h⟩ := Option.bind_eq_some.mp h
  obtain ⟨inst, hi, h⟩ := Option.bind_eq_some.mp h
  obtain ⟨⟨w1, Notified⟩, hd, h⟩ := Option.bind_eq_some.mp h
  obtain ⟨cont1, hc1, h⟩ := Option.bind_eq_some.mp h
  obtain ⟨⟨w3, NewInstance⟩, hI, h⟩ := Option.bind_eq_some.mp h
  obtain ⟨n, hn, h⟩ := Option.bind_eq_some.mp h
  obtain ⟨back, hb, h⟩ := Option.bind_eq_some.mp h
  obtain ⟨cont3, hc3, h⟩ := Option.bind_eq_some.mp h
  obtain ⟨Registered, hR, h⟩ := Option.bind_eq_some.mp h
  simp only [Option.pure_def, Option.some.injEq] at h
  subst h
  simp only at hn hc3 hb hR
  have hlt : NewInstance < w3.Instances.length := by
    by_contra hge
    rw [List.getElem?_eq_none (by omega)] at hn
    exact absurd hn (by simp)
  have hlt3 : Parent < w3.Containers.length := by
    by_contra hge
    rw [List.getElem?_eq_none (by omega)] at hc3
    exact absurd hc3 (by simp)
  refine ⟨Parent, cont, old, inst, Apply Backup.Preset { n with Desc := some desc }, back,
    { cont3 with Instance := some NewInstance }, hP, hc, ho, hi, hb, hR, rfl, ?_, ?_, rfl⟩
  · simp only
    rw [List.getElem?_set_self hlt]
  · simp only
    rw [List.getElem?_set_self hlt3]

/-- The match of `FindMatchingOutput`, when there is one, is the position of a
candidate with the uid wanted. -/
theorem FindMatchingOutput_loop_some (u : Nat) (l : List FOutputInstance) :
    ∀ (Idx j : Nat), FindMatchingOutput_loop u l Idx = some j →
      Idx ≤ j ∧ ∃ p, l[j - Idx]? = some p ∧ p.Uid = u := by
  induction l with
  | nil => intro Idx j h; simp [FindMatchingOutput_loop] at h
  | cons a rest ih =>
    intro Idx j h
    simp only [FindMatchingOutput_loop] at h
    by_cases hu : u = a.Uid
    · simp only [hu, if_true, Option.some.injEq] at h
      subst h
      exact ⟨le_refl _, a, by simp, hu.symm⟩
    · simp only [hu, if_false] at h
      obtain ⟨hle, p, hp, hpu⟩ := ih (Idx + 1) j h
      refine ⟨by omega, p, ?_, hpu⟩
      have e : j - Idx = (j - (Idx + 1)) + 1 := by omega
      rw [e, List.getElem?_cons_succ]
      exact hp

/-- `FindMatchingOutput` finds nothing exactly when no candidate has the uid
wanted. -/
theorem FindMatchingOutput_loop_none (u : Nat) (l : List FOutputInstance) :
    ∀ (Idx : Nat), FindMatchingOutput_loop u l Idx = none ↔ ∀ q ∈ l, q.Uid ≠ u := by
  induction l with
  | nil => intro Idx; simp [FindMatchingOutput_loop]
  | cons a rest ih =>
    intro Idx
    simp only [FindMatchingOutput_loop]
    by_cases hu : u = a.Uid
    · simp only [hu, if_true, List.mem_cons, forall_eq_or_imp, ne_eq, not_true_eq_false,
        false_and]
      simp
    · simp only [hu, if_false, List.mem_cons, forall_eq_or_imp, ne_eq]
      rw [ih (Idx + 1)]
      constructor
      · intro h
        exact ⟨fun e => hu e.symm, h⟩
      · intro h
        exact h.2

/-- The match of `FindMatchingOutput` in terms of the candidate list. -/
theorem FindMatchingOutput_some (o : FOutputInstance) (l : List FOutputInstance) (j : Nat)
    (h : FindMatchingOutput o l = some j) : ∃ p, l[j]? = some p ∧ p.Uid = o.Uid := by
  obtain ⟨_, p, hp, hu⟩ := FindMatchingOutput_loop_some o.Uid l 0 j h
  exact ⟨p, by simpa using hp, hu⟩

/-- A list is, up to order, one of its elements followed by the others. -/
theorem perm_cons_eraseIdx {α : Type} (l : List α) :
    ∀ (j : Nat) (p : α), l[j]? = some p → List.Perm l (p :: l.eraseIdx j) := by
  induction l with
  | nil => intro j p h; simp at h
  | cons a rest ih =>
    intro j p h
    cases j with
    | zero =>
      simp only [List.getElem?_cons_zero, Option.some.injEq] at h
      subst h
      simp
    | succ j =>
      simp only [List.getElem?_cons_succ] at h
      simp only [List.eraseIdx_cons_succ]
      exact (List.Perm.cons a (ih j p h)).trans (List.Perm.swap p a _)

/-- What `GiveOutputsBack` leaves of the previous outputs, and the uids of the new
outputs, which it keeps. -/
theorem GiveOutputsBack_left (New : List FOutputInstance) :
    ∀ (Prev : List FOutputInstance) (r : OutputsBack), GiveOutputsBack New Prev = some r →
      r.PrevOutputs = PrevLeft New Prev ∧
      r.Outputs.map (fun o => o.Uid) = New.map (fun o => o.Uid) := by
  unfold GiveOutputsBack
  induction New with
  | nil =>
    intro Prev r h
    simp only [GiveOutputsBack_loop, Option.some.injEq] at h
    subst h
    exact ⟨rfl, rfl⟩
  | cons o0 rest ih =>
    intro Prev r h
    simp only [GiveOutputsBack_loop] at h
    cases hm : FindMatchingOutput o0 Prev with
    | none =>
      simp only [hm] at h
      split at h
      · exact absurd h (by simp)
      · rename_i r0 hr0
        cases h
        obtain ⟨h1, h2⟩ := ih Prev r0 hr0
        exact ⟨by simp only [PrevLeft, hm]; exact h1, by simp [h2]⟩
    | some j0 =>
      simp only [hm] at h
      split at h
      · exact absurd h (by simp)
      · rename_i p0 hp0
        split at h
        · exact absurd h (by simp)
        · rename_i t ht
          split at h
          · exact absurd h (by simp)
          · rename_i r0 hr0
            cases h
            obtain ⟨h1, h2⟩ := ih _ r0 hr0
            refine ⟨by simp only [PrevLeft, hm]; exact h1, ?_⟩
            simp [h2, TransferOutput_some _ _ t ht]

/-- Every previous output is either consumed, once, or left. -/
theorem PrevConsumed_perm (New : List FOutputInstance) :
    ∀ (Prev : List FOutputInstance),
      List.Perm Prev (PrevConsumed New Prev ++ PrevLeft New Prev) := by
  induction New with
  | nil => intro Prev; simp [PrevConsumed, PrevLeft]
  | cons o rest ih =>
    intro Prev
    simp only [PrevConsumed, PrevLeft]
    cases hm : FindMatchingOutput o Prev with
    | none => exact ih Prev
    | some j =>
      obtain ⟨p, hp, _⟩ := FindMatchingOutput_some o Prev j hm
      simp only [hp, List.cons_append]
      exact (perm_cons_eraseIdx Prev j p hp).trans (List.Perm.cons p (ih _))

/-- With distinct uids among the previous outputs, the outputs left are the
previous outputs whose uid is the uid of no new output. -/
theorem PrevLeft_mem_iff (New : List FOutputInstance) :
    ∀ (Prev : List FOutputInstance), (Prev.map (fun o => o.Uid)).Nodup →
      ∀ p, p ∈ PrevLeft New Prev ↔ p ∈ Prev ∧ ∀ o ∈ New, o.Uid ≠ p.Uid := by
  induction New with
  | nil => intro Prev _ p; simp [PrevLeft]
  | cons o rest ih =>
    intro Prev hnd p
    simp only [PrevLeft]
    cases hm : FindMatchingOutput o Prev with
    | none =>
      simp only
      rw [ih Prev hnd p]
      have hno := (FindMatchingOutput_loop_none o.Uid Prev 0).mp hm
      constructor
      · rintro ⟨h1, h2⟩
        refine ⟨h1, ?_⟩
        intro x hx
        rcases List.mem_cons.mp hx with e | e
        · subst e
          exact fun e2 => hno p h1 e2.symm
        · exact h2 x e
      · rintro ⟨h1, h2⟩
        exact ⟨h1, fun x hx => h2 x (List.mem_cons_of_mem _ hx)⟩
    | some j =>
      simp only
      obtain ⟨q, hq, hqu⟩ := FindMatchingOutput_some o Prev j hm
      have hperm := perm_cons_eraseIdx Prev j q hq
      have hnd2 : ((q :: Prev.eraseIdx j).map (fun o => o.Uid)).Nodup :=
        (List.Perm.map _ hperm).nodup_iff.mp hnd
      simp only [List.map_cons, List.nodup_cons, List.mem_map, not_exists, not_and] at hnd2
      rw [ih _ hnd2.2 p]
      constructor
      · rintro ⟨h1, h2⟩
        refine ⟨hperm.symm.subset (List.mem_cons_of_mem _ h1), ?_⟩
        intro x hx
        rcases List.mem_cons.mp hx with e | e
        · subst e
          intro e2
          exact hnd2.1 p h1 (by rw [hqu, e2])
        · exact h2 x e
      · rintro ⟨h1, h2⟩
        refine ⟨?_, fun x hx => h2 x (List.mem_cons_of_mem _ hx)⟩
        rcases List.mem_cons.mp (hperm.subset h1) with e | e
        · subst e
          exact absurd hqu.symm (h2 o (List.mem_cons_self _ _))
        · exact e

/-- Writing into a list the element that is already there changes nothing. -/
theorem set_of_getElem? {α : Type} (l : List α) :
    ∀ (k : Nat) (a : α), l[k]? = some a → l.set k a = l := by
  induction l with
  | nil => intro k a h; simp at h
  | cons b rest ih =>
    intro k a h
    cases k with
    | zero =>
      simp only [List.getElem?_cons_zero, Option.some.injEq] at h
      subst h
      rfl
    | succ k =>
      simp only [List.getElem?_cons_succ] at h
      simp only [List.set_cons_succ, ih k a h]

/-- The match of the inner loop of `GiveImageInputsBack`, when there is one, is an
input that is not numerical and has the uid. -/
theorem InputMatch_loop_some (u : Nat) (l : List FInputInstance) :
    ∀ (Idx k : Nat) (m : FInputInstance), InputMatch_loop u l Idx = some (k, m) →
      Idx ≤ k ∧ l[k - Idx]? = some m ∧ m.IsNumerical = false ∧ m.Uid = u := by
  induction l with
  | nil => intro Idx k m h; simp [InputMatch_loop] at h
  | cons a rest ih =>
    intro Idx k m h
    simp only [InputMatch_loop] at h
    have step : InputMatch_loop u rest (Idx + 1) = some (k, m) →
        Idx ≤ k ∧ (a :: rest)[k - Idx]? = some m ∧ m.IsNumerical = false ∧ m.Uid = u := by
      intro h2
      obtain ⟨hle, hk, hm⟩ := ih (Idx + 1) k m h2
      have e : k - Idx = (k - (Idx + 1)) + 1 := by omega
      refine ⟨by omega, ?_, hm⟩
      rw [e, List.getElem?_cons_succ]
      exact hk
    by_cases hn : a.IsNumerical = true
    · simp only [hn, if_true] at h
      exact step h
    · simp only [hn, Bool.false_eq_true, if_false] at h
      by_cases hu : a.Uid = u
      · simp only [hu, if_true, Option.some.injEq, Prod.mk.injEq] at h
        obtain ⟨h1, h2⟩ := h
        subst h1
        subst h2
        exact ⟨le_refl _, by simp, by simpa using hn, hu⟩
      · simp only [hu, if_false] at h
        exact step h

/-- The first input that is not numerical and has the uid is the match of the inner
loop of `GiveImageInputsBack`. -/
theorem InputMatch_loop_first (u : Nat) (l : List FInputInstance) :
    ∀ (Idx k : Nat) (m : FInputInstance), l[k]? = some m → m.IsNumerical = false →
      m.Uid = u →
      (∀ (j : Nat) (i : FInputInstance), j < k → l[j]? = some i →
        i.IsNumerical = true ∨ i.Uid ≠ u) →
      InputMatch_loop u l Idx = some (Idx + k, m) := by
  induction l with
  | nil => intro Idx k m h; simp at h
  | cons a rest ih =>
    intro Idx k m hk hn hu hbefore
    cases k with
    | zero =>
      simp only [List.getElem?_cons_zero, Option.some.injEq] at hk
      subst hk
      simp [InputMatch_loop, hn, hu]
    | succ k =>
      simp only [List.getElem?_cons_succ] at hk
      have h0 := hbefore 0 a (by omega) (by simp)
      have hrest := ih (Idx + 1) k m hk hn hu (fun j i hj hi =>
        hbefore (j + 1) i (by omega) (by simpa using hi))
      have e : Idx + 1 + k = Idx + (k + 1) := by omega
      rw [e] at hrest
      simp only [InputMatch_loop]
      rcases h0 with h0 | h0
      · simp only [h0, if_true]
        exact hrest
      · by_cases hn2 : a.IsNumerical = true
        · simp only [hn2, if_true]
          exact hrest
        · simp only [hn2, Bool.false_eq_true, if_false, h0]
          exact hrest

/-- The position of the match depends on the kinds and the uids only, and the
input matched has the same profile in both lists. -/
theorem InputMatch_loop_profile (u : Nat) (l : List FInputInstance) :
    ∀ (l2 : List FInputInstance) (Idx k : Nat) (m : FInputInstance),
      l.map InputProfile = l2.map InputProfile →
      InputMatch_loop u l Idx = some (k, m) →
      ∃ m2, InputMatch_loop u l2 Idx = some (k, m2) ∧ InputProfile m2 = InputProfile m := by
  induction l with
  | nil => intro l2 Idx k m _ h; simp [InputMatch_loop] at h
  | cons a rest ih =>
    intro l2 Idx k m hp h
    cases l2 with
    | nil => simp at hp
    | cons b rest2 =>
      simp only [List.map_cons, List.cons.injEq] at hp
      obtain ⟨hab, hrest⟩ := hp
      have hnum : a.IsNumerical = b.IsNumerical := congrArg (fun t => t.1) hab
      have huid : a.Uid = b.Uid := congrArg (fun t => t.2.1) hab
      simp only [InputMatch_loop] at h
      simp only [InputMatch_loop, ← hnum, ← huid]
      by_cases hn : a.IsNumerical = true
      · simp only [hn, if_true] at h
        simp only [hn, if_true]
        exact ih rest2 (Idx + 1) k m hrest h
      · simp only [hn, Bool.false_eq_true, if_false] at h
        simp only [hn, Bool.false_eq_true, if_false]
        by_cases hu : a.Uid = u
        · simp only [hu, if_true, Option.some.injEq, Prod.mk.injEq] at h
          obtain ⟨h1, h2⟩ := h
          subst h1
          subst h2
          exact ⟨b, by simp [hu], hab.symm⟩
        · simp only [hu, if_false] at h
          simp only [hu, if_false]
          exact ih rest2 (Idx + 1) k m hrest h

/-- Giving an image input back keeps the profile of the inputs of the new
instance. -/
theorem set_given_back_profile (l : List FInputInstance) (k : Nat) (m p : FInputInstance)
    (h : InputMatch_loop p.Uid l 0 = some (k, m)) :
    (l.set k (ImageInputGivenBack m p)).map InputProfile = l.map InputProfile := by
  obtain ⟨_, hk, hn, hu⟩ := InputMatch_loop_some p.Uid l 0 k m h
  simp only [Nat.sub_zero] at hk
  have e : InputProfile (ImageInputGivenBack m p) = InputProfile m := by
    show (false, p.Uid, m.Desc) = (m.IsNumerical, m.Uid, m.Desc)
    rw [hn, hu]
  rw [List.map_set]
  apply set_of_getElem?
  rw [List.getElem?_map, hk, e]
  rfl

/-- `GiveImageInputsBack` keeps the profile of the inputs of the new instance. -/
theorem GiveImageInputsBack_profile (Prev : List FInputInstance) :
    ∀ (New : List FInputInstance),
      (GiveImageInputsBack New Prev).map InputProfile = New.map InputProfile := by
  induction Prev with
  | nil => intro New; rfl
  | cons a rest ih =>
    intro New
    simp only [GiveImageInputsBack]
    cases hm : InputMatch_loop a.Uid New 0 with
    | none => exact ih New
    | some km =>
      obtain ⟨k, m⟩ := km
      simp only
      rw [ih, set_given_back_profile New k m a hm]

/-- An input of the new instance that is the match of no previous input is left as
it is. -/
theorem GiveImageInputsBack_untouched (Prev : List FInputInstance) :
    ∀ (New : List FInputInstance) (k : Nat),
      (∀ p ∈ Prev, ∀ m, InputMatch_loop p.Uid New 0 ≠ some (k, m)) →
      (GiveImageInputsBack New Prev)[k]? = New[k]? := by
  induction Prev with
  | nil => intro New k _; rfl
  | cons a rest ih =>
    intro New k hno
    simp only [GiveImageInputsBack]
    cases hm : InputMatch_loop a.Uid New 0 with
    | none =>
      exact ih New k (fun p hp m => hno p (List.mem_cons_of_mem _ hp) m)
    | some km =>
      obtain ⟨k0, m0⟩ := km
      simp only
      have hk : k0 ≠ k := by
        intro e
        subst e
        exact hno a (List.mem_cons_self _ _) m0 hm
      rw [ih (New.set k0 (ImageInputGivenBack m0 a)) k ?_, List.getElem?_set_ne hk]
      intro p hp m hpm
      obtain ⟨m2, hm2, _⟩ := InputMatch_loop_profile p.Uid _ New 0 k m
        (set_given_back_profile New k0 m0 a hm) hpm
      exact hno p (List.mem_cons_of_mem _ hp) m2 hm2

/-- The input matched by a previous input that is the last of its uid is, in the
end, what the body of the loop writes for that previous input. -/
theorem GiveImageInputsBack_given (pre : List FInputInstance) :
    ∀ (New post : List FInputInstance) (p : FInputInstance) (k : Nat) (m : FInputInstance),
      (∀ q ∈ post, q.Uid ≠ p.Uid) →
      InputMatch_loop p.Uid New 0 = some (k, m) →
      (GiveImageInputsBack New (pre ++ p :: post))[k]? = some (ImageInputGivenBack m p) := by
  induction pre with
  | nil =>
    intro New post p k m hpost hm
    obtain ⟨_, hk, _, _⟩ := InputMatch_loop_some p.Uid New 0 k m hm
    simp only [Nat.sub_zero] at hk
    have hlt : k < New.length := by
      by_contra hge
      rw [List.getElem?_eq_none (by omega)] at hk
      exact absurd hk (by simp)
    simp only [List.nil_append, GiveImageInputsBack, hm]
    rw [GiveImageInputsBack_untouched post _ k ?_, List.getElem?_set_self hlt]
    intro q hq m2 hq2
    obtain ⟨_, hk2, _, hu2⟩ := InputMatch_loop_some q.Uid _ 0 k m2 hq2
    simp only [Nat.sub_zero] at hk2
    rw [List.getElem?_set_self hlt] at hk2
    cases hk2
    exact hpost q hq hu2.symm
  | cons a rest ih =>
    intro New post p k m hpost hm
    simp only [List.cons_append, GiveImageInputsBack]
    cases ha : InputMatch_loop a.Uid New 0 with
    | none => exact ih New post p k m hpost hm
    | some km =>
      obtain ⟨k0, m0⟩ := km
      simp only
      obtain ⟨m2, hm2, hprof⟩ := InputMatch_loop_profile p.Uid New
        (New.set k0 (ImageInputGivenBack m0 a)) 0 k m
        (set_given_back_profile New k0 m0 a ha).symm hm
      have hd : m2.Desc = m.Desc := congrArg (fun t => t.2.2) hprof
      have e := ih _ post p k m2 hpost hm2
      simp only [ImageInputGivenBack, hd] at e
      exact e

/-- C15, amended. `GiveImageInputsBack` on the inputs `New` of the new instance and
the previous image inputs `Prev`.  For every previous image input `p` that is the
last of its uid among the previous inputs, which is every one of them when their
uids are distinct, the first input `m` of the new instance that is not numerical
and has the uid of `p`, if there is one, ends with the state of `p`, image source
and prepared image, and with the owner of `p`, under its own uid and its own
descriptor.  Every numerical input of the new instance is left as it is, whatever
its uid, and so is every input of the new instance whose uid is the uid of no
previous input. -/
theorem GiveImageInputsBack_spec (New Prev : List FInputInstance)
    (hPrev : ∀ p ∈ Prev, p.IsNumerical = false) :
    (GiveImageInputsBack New Prev).length = New.length ∧
    (∀ (pre post : List FInputInstance) (p : FInputInstance), Prev = pre ++ p :: post →
      (∀ q ∈ post, q.Uid ≠ p.Uid) →
      ∀ (k : Nat) (m : FInputInstance), New[k]? = some m →
      m.IsNumerical = false → m.Uid = p.Uid →
      (∀ (j : Nat) (i : FInputInstance), j < k → New[j]? = some i →
        i.IsNumerical = true ∨ i.Uid ≠ p.Uid) →
      (GiveImageInputsBack New Prev)[k]? =
        some { Uid := m.Uid, Desc := m.Desc, Parent := p.Parent, State := p.State } ∧
      (GiveImageInputsBack New Prev)[k]?.map (fun x => (x.ImageSource, x.ImageInput)) =
        some (p.ImageSource, p.ImageInput)) ∧
    ((Prev.map (fun p => p.Uid)).Nodup → ∀ p ∈ Prev, ∃ pre post, Prev = pre ++ p :: post ∧
      ∀ q ∈ post, q.Uid ≠ p.Uid) ∧
    (∀ (k : Nat) (i : FInputInstance), New[k]? = some i → i.IsNumerical = true →
      (GiveImageInputsBack New Prev)[k]? = some i) ∧
    (∀ (k : Nat) (i : FInputInstance), New[k]? = some i → (∀ p ∈ Prev, p.Uid ≠ i.Uid) →
      (GiveImageInputsBack New Prev)[k]? = some i) := by
  refine ⟨?_, ?_, ?_, ?_, ?_⟩
  · have h := congrArg List.length (GiveImageInputsBack_profile Prev New)
    simpa using h
  · intro pre post p e hpost k m hk hn hu hbefore
    have hp : p ∈ Prev := by rw [e]; simp
    have hm := InputMatch_loop_first p.Uid New 0 k m hk hn hu hbefore
    rw [Nat.zero_add] at hm
    have hres := GiveImageInputsBack_given pre New post p k m hpost hm
    rw [← e] at hres
    have hst : InputState.Image p.ImageSource p.ImageInput = p.State := by
      have hpn := hPrev p hp
      unfold FInputInstance.IsNumerical at hpn
      unfold FInputInstance.ImageSource FInputInstance.ImageInput
      cases hs : p.State with
      | Numerical v => rw [hs] at hpn; exact absurd hpn (by simp)
      | Image a b => rfl
    have he : ImageInputGivenBack m p =
        { Uid := m.Uid, Desc := m.Desc, Parent := p.Parent, State := p.State } := by
      simp only [ImageInputGivenBack, hst, hu]
    rw [hres, he]
    refine ⟨rfl, ?_⟩
    simp only [Option.map_some', FInputInstance.ImageSource, FInputInstance.ImageInput]
  · intro hnd p hp
    obtain ⟨pre, post, e⟩ := List.append_of_mem hp
    refine ⟨pre, post, e, ?_⟩
    intro q hq hqu
    rw [e, List.map_append, List.map_cons] at hnd
    have h2 := (List.nodup_cons.mp (List.nodup_append.mp hnd).2.1).1
    exact h2 (List.mem_map.mpr ⟨q, hq, hqu⟩)
  · intro k i hk hn
    rw [GiveImageInputsBack_untouched Prev New k ?_, hk]
    intro p _ m hm
    obtain ⟨_, hk2, hn2, _⟩ := InputMatch_loop_some p.Uid New 0 k m hm
    simp only [Nat.sub_zero] at hk2
    rw [hk] at hk2
    cases hk2
    rw [hn] at hn2
    exact absurd hn2 (by simp)
  · intro k i hk hno
    rw [GiveImageInputsBack_untouched Prev New k ?_, hk]
    intro p hp m hm
    obtain ⟨_, hk2, _, hu2⟩ := InputMatch_loop_some p.Uid New 0 k m hm
    simp only [Nat.sub_zero] at hk2
    rw [hk] at hk2
    cases hk2
    exact hno p hp hu2.symm

/-- C15, as stated, fails when two previous image inputs have the same uid: of the
previous inputs of uid 1 sourced from image 5 and from image 6, in this order, the
second overwrites what the first gave, and the image input of uid 1 of the new
instance ends with image 6, not with the image 5 of the first previous input. -/
theorem GiveImageInputsBack_repeated_uid :
    prevImageInput.ImageSource = some 5 ∧
    (GiveImageInputsBack newInputs [prevImageInput, imageInput 1 [99] (some 6)]).map
      (fun i => (i.Uid, i.ImageSource)) = [(1, none), (1, some 6), (2, none)] := by
  refine ⟨?_, ?_⟩
  · decide
  · decide

/-- C15, amended, at a concrete run: the previous image input of uid 1 against a
numerical input of uid 1 and the image inputs of uids 1 and 2; the image input of
uid 1 takes the image 5 and keeps its descriptor. -/
theorem GiveImageInputsBack_spec_witness :
    GiveImageInputsBack newInputs [prevImageInput] =
      [numericalInput 1, { imageInput 1 [10] (some 5) with Parent := some 7 },
        imageInput 2 [11] none] ∧
    (GiveImageInputsBack newInputs [prevImageInput])[1]? =
      some { Uid := 1, Desc := imageDesc 1 [10], Parent := some 7,
             State := .Image (some 5) none } ∧
    (GiveImageInputsBack newInputs [prevImageInput])[0]? = some (numericalInput 1) :=
  ⟨by decide,
    ((GiveImageInputsBack_spec newInputs [prevImageInput] (by decide)).2.1
      [] [] prevImageInput rfl (by simp) 1 (imageInput 1 [10] none) rfl rfl rfl
      (by
        intro j i hj hi
        have e : j = 0 := by omega
        subst e
        cases hi
        exact Or.inl rfl)).1,
    (GiveImageInputsBack_spec newInputs [prevImageInput] (by decide)).2.2.2.1
      0 (numericalInput 1) rfl rfl⟩

/-! ## The binding of a container: theorems -/

/-- The constructor aborts on a container that is bound. -/
theorem construct_bound (w : World) (GraphDesc : Option Nat) (c NewGuid : Nat)
    (cont : USubstanceGraphInstance) (hc : w.Containers[c]? = some cont)
    (hb : cont.Instance ≠ none) :
    FGraphInstance.construct w GraphDesc (some c) NewGuid = none := by
  unfold FGraphInstance.construct
  cases GraphDesc with
  | none => rfl
  | some g =>
    simp only [Option.bind_eq_bind, Option.some_bind]
    cases hd : w.Descs[g]? with
    | none => rfl
    | some d =>
      simp only [Option.some_bind]
      cases hp : d.Parent with
      | none => rfl
      | some p =>
        simp only [Option.some_bind]
        cases hpk : w.Packages[p]? with
        | none => rfl
        | some pkg => simp [hc, hb]

/-- What the constructor does to the binding when it returns: the container was
free and is bound to the new instance. -/
theorem construct_binds (w w1 : World) (GraphDesc Parent : Option Nat) (NewGuid n : Nat)
    (h : FGraphInstance.construct w GraphDesc Parent NewGuid = some (w1, n)) :
    ∃ c cont cont1, Parent = some c ∧ w.Containers[c]? = some cont ∧ cont.Instance = none ∧
      w1.Containers[c]? = some cont1 ∧ cont1.Instance = some n := by
  unfold FGraphInstance.construct at h
  simp only [Option.bind_eq_bind, Option.bind_eq_some] at h
  obtain ⟨c, hP, g, _, d, _, p, _, pkg, _, cont, hcont, h⟩ := h
  by_cases hc : cont.Instance = none
  · simp only [hc, ne_eq, not_true_eq_false, if_false, Option.pure_def, Option.some.injEq,
      Prod.mk.injEq] at h
    obtain ⟨hw, hn⟩ := h
    subst hw
    subst hn
    have hlt : c < w.Containers.length := (List.getElem?_eq_some.1 hcont).1
    exact ⟨c, cont, { cont with Instance := some w.Instances.length, Parent := pkg.Parent },
      hP, hcont, hc, by simp [List.getElem?_set_self hlt], rfl⟩
  · simp [hc] at h

/-- The constructor returns when its four checks pass. -/
theorem construct_runs (w : World) (g c p NewGuid : Nat) (d : FGraphDesc)
    (cont : USubstanceGraphInstance) (hd : w.Descs[g]? = some d) (hp : d.Parent = some p)
    (hplt : p < w.Packages.length) (hc : w.Containers[c]? = some cont)
    (hfree : cont.Instance = none) :
    ∃ w1, FGraphInstance.construct w (some g) (some c) NewGuid =
      some (w1, w.Instances.length) := by
  obtain ⟨pkg, hpkg⟩ : ∃ pkg, w.Packages[p]? = some pkg :=
    ⟨w.Packages[p], List.getElem?_eq_getElem hplt⟩
  unfold FGraphInstance.construct
  simp [hd, hp, hpkg, hc, hfree]

/-- What the statements of `RebuildInstance` before `Instantiate` leave: the
descriptors and the packages as they were, the container free. -/
theorem RebuildInstance_unbind_some (w w2 : World) (Parent old : Nat)
    (N : List (Nat × Nat)) (h : RebuildInstance_unbind w Parent old = some (w2, N)) :
    w2.Descs = w.Descs ∧ w2.Packages = w.Packages ∧
    w2.Instances.length = w.Instances.length ∧
    ∃ c2, w2.Containers[Parent]? = some c2 ∧ c2.Instance = none := by
  unfold RebuildInstance_unbind at h
  simp only [Option.bind_eq_bind] at h
  obtain ⟨⟨w1, N1⟩, hd, h⟩ := Option.bind_eq_some.mp h
  obtain ⟨cont1, hc1, h⟩ := Option.bind_eq_some.mp h
  simp only [Option.pure_def, Option.some.injEq, Prod.mk.injEq] at h
  obtain ⟨hw, _⟩ := h
  subst hw
  unfold FGraphInstance.destruct at hd
  simp only [Option.bind_eq_bind] at hd
  obtain ⟨i, hi, hd⟩ := Option.bind_eq_some.mp hd
  simp only [Option.pure_def, Option.some.injEq, Prod.mk.injEq] at hd
  obtain ⟨hw1, _⟩ := hd
  subst hw1
  have hlt : Parent < w.Containers.length := (List.getElem?_eq_some.1 hc1).1
  refine ⟨rfl, rfl, by simp,
    { cont1 with RF_Standalone := true, Instance := none, Parent := none }, ?_, rfl⟩
  simp only
  rw [List.getElem?_set_self hlt]

/-- A run of `RebuildInstance` that returns goes through the statements that free
the container and then through `Instantiate`, called in the world they leave. -/
theorem RebuildInstance_steps (CreateTextures : List FOutputInstance → List FOutputInstance)
    (Apply : preset_t → FGraphInstance → FGraphInstance)
    (bSubscribeInstance bDynamicInstance : Bool) (NewGuid : Nat)
    (w : World) (Desc : Option Nat) (Backup : InstanceBackup) (r : RebuildResult)
    (h : RebuildInstance CreateTextures Apply bSubscribeInstance bDynamicInstance NewGuid
      w Desc Backup = some r) :
    ∃ (desc Parent old : Nat) (cont : USubstanceGraphInstance) (w2 w3 : World),
      Desc = some desc ∧ Backup.InstanceParent = some Parent ∧
      w.Containers[Parent]? = some cont ∧ cont.Instance = some old ∧
      RebuildInstance_unbind w Parent old = some (w2, r.Notified) ∧
      FGraphDesc.Instantiate CreateTextures w2 desc (some Parent) false bSubscribeInstance
        bDynamicInstance NewGuid = some (w3, r.NewInstance) := by
  unfold RebuildInstance at h
  simp only [Option.bind_eq_bind] at h
  obtain ⟨desc, hdesc, h⟩ := Option.bind_eq_some.mp h
  obtain ⟨Parent, hP, h⟩ := Option.bind_eq_some.mp h
  obtain ⟨cont, hc, h⟩ := Option.bind_eq_some.mp h
  obtain ⟨old, ho, h⟩ := Option.bind_eq_some.mp h
  obtain ⟨inst, hi, h⟩ := Option.bind_eq_some.mp h
  obtain ⟨⟨w1, Notified⟩, hd, h⟩ := Option.bind_eq_some.mp h
  obtain ⟨cont1, hc1, h⟩ := Option.bind_eq_some.mp h
  obtain ⟨⟨w3, NewInstance⟩, hI, h⟩ := Option.bind_eq_some.mp h
  obtain ⟨n, hn, h⟩ := Option.bind_eq_some.mp h
  obtain ⟨back, hb, h⟩ := Option.bind_eq_some.mp h
  obtain ⟨cont3, hc3, h⟩ := Option.bind_eq_some.mp h
  obtain ⟨Registered, hR, h⟩ := Option.bind_eq_some.mp h
  simp only [Option.pure_def, Option.some.injEq] at h
  subst h
  refine ⟨desc, Parent, old, cont, _, w3, hdesc, hP, hc, ho, ?_, hI⟩
  unfold RebuildInstance_unbind
  simp only [Option.bind_eq_bind, hd, Option.some_bind]
  simp only at hc1
  simp only [hc1, Option.some_bind, Option.pure_def]

/-! ## Instantiate: theorems -/

/-- `AddUnique` on a list without repetition: the element is there once afterwards,
and what was there is still there. -/
theorem AddUnique_count (l : List Nat) (x : Nat) (hnd : l.Nodup) :
    (AddUnique l x).count x = 1 ∧ ∀ u ∈ l, u ∈ AddUnique l x := by
  unfold AddUnique
  by_cases hx : x ∈ l
  · simp only [hx, if_true]
    exact ⟨List.count_eq_one_of_mem hnd hx, fun u hu => hu⟩
  · simp only [hx, if_false]
    refine ⟨?_, fun u hu => List.mem_append_left _ hu⟩
    rw [List.count_append, List.count_eq_zero_of_not_mem hx]
    simp

/-- The first part of Instantiate, when the checks of the constructor pass, with
its result spelled out. -/
theorem Instantiate_create_runs
    (CreateTextures : List FOutputInstance → List FOutputInstance)
    (w : World) (D c p NewGuid : Nat) (d : FGraphDesc) (cont : USubstanceGraphInstance)
    (bCreateOutputs bDynamicInstance : Bool)
    (hd : w.Descs[D]? = some d) (hp : d.Parent = some p) (hplt : p < w.Packages.length)
    (hc : w.Containers[c]? = some cont) (hfree : cont.Instance = none) :
    ∃ w2 i, FGraphDesc.Instantiate_create CreateTextures w D (some c) bCreateOutputs
        bDynamicInstance NewGuid = some (w2, w.Instances.length) ∧
      w2.Instances = w.Instances ++ [i] ∧
      w2.Descs = w.Descs.set D { d with InstanceUids := AddUnique d.InstanceUids NewGuid } ∧
      w2.Packages = w.Packages ∧
      i.Desc = some D ∧ i.bIsFreezed = (!bDynamicInstance) ∧ i.InstanceGuid = NewGuid := by
  obtain ⟨pkg, hpkg⟩ : ∃ pkg, w.Packages[p]? = some pkg :=
    ⟨w.Packages[p], List.getElem?_eq_getElem hplt⟩
  have hset : ∀ (l : List FGraphInstance) (a b : FGraphInstance),
      (l ++ [a]).set l.length b = l ++ [b] := by
    intro l a b
    simp
  unfold FGraphDesc.Instantiate_create FGraphInstance.construct
  cases bCreateOutputs with
  | true =>
    simp only [Option.bind_eq_bind, Option.some_bind, hd, hp, hpkg, hc, hfree, ne_eq,
      not_true_eq_false, if_false, Option.pure_def, List.getElem?_concat_length, if_true,
      hset]
    exact ⟨_, _, rfl, rfl, rfl, rfl, rfl, rfl, rfl⟩
  | false =>
    simp only [Option.bind_eq_bind, Option.some_bind, hd, hp, hpkg, hc, hfree, ne_eq,
      not_true_eq_false, if_false, Option.pure_def, List.getElem?_concat_length,
      Bool.false_eq_true, hset]
    exact ⟨_, _, rfl, rfl, rfl, rfl, rfl, rfl, rfl⟩

/-- C22. `Instantiate(container, createOutputs, subscribe, dynamic)` on a free
container, for a descriptor with its package, whose live list holds existing
instances and whose identifier set has no repetition: the call returns an instance
whose descriptor pointer is the descriptor and whose frozen flag is `not dynamic`;
afterwards the identifier set of the descriptor holds the identifier of the new
instance exactly once and still holds every identifier it held before; and the
instance is in the live list exactly when `subscribe` was true. -/
theorem Instantiate_spec (CreateTextures : List FOutputInstance → List FOutputInstance)
    (w : World) (D c p NewGuid : Nat) (d : FGraphDesc) (cont : USubstanceGraphInstance)
    (bCreateOutputs bSubscribeInstance bDynamicInstance : Bool)
    (hd : w.Descs[D]? = some d) (hp : d.Parent = some p) (hplt : p < w.Packages.length)
    (hc : w.Containers[c]? = some cont) (hfree : cont.Instance = none)
    (hlive : ∀ x ∈ d.LoadedInstances, x < w.Instances.length)
    (hset : d.InstanceUids.Nodup) :
    ∃ w1 I i d1,
      FGraphDesc.Instantiate CreateTextures w D (some c) bCreateOutputs bSubscribeInstance
        bDynamicInstance NewGuid = some (w1, I) ∧
      w1.Instances[I]? = some i ∧ w1.Descs[D]? = some d1 ∧
      i.Desc = some D ∧ i.bIsFreezed = (!bDynamicInstance) ∧
      d1.InstanceUids.count i.InstanceGuid = 1 ∧
      (∀ u ∈ d.InstanceUids, u ∈ d1.InstanceUids) ∧
      (I ∈ d1.LoadedInstances ↔ bSubscribeInstance = true) := by
  obtain ⟨w2, i, hrun, hI, hD, hP, hdesc, hfr, hguid⟩ :=
    Instantiate_create_runs CreateTextures w D c p NewGuid d cont bCreateOutputs
      bDynamicInstance hd hp hplt hc hfree
  have hDlt : D < w.Descs.length := (List.getElem?_eq_some.1 hd).1
  have hnot : w.Instances.length ∉ d.LoadedInstances := fun hm =>
    absurd (hlive _ hm) (by omega)
  obtain ⟨hcount, hkeep⟩ := AddUnique_count d.InstanceUids NewGuid hset
  have hi2 : w2.Instances[w.Instances.length]? = some i := by
    rw [hI, List.getElem?_concat_length]
  have hd2 : w2.Descs[D]? =
      some { d with InstanceUids := AddUnique d.InstanceUids NewGuid } := by
    rw [hD, List.getElem?_set_self hDlt]
  cases bSubscribeInstance with
  | false =>
    refine ⟨w2, w.Instances.length, i,
      { d with InstanceUids := AddUnique d.InstanceUids NewGuid }, ?_, hi2, hd2, hdesc, hfr,
      by rw [hguid]; exact hcount, hkeep, ?_⟩
    · unfold FGraphDesc.Instantiate
      simp [hrun]
    · simp only [Bool.false_eq_true, iff_false]
      exact hnot
  | true =>
    have hplt2 : p < w2.Packages.length := by rw [hP]; exact hplt
    obtain ⟨pkg, hpkg⟩ : ∃ pkg, w2.Packages[p]? = some pkg :=
      ⟨w2.Packages[p], List.getElem?_eq_getElem hplt2⟩
    have hD2lt : D < w2.Descs.length := by rw [hD]; simpa using hDlt
    refine ⟨{ w2 with
        Descs := w2.Descs.set D
          { d with InstanceUids := AddUnique d.InstanceUids NewGuid,
                   LoadedInstances := d.LoadedInstances ++ [w.Instances.length] }
        Packages := w2.Packages.set p pkg.InstanceSubscribed },
      w.Instances.length, i,
      { d with InstanceUids := AddUnique d.InstanceUids NewGuid,
               LoadedInstances := d.LoadedInstances ++ [w.Instances.length] },
      ?_, hi2, ?_, hdesc, hfr, by rw [hguid]; exact hcount, hkeep, ?_⟩
    · unfold FGraphDesc.Instantiate
      simp only [Option.bind_eq_bind, hrun, Option.some_bind, if_true, FGraphDesc.Subscribe,
        hd2, hi2, hnot, if_false, Subscribe_InstanceUids_eq, hp, hpkg, Option.pure_def]
    · simp only
      rw [List.getElem?_set_self hD2lt]
    · simp

/-- C22 at a concrete world: the subscribing, non-dynamic Instantiate of descriptor
0 on the free container of the fresh world, with the new identifier 7. -/
theorem Instantiate_spec_witness :
    FGraphDesc.Instantiate id freshWorld 0 (some 0) false true false 7 =
      some (subscribedWorld, 0) ∧
    ∃ w1 I i d1,
      FGraphDesc.Instantiate id freshWorld 0 (some 0) false true false 7 = some (w1, I) ∧
      w1.Instances[I]? = some i ∧ w1.Descs[0]? = some d1 ∧
      i.Desc = some 0 ∧ i.bIsFreezed = (!false) ∧
      d1.InstanceUids.count i.InstanceGuid = 1 ∧
      (∀ u ∈ emptyDesc.InstanceUids, u ∈ d1.InstanceUids) ∧
      (I ∈ d1.LoadedInstances ↔ true = true) :=
  ⟨by decide,
    Instantiate_spec id freshWorld 0 0 0 7 emptyDesc freeContainer false true false
      rfl rfl (by decide) rfl rfl (by decide) (by decide)⟩

/-! ## The renderer queue: theorems -/

/-- One push with valid pointers: the graph is forwarded when its package has link
data, and skipped otherwise. -/
theorem Renderer_push_one (getLinkData : Nat → Option Nat) (w : World) (q : List Nat)
    (graph : Nat) (hv : GraphPointersValid w graph = true) :
    Renderer.push getLinkData w q graph =
      some (if HasLinkData getLinkData w graph then q ++ [graph] else q) := by
  unfold GraphPointersValid at hv
  unfold Renderer.push HasLinkData
  cases hg : w.Instances[graph]? with
  | none => simp [hg] at hv
  | some g =>
    simp only [hg] at hv
    cases hdesc : g.Desc with
    | none => simp [hdesc] at hv
    | some desc =>
      simp only [hdesc, Option.some_bind] at hv
      cases hd : w.Descs[desc]? with
      | none => simp [hd] at hv
      | some d =>
        simp only [hd] at hv
        cases hp : d.Parent with
        | none => simp [hp] at hv
        | some p =>
          simp only [hp, Option.some_bind] at hv
          cases hpkg : w.Packages[p]? with
          | none => simp [hpkg] at hv
          | some pkg =>
            simp only [hpkg, Bool.and_eq_true] at hv
            obtain ⟨hf, hc⟩ := hv
            obtain ⟨f, hf⟩ := Option.isSome_iff_exists.mp hf
            obtain ⟨cont, hc⟩ := Option.isSome_iff_exists.mp hc
            obtain ⟨c, hc1, hc2⟩ := Option.bind_eq_some.mp hc
            simp only [Option.bind_eq_bind, Option.some_bind, hdesc, hd, hp, hpkg]
            cases hl : getLinkData p with
            | none => simp [hc1, hc2, hf]
            | some size =>
              by_cases hz : size = 0
              · simp [hz, hc1, hc2, hf]
              · simp [hz]

/-- C23. `Renderer::push(list)` on graph instances whose pointers are valid
returns, and forwards to the backend exactly the instances of the list, in the
order of the list, whose package has link data that is not null and not of size
zero; an instance whose link data is null or empty is skipped, nothing is forwarded
for it, and the instances after it are pushed all the same. -/
theorem Renderer_push_graphs_spec (getLinkData : Nat → Option Nat) (w : World)
    (graphs : List Nat) :
    ∀ (mRendererImpl : List Nat),
      (∀ graph ∈ graphs, GraphPointersValid w graph = true) →
      Renderer.push_graphs getLinkData w graphs mRendererImpl =
        some (mRendererImpl ++ graphs.filter (fun graph => HasLinkData getLinkData w graph)) := by
  induction graphs with
  | nil => intro q _; simp [Renderer.push_graphs]
  | cons g rest ih =>
    intro q hv
    have h1 := Renderer_push_one getLinkData w q g (hv g (List.mem_cons_self _ _))
    have hrest : ∀ graph ∈ rest, GraphPointersValid w graph = true :=
      fun x hx => hv x (List.mem_cons_of_mem _ hx)
    simp only [Renderer.push_graphs, h1]
    rw [ih _ hrest]
    cases hl : HasLinkData getLinkData w g with
    | true => simp [List.filter_cons, hl]
    | false => simp [List.filter_cons, hl]

/-- C23 at a concrete run: of the instances 0, 1 and 2, pushed in this order, the
instance 1 belongs to the package with empty link data and is skipped; 0 and 2 are
forwarded. -/
theorem Renderer_push_graphs_spec_witness :
    Renderer.push_graphs renderLinkData renderWorld [0, 1, 2] [] = some [0, 2] ∧
    Renderer.push_graphs renderLinkData renderWorld [0, 1, 2] [] =
      some ([] ++ [0, 1, 2].filter (fun graph => HasLinkData renderLinkData renderWorld graph)) :=
  ⟨by decide, Renderer_push_graphs_spec renderLinkData renderWorld [0, 1, 2] [] (by decide)⟩

/-! ## The sorted indexes of a descriptor: theorems -/

/-- The loop of the commit functions appends, for the uids in list order, the pairs
of the uid and of its ordinal. -/
theorem commit_loop_spec (Uids : List Nat) :
    ∀ (acc : List (Nat × Nat)), ∃ tail, commit_loop Uids acc = acc ++ tail ∧
      tail.map Prod.fst = Uids ∧ tail.map Prod.snd = List.range' acc.length Uids.length := by
  induction Uids with
  | nil => intro acc; exact ⟨[], by simp [commit_loop], rfl, rfl⟩
  | cons u rest ih =>
    intro acc
    obtain ⟨tail, h1, h2, h3⟩ := ih (acc ++ [(u, acc.length)])
    refine ⟨(u, acc.length) :: tail, ?_, by simp [h2], ?_⟩
    · simp only [commit_loop, h1, List.append_assoc, List.singleton_append]
    · simp [h3, List.range'_succ]

/-- The index that the loop builds from the empty index: as many entries as uids,
each the pair of a uid and of its position in the list, the ordinals being
0, 1, ..., n-1 in this order. -/
theorem commit_loop_nil (Uids : List Nat) :
    (commit_loop Uids []).length = Uids.length ∧
    (commit_loop Uids []).map Prod.snd = List.range Uids.length ∧
    ∀ e ∈ commit_loop Uids [], Uids[e.2]? = some e.1 := by
  obtain ⟨tail, h1, h2, h3⟩ := commit_loop_spec Uids []
  simp only [List.nil_append, List.length_nil] at h1 h3
  rw [h1]
  have hlen : tail.length = Uids.length := by
    have := congrArg List.length h2
    simpa using this
  refine ⟨hlen, by rw [h3, List.range_eq_range'], ?_⟩
  intro e he
  obtain ⟨j, hj⟩ := List.mem_iff_getElem?.mp he
  have hjlt : j < Uids.length := by
    rw [← hlen]
    exact (List.getElem?_eq_some.1 hj).1
  have e1 : (tail.map Prod.fst)[j]? = some e.1 := by
    rw [List.getElem?_map, hj]
    rfl
  have e2 : (tail.map Prod.snd)[j]? = some e.2 := by
    rw [List.getElem?_map, hj]
    rfl
  rw [h3, ← List.range_eq_range', List.getElem?_range hjlt] at e2
  rw [h2] at e1
  have : j = e.2 := Option.some.inj e2
  rw [← this]
  exact e1

/-- The index after the sort: the facts of the loop carried through the
permutation, and the ascending order of the keys. -/
theorem commit_sorted (ArraySort : List (Nat × Nat) → List (Nat × Nat)) (hS : SortsByUid ArraySort)
    (Uids : List Nat) :
    (ArraySort (commit_loop Uids [])).length = Uids.length ∧
    List.Pairwise (fun A B => A.1 ≤ B.1) (ArraySort (commit_loop Uids [])) ∧
    (∀ e ∈ ArraySort (commit_loop Uids []), Uids[e.2]? = some e.1) ∧
    List.Perm ((ArraySort (commit_loop Uids [])).map Prod.snd) (List.range Uids.length) := by
  obtain ⟨hperm, hsorted⟩ := hS (commit_loop Uids [])
  obtain ⟨hlen, hsnd, hent⟩ := commit_loop_nil Uids
  refine ⟨by rw [hperm.length_eq, hlen], ?_, ?_, ?_⟩
  · refine List.Pairwise.imp ?_ hsorted
    intro A B h
    unfold FCompareUIDS at h
    have : ¬ B.1 < A.1 := by simpa using h
    omega
  · intro e he
    exact hent e (hperm.subset he)
  · rw [← hsnd]
    exact List.Perm.map _ hperm

/-- Insertion sort by key keeps the promise of `Sort`. -/
theorem insertionSortByUid_sorts : SortsByUid insertionSortByUid := by
  intro l
  refine ⟨List.perm_insertionSort UidLE l, ?_⟩
  have h := List.sorted_insertionSort UidLE l
  refine List.Pairwise.imp ?_ h
  intro A B hab
  unfold FCompareUIDS
  have : A.1 ≤ B.1 := hab
  simp only [decide_eq_false_iff_not]
  omega

/-- C24. With a `Sort` that sorts by the predicate `FCompareUIDS`: on a descriptor
whose sorted index is empty, `commitOutputs()` returns and changes the index only;
the index then has as many entries as the descriptor list, is ordered by ascending
uid, every entry (uid, ordinal) has `list[ordinal].uid = uid`, and the ordinals are
a permutation of 0..n-1; on a descriptor whose sorted index is not empty it aborts.
The same holds of `commitInputs()` with the input descriptors and the index of the
inputs. -/
theorem commit_spec (ArraySort : List (Nat × Nat) → List (Nat × Nat)) (hS : SortsByUid ArraySort)
    (this : FGraphDesc) :
    (this.SortedOutputs = [] →
      ∃ idx, this.commitOutputs ArraySort = some { this with SortedOutputs := idx } ∧
        idx.length = this.OutputDescs.length ∧
        List.Pairwise (fun A B => A.1 ≤ B.1) idx ∧
        (∀ e ∈ idx, (this.OutputDescs[e.2]?).map (fun o => o.Uid) = some e.1) ∧
        List.Perm (idx.map Prod.snd) (List.range this.OutputDescs.length)) ∧
    (this.SortedOutputs ≠ [] → this.commitOutputs ArraySort = none) ∧
    (this.SortedInputs = [] →
      ∃ idx, this.commitInputs ArraySort = some { this with SortedInputs := idx } ∧
        idx.length = this.InputDescs.length ∧
        List.Pairwise (fun A B => A.1 ≤ B.1) idx ∧
        (∀ e ∈ idx, (this.InputDescs[e.2]?).map (fun i => i.Uid) = some e.1) ∧
        List.Perm (idx.map Prod.snd) (List.range this.InputDescs.length)) ∧
    (this.SortedInputs ≠ [] → this.commitInputs ArraySort = none) := by
  refine ⟨?_, ?_, ?_, ?_⟩
  · intro h0
    obtain ⟨h1, h2, h3, h4⟩ :=
      commit_sorted ArraySort hS (this.OutputDescs.map (fun itOut => itOut.Uid))
    refine ⟨_, ?_, by simpa using h1, h2, ?_, by simpa using h4⟩
    · unfold FGraphDesc.commitOutputs
      simp [h0]
    · intro e he
      have := h3 e he
      rwa [List.getElem?_map] at this
  · intro h0
    unfold FGraphDesc.commitOutputs
    have : this.SortedOutputs.length ≠ 0 := fun hl => h0 (List.length_eq_zero.mp hl)
    simp [this]
  · intro h0
    obtain ⟨h1, h2, h3, h4⟩ :=
      commit_sorted ArraySort hS (this.InputDescs.map (fun itIn => itIn.Uid))
    refine ⟨_, ?_, by simpa using h1, h2, ?_, by simpa using h4⟩
    · unfold FGraphDesc.commitInputs
      simp [h0]
    · intro e he
      have := h3 e he
      rwa [List.getElem?_map] at this
  · intro h0
    unfold FGraphDesc.commitInputs
    have : this.SortedInputs.length ≠ 0 := fun hl => h0 (List.length_eq_zero.mp hl)
    simp [this]

/-- C24 at a concrete descriptor, with insertion sort by key: the outputs of uids
30, 10 and 20 give the index (10, 1), (20, 2), (30, 0), the inputs of uids 2 and 1
the index (1, 1), (2, 0), and a second `commitOutputs()` aborts. -/
theorem commit_spec_witness :
    unsortedDesc.commitOutputs insertionSortByUid =
      some { unsortedDesc with SortedOutputs := [(10, 1), (20, 2), (30, 0)] } ∧
    unsortedDesc.commitInputs insertionSortByUid =
      some { unsortedDesc with SortedInputs := [(1, 1), (2, 0)] } ∧
    (∃ idx, unsortedDesc.commitOutputs insertionSortByUid =
        some { unsortedDesc with SortedOutputs := idx } ∧
      idx.length = unsortedDesc.OutputDescs.length ∧
      List.Pairwise (fun A B => A.1 ≤ B.1) idx ∧
      (∀ e ∈ idx, (unsortedDesc.OutputDescs[e.2]?).map (fun o => o.Uid) = some e.1) ∧
      List.Perm (idx.map Prod.snd) (List.range unsortedDesc.OutputDescs.length)) ∧
    ({ unsortedDesc with SortedOutputs := [(10, 1), (20, 2), (30, 0)] } :
      FGraphDesc).commitOutputs insertionSortByUid = none :=
  ⟨by decide, by decide,
    (commit_spec insertionSortByUid insertionSortByUid_sorts unsortedDesc).1 rfl,
    (commit_spec insertionSortByUid insertionSortByUid_sorts
      { unsortedDesc with SortedOutputs := [(10, 1), (20, 2), (30, 0)] }).2.1 (by decide)⟩

/-! ## Lookups by unique id: theorems -/

/-- C26: a backup labelled `Wood`, without `_INST`, and descriptors of another
package.  The split finds no `_INST` and leaves `Left` empty, so the descriptor
labelled `Wood` is not matched by label: alone it gives null, and after a
descriptor with an empty label it is the empty-labelled one that is returned.  With
the label `Wood_INST` the descriptor labelled `Wood` is matched. -/
theorem FindMatch_label_without_suffix :
    FindMatch_Left plainLabelBackup = "" ∧
    FindMatch (fun a b => a == b) [descOf "pkg://other" "Wood" [20]] plainLabelBackup = none ∧
    FindMatch (fun a b => a == b)
      [descOf "pkg://other" "" [20], descOf "pkg://other" "Wood" [20]] plainLabelBackup =
        some 0 ∧
    FindMatch_Left woodBackup = "Wood" ∧
    FindMatch (fun a b => a == b) [descOf "pkg://other" "Wood" [20]] woodBackup = some 0 := by
  decide

/-- C27: `RebuildInstance` on a container whose instance 0 has an image input and a
numerical input.  The new instance is the instance 1; its numerical input is owned
by the instance 1, and its image input, which took the state of the previous image
input, is owned by the instance 0, the instance that was destroyed.  Both inputs
refer to the input descriptors of the descriptor matched. -/
theorem RebuildInstance_image_input_owner :
    (RebuildInstance id (fun _ i => i) false false 8 imageReimportWorld (some 0)
        woodBackup).map (fun r => r.NewInstance) = some 1 ∧
    (RebuildInstance id (fun _ i => i) false false 8 imageReimportWorld (some 0)
        woodBackup).map (fun r => inputOwners r) =
      some (some [(1, false, some 0), (2, true, some 1)]) ∧
    (RebuildInstance id (fun _ i => i) false false 8 imageReimportWorld (some 0)
        woodBackup).map (fun r => inputDescs r) = some (some twoByTwoDesc.InputDescs) := by
  refine ⟨?_, ?_, ?_⟩
  · decide
  · decide
  · decide

/-! ## Image input updates on a uid that is not an image input: theorems -/

/-- The loop over the input descriptors returns the count it was given and the
state it was given when no descriptor is selected. -/
theorem UpdateInput_descs_none_selected (E : Engine) (sel : FInputDesc → Bool)
    (v : Option Nat) (l : List FInputDesc) :
    ∀ (s : UpdateState) (acc : Int), (∀ d ∈ l, sel d = false) →
      UpdateInput_descs E sel v l s acc = some (acc, s) := by
  induction l with
  | nil => intro s acc _; rfl
  | cons d rest ih =>
    intro s acc h
    simp only [UpdateInput_descs, h d (List.mem_cons_self _ _), Bool.false_eq_true, if_false]
    exact ih s acc (fun x hx => h x (List.mem_cons_of_mem _ hx))

/-- The loop over the input descriptors aborts when a descriptor is selected and
`SetImageInputHelper` aborts, in the state given, on every descriptor selected. -/
theorem UpdateInput_descs_aborts (E : Engine) (sel : FInputDesc → Bool)
    (v : Option Nat) (l : List FInputDesc) :
    ∀ (s : UpdateState) (acc : Int), (∃ d ∈ l, sel d = true) →
      (∀ d ∈ l, sel d = true → SetImageInputHelper E d v s = none) →
      UpdateInput_descs E sel v l s acc = none := by
  induction l with
  | nil => intro s acc h; obtain ⟨d, hd, _⟩ := h; simp at hd
  | cons d rest ih =>
    intro s acc hex hab
    simp only [UpdateInput_descs]
    by_cases hs : sel d = true
    · simp only [hs, if_true, hab d (List.mem_cons_self _ _) hs]
    · simp only [hs, Bool.false_eq_true, if_false]
      refine ih s acc ?_ (fun x hx => hab x (List.mem_cons_of_mem _ hx))
      obtain ⟨x, hx, hsx⟩ := hex
      rcases List.mem_cons.mp hx with e | e
      · subst e
        exact absurd hsx hs
      · exact ⟨x, e, hsx⟩

/-- C29. `UpdateInput(uid, image)` on an instance with a first output whose parent
graph is found, for a uid that is not 0.  When an input descriptor of the graph has
the uid and the input instance that `SetImageInputHelper` locates for it is
numerical, the call does not return: it aborts on the check that the input located
is not numerical.  When no input descriptor of the graph has the uid, the call
returns 0 and the instance, inputs and outputs, the dirty mark of the container and
the record of marked outputs are what they were. -/
theorem UpdateInput_numerical_uid (E : Engine) (s : UpdateState) (g : FGraphDesc)
    (Uid : Nat) (v : Option Nat)
    (hgraph : (s.Instance.Outputs.head?).bind E.GetParentGraph = some g)
    (huid : Uid ≠ 0) :
    (∀ d ∈ g.InputDescs, d.Uid = Uid →
      ∀ (k : Nat) (inp : FInputInstance),
        GetInput_loop Uid s.Instance.Inputs 0 = some (k, inp) → inp.IsNumerical = true →
        SetImageInputHelper E d v s = none ∧ FGraphInstance.UpdateInput E s Uid v = none) ∧
    ((∀ d ∈ g.InputDescs, d.Uid ≠ Uid) →
      FGraphInstance.UpdateInput E s Uid v = some (0, s)) := by
  have hrun : FGraphInstance.UpdateInput E s Uid v =
      UpdateInput_descs E (fun d => d.Uid == Uid) v g.InputDescs s 0 := by
    unfold FGraphInstance.UpdateInput
    cases hO : s.Instance.Outputs with
    | nil => simp [hO] at hgraph
    | cons o0 rest =>
      have hg : E.GetParentGraph o0 = some g := by simpa [hO] using hgraph
      simp only [huid, if_false, hg]
  constructor
  · intro d hd hdu k inp hloc hnum
    have hall : ∀ x ∈ g.InputDescs, (x.Uid == Uid) = true →
        SetImageInputHelper E x v s = none := by
      intro x _ hx
      have hxu : x.Uid = Uid := by simpa using hx
      unfold SetImageInputHelper
      rw [hxu, hloc]
      simp [hnum]
    refine ⟨hall d hd (by simp [hdu]), ?_⟩
    rw [hrun]
    exact UpdateInput_descs_aborts E _ v g.InputDescs s 0 ⟨d, hd, by simp [hdu]⟩ hall
  · intro hno
    rw [hrun]
    exact UpdateInput_descs_none_selected E _ v g.InputDescs s 0
      (fun d hd => by simpa using hno d hd)

/-- C29 at a concrete instance: the graph has one numerical input descriptor, of uid
3, and the instance the numerical input of uid 3; `UpdateInput(3, image)` aborts
and `UpdateInput(4, image)` returns 0 and changes nothing. -/
theorem UpdateInput_numerical_uid_witness :
    FGraphInstance.UpdateInput (engineOf [mkInput 3 false (.Integer 0)])
      (stateOf [numericalInput 3] true) 3 (some 6) = none ∧
    FGraphInstance.UpdateInput (engineOf [mkInput 3 false (.Integer 0)])
      (stateOf [numericalInput 3] true) 4 (some 6) = some (0, stateOf [numericalInput 3] true) :=
  ⟨((UpdateInput_numerical_uid (engineOf [mkInput 3 false (.Integer 0)])
      (stateOf [numericalInput 3] true) (descOfInputs [mkInput 3 false (.Integer 0)]) 3 (some 6)
      (by decide) (by decide)).1 (mkInput 3 false (.Integer 0)) (by decide) rfl 0
      (numericalInput 3) (by decide) (by decide)).2,
    (UpdateInput_numerical_uid (engineOf [mkInput 3 false (.Integer 0)])
      (stateOf [numericalInput 3] true) (descOfInputs [mkInput 3 false (.Integer 0)]) 4 (some 6)
      (by decide) (by decide)).2 (by decide)⟩

/-! ## The import of a JPEG image input: theorems -/

/-- The length of a buffer of less than 2^31 bytes is itself as an `int32`. -/
theorem toInt32_length (n : Nat) (h : n < 2 ^ 31) : toInt32 (n : Int) = (n : Int) := by
  unfold toInt32
  have h1 : ((n : Int) + 2 ^ 31) % 2 ^ 32 = (n : Int) + 2 ^ 31 := by
    apply Int.emod_eq_of_lt
    · positivity
    · have : (n : Int) < 2 ^ 31 := by exact_mod_cast h
      omega
  rw [h1]
  ring

/-- C28. `FactoryCreateBinaryFromJpeg` on a buffer that is not null, of less than
2^31 bytes, with `D`, `W` and `H` the pixel buffer, the width and the height that
the decompression gives: the call returns, and returns no object if and only if
`D` is empty or `W` or `H` is below 16 or above 2048; in every other case it
returns an image input whose `SizeX` and `SizeY` are `W` and `H`, whose compressed
RGB data is the input buffer, byte for byte, and whose `NumComponents`, `CompRGB`
and `CompA` are 3, 1 and 0. -/
theorem FactoryCreateBinaryFromJpeg_spec
    (DecompressJpeg : List Nat → Int → List Nat × Int × Int)
    (SourceFilePath SourceFileTimestamp : FString) (Bytes D : List Nat) (W H : Int)
    (hlen : Bytes.length < 2 ^ 31)
    (hD : DecompressJpeg Bytes (Bytes.length : Int) = (D, W, H)) :
    (FactoryCreateBinaryFromJpeg DecompressJpeg SourceFilePath SourceFileTimestamp
        (some Bytes) = some none ↔
      (D = [] ∨ W < 16 ∨ H < 16 ∨ W > 2048 ∨ H > 2048)) ∧
    (¬ (D = [] ∨ W < 16 ∨ H < 16 ∨ W > 2048 ∨ H > 2048) →
      ∃ ImageInput,
        FactoryCreateBinaryFromJpeg DecompressJpeg SourceFilePath SourceFileTimestamp
          (some Bytes) = some (some ImageInput) ∧
        ImageInput.SizeX = W ∧ ImageInput.SizeY = H ∧
        ImageInput.CompressedImageRGB = Bytes ∧
        ImageInput.NumComponents = 3 ∧ ImageInput.CompRGB = 1 ∧ ImageInput.CompA = 0) := by
  have hL := toInt32_length Bytes.length hlen
  have hnn : ¬ ((Bytes.length : Int) < 0) := by omega
  have htake : Bytes.take (Bytes.length : Int).toNat = Bytes := by simp
  have hrun : FactoryCreateBinaryFromJpeg DecompressJpeg SourceFilePath SourceFileTimestamp
      (some Bytes) =
      if D.length ≤ 0 then some none
      else if W < 16 ∨ H < 16 then some none
      else if W > 2048 ∨ H > 2048 then some none
      else some (some
        { CompressedImageRGB := Bytes,
          SizeX := W, SizeY := H, NumComponents := 3,
          SourceFilePath := SourceFilePath, SourceFileTimestamp := SourceFileTimestamp,
          CompRGB := 1, CompA := 0 }) := by
    unfold FactoryCreateBinaryFromJpeg
    simp only [hL, hD, hnn, if_false, htake]
  have hD0 : D.length ≤ 0 ↔ D = [] := by
    rw [Nat.le_zero, List.length_eq_zero]
  constructor
  · rw [hrun]
    constructor
    · intro h
      by_contra hc
      simp only [not_or] at hc
      obtain ⟨c1, c2, c3, c4, c5⟩ := hc
      have e1 : ¬ D.length ≤ 0 := fun x => c1 (hD0.mp x)
      have e2 : ¬ (W < 16 ∨ H < 16) := fun x => x.elim c2 c3
      have e3 : ¬ (W > 2048 ∨ H > 2048) := fun x => x.elim c4 c5
      simp only [e1, e2, e3, if_false] at h
      exact absurd h (by simp)
    · intro h
      by_cases e1 : D.length ≤ 0
      · simp only [e1, if_true]
      · by_cases e2 : W < 16 ∨ H < 16
        · simp only [e1, e2, if_true, if_false]
        · by_cases e3 : W > 2048 ∨ H > 2048
          · simp only [e1, e2, e3, if_true, if_false]
          · exfalso
            rcases h with h | h | h | h | h
            · exact e1 (hD0.mpr h)
            · exact e2 (Or.inl h)
            · exact e2 (Or.inr h)
            · exact e3 (Or.inl h)
            · exact e3 (Or.inr h)
  · intro hc
    simp only [not_or] at hc
    obtain ⟨c1, c2, c3, c4, c5⟩ := hc
    have e1 : ¬ D.length ≤ 0 := fun x => c1 (hD0.mp x)
    have e2 : ¬ (W < 16 ∨ H < 16) := fun x => x.elim c2 c3
    have e3 : ¬ (W > 2048 ∨ H > 2048) := fun x => x.elim c4 c5
    rw [hrun]
    simp only [e1, e2, e3, if_false]
    exact ⟨_, rfl, rfl, rfl, rfl, rfl, rfl, rfl⟩

/-- C28 at concrete buffers: a buffer decoded as 16 by 200 gives an image input
with the buffer as data, a buffer decoded as 15 by 64 gives no object. -/
theorem FactoryCreateBinaryFromJpeg_spec_witness :
    FactoryCreateBinaryFromJpeg firstBytesDecoder "a.jpg" "t" (some [16, 200, 7]) =
      some (some { CompressedImageRGB := [16, 200, 7], SizeX := 16, SizeY := 200,
                   NumComponents := 3, SourceFilePath := "a.jpg",
                   SourceFileTimestamp := "t", CompRGB := 1, CompA := 0 }) ∧
    (FactoryCreateBinaryFromJpeg firstBytesDecoder "a.jpg" "t" (some [15, 64]) = some none ↔
      (([0, 0, 0, 255] : List Nat) = [] ∨ (15 : Int) < 16 ∨ (64 : Int) < 16 ∨
        (15 : Int) > 2048 ∨ (64 : Int) > 2048)) :=
  ⟨by decide,
    (FactoryCreateBinaryFromJpeg_spec firstBytesDecoder "a.jpg" "t" [15, 64] [0, 0, 0, 255]
      15 64 (by decide) rfl).1⟩

/-! ## Reimport: theorems -/

/-- A call of `Reimport` that starts with the flag down and returns leaves the flag
down. -/
theorem Reimport_flag_down (E : ReimportEngine) (w : World) (Obj : ReimportObject)
    (r : ReimportOutcome) (h : Reimport E w false Obj = some r) :
    r.bIsPerformingReimport = false := by
  have hf : ∀ f, Reimport_factory E w false f = some r → r.bIsPerformingReimport = false := by
    intro f hf
    unfold Reimport_factory at hf
    split at hf
    · exact absurd hf (by simp)
    · split at hf
      · exact absurd hf (by simp)
      · simp only at hf
        split at hf
        · cases hf
          rfl
        · split at hf
          · exact absurd hf (by simp)
          · split at hf
            · exact absurd hf (by simp)
            · split at hf
              · cases hf
                rfl
              · split at hf
                · exact absurd hf (by simp)
                · cases hf
                  rfl
  unfold Reimport at h
  split at h
  · split at h
    · exact absurd h (by simp)
    · split at h
      · cases h
        rfl
      · exact hf _ h
  · exact hf _ h
  · exact absurd h (by simp)

/-- When the import gives a null pointer, the only way for `Reimport` to return,
from the point where the original factory is known, is the test of the instance
counts, before the import: past that test the call does not return. -/
theorem Reimport_factory_null (E : ReimportEngine) (w : World) (flag : Bool) (f : Nat)
    (r : ReimportOutcome) (hnull : (E.StaticImportObject w f).2 = none)
    (h : Reimport_factory E w flag f = some r) :
    r.Result = .Failed ∧ r.After = w ∧ r.bIsPerformingReimport = flag ∧
    ∃ p pkg, E.SubstancePackage f = some p ∧ w.Packages[p]? = some pkg ∧
      pkg.LoadedInstancesCount ≠ E.GetInstanceCount w p := by
  unfold Reimport_factory at h
  split at h
  · exact absurd h (by simp)
  · rename_i p hp
    split at h
    · exact absurd h (by simp)
    · rename_i pkg hpkg
      simp only at h
      split at h
      · rename_i hne
        cases h
        exact ⟨rfl, rfl, rfl, p, pkg, hp, hpkg, hne⟩
      · split at h
        · exact absurd h (by simp)
        · rw [hnull] at h
          exact absurd h (by simp)

/-- C30: `Reimport` of the container 0 of a world whose instances are all loaded.
When the import gives a null pointer the call does not return `Failed`: it
dereferences the null pointer in `NewSubstance->MarkPackageDirty()`, before the
test of `NewSubstance`.  When the import gives an instance factory the call returns
`Succeeded` with the flag down. -/
theorem Reimport_null_import :
    Reimport (reimportEngine none) liveReimportWorld false (.GraphInstance 0) = none ∧
    (Reimport (reimportEngine (some 1)) liveReimportWorld false (.GraphInstance 0)).map
      (fun r => r.Result) = some .Succeeded ∧
    (Reimport (reimportEngine (some 1)) liveReimportWorld false (.GraphInstance 0)).map
      (fun r => r.bIsPerformingReimport) = some false := by
  refine ⟨?_, ?_, ?_⟩
  · decide
  · decide
  · decide

/-! ## Image updates with a repeated uid: theorems -/

/-- C9, as stated, fails when two inputs have the same uid: of two image inputs of
uid 1, the first sourced from image 9 and the second from image 5,
`UpdateInput(0, image 5)` selects the second, and `SetImageInputHelper`, which
locates the input again by the uid of its descriptor, writes the image into the
first: the input sourced from another object is rewritten and the input sourced
from image 5 is left as it was.  The same happens with inputs of uids 1 and 2 when
the second carries a descriptor of uid 1. -/
theorem UpdateInput_reimported_duplicate_uid :
    (stateOf [imageInput 1 [10] (some 9), imageInput 1 [10] (some 5)] false).Instance.Inputs.map
      (fun i => i.State) = [.Image (some 9) none, .Image (some 5) none] ∧
    (FGraphInstance.UpdateInput (engineOf [])
        (stateOf [imageInput 1 [10] (some 9), imageInput 1 [10] (some 5)] false) 0 (some 5)).map
      (fun r => r.2.Instance.Inputs.map (fun i => i.State)) =
        some [.Image (some 5) (some 5), .Image (some 5) none] ∧
    (FGraphInstance.UpdateInput (engineOf [])
        (stateOf [imageInput 1 [10] (some 9),
          { imageInput 2 [10] (some 5) with Desc := imageDesc 1 [10] }] false) 0 (some 5)).map
      (fun r => r.2.Instance.Inputs.map (fun i => (i.Uid, i.State))) =
        some [(1, .Image (some 5) (some 5)), (2, .Image (some 5) none)] := by
  refine ⟨?_, ?_, ?_⟩
  · decide
  · decide
  · decide

/-! ## The teardown of a descriptor with a foreign instance: theorems -/

/-- The first part of Instantiate leaves the containers as the constructor left
them. -/
theorem Instantiate_create_binds
    (CreateTextures : List FOutputInstance → List FOutputInstance)
    (w w2 : World) (D c : Nat) (bCreateOutputs bDynamicInstance : Bool) (NewGuid I : Nat)
    (h : FGraphDesc.Instantiate_create CreateTextures w D (some c) bCreateOutputs
      bDynamicInstance NewGuid = some (w2, I)) :
    ∃ cont1, w2.Containers[c]? = some cont1 ∧ cont1.Instance = some I := by
  unfold FGraphDesc.Instantiate_create at h
  simp only [Option.bind_eq_bind] at h
  obtain ⟨⟨w0, n⟩, hc, h⟩ := Option.bind_eq_some.mp h
  obtain ⟨i, hi, h⟩ := Option.bind_eq_some.mp h
  obtain ⟨d, hd, h⟩ := Option.bind_eq_some.mp h
  simp only [Option.pure_def, Option.some.injEq, Prod.mk.injEq] at h
  obtain ⟨hw, hn⟩ := h
  subst hw
  subst hn
  obtain ⟨c2, cont, cont1, hP, _, _, hc1, hb⟩ := construct_binds w w0 (some D) (some c) NewGuid n hc
  cases hP
  exact ⟨cont1, hc1, hb⟩

/-- Instantiate, when it returns, leaves the container bound to the new instance,
which exists. -/
theorem Instantiate_binds (CreateTextures : List FOutputInstance → List FOutputInstance)
    (w w1 : World) (D c : Nat) (bCreateOutputs bSubscribeInstance bDynamicInstance : Bool)
    (NewGuid I : Nat)
    (h : FGraphDesc.Instantiate CreateTextures w D (some c) bCreateOutputs bSubscribeInstance
      bDynamicInstance NewGuid = some (w1, I)) :
    (∃ cont1, w1.Containers[c]? = some cont1 ∧ cont1.Instance = some I) ∧
    ∃ i, w1.Instances[I]? = some i := by
  obtain ⟨w2, hcreate, hsub⟩ := Instantiate_eq_some CreateTextures w w1 D (some c)
    bCreateOutputs bSubscribeInstance bDynamicInstance NewGuid I h
  obtain ⟨hI, i2, d, d1, _, _, _, hInst, _, _⟩ := Instantiate_create_eq_some CreateTextures
    w w2 D (some c) bCreateOutputs bDynamicInstance NewGuid I hcreate
  have hb := Instantiate_create_binds CreateTextures w w2 D c bCreateOutputs bDynamicInstance
    NewGuid I hcreate
  have hi2 : w2.Instances[I]? = some i2 := by
    rw [hInst, hI, List.getElem?_concat_length]
  cases bSubscribeInstance with
  | false =>
    simp only [Bool.false_eq_true, if_false] at hsub
    subst hsub
    exact ⟨hb, i2, hi2⟩
  | true =>
    simp only [if_true] at hsub
    obtain ⟨_, _, _, _, _, _, _, _, _, _, _, _, _, hI1, _, hC1⟩ :=
      Subscribe_eq_some w2 w1 D I hsub
    rw [hC1, hI1]
    exact ⟨hb, i2, hi2⟩

/-- Instantiate returns when the checks of the constructor pass and the new address
is not in the live list of the descriptor. -/
theorem Instantiate_runs (CreateTextures : List FOutputInstance → List FOutputInstance)
    (w : World) (D c p NewGuid : Nat) (d : FGraphDesc) (cont : USubstanceGraphInstance)
    (bCreateOutputs bSubscribeInstance bDynamicInstance : Bool)
    (hd : w.Descs[D]? = some d) (hp : d.Parent = some p) (hplt : p < w.Packages.length)
    (hc : w.Containers[c]? = some cont) (hfree : cont.Instance = none)
    (hlive : ∀ x ∈ d.LoadedInstances, x < w.Instances.length) :
    ∃ w1, FGraphDesc.Instantiate CreateTextures w D (some c) bCreateOutputs
      bSubscribeInstance bDynamicInstance NewGuid = some (w1, w.Instances.length) := by
  obtain ⟨w2, i, hrun, hI, hD, hP, _, _, _⟩ :=
    Instantiate_create_runs CreateTextures w D c p NewGuid d cont bCreateOutputs
      bDynamicInstance hd hp hplt hc hfree
  have hDlt : D < w.Descs.length := (List.getElem?_eq_some.1 hd).1
  have hnot : w.Instances.length ∉ d.LoadedInstances := fun hm =>
    absurd (hlive _ hm) (by omega)
  have hi2 : w2.Instances[w.Instances.length]? = some i := by
    rw [hI, List.getElem?_concat_length]
  have hd2 : w2.Descs[D]? =
      some { d with InstanceUids := AddUnique d.InstanceUids NewGuid } := by
    rw [hD, List.getElem?_set_self hDlt]
  cases bSubscribeInstance with
  | false =>
    refine ⟨w2, ?_⟩
    unfold FGraphDesc.Instantiate
    simp [hrun]
  | true =>
    have hplt2 : p < w2.Packages.length := by rw [hP]; exact hplt
    obtain ⟨pkg, hpkg⟩ : ∃ pkg, w2.Packages[p]? = some pkg :=
      ⟨w2.Packages[p], List.getElem?_eq_getElem hplt2⟩
    refine ⟨{ w2 with
        Descs := w2.Descs.set D
          { d with InstanceUids := AddUnique d.InstanceUids NewGuid,
                   LoadedInstances := d.LoadedInstances ++ [w.Instances.length] }
        Packages := w2.Packages.set p pkg.InstanceSubscribed }, ?_⟩
    unfold FGraphDesc.Instantiate
    simp only [Option.bind_eq_bind, hrun, Option.some_bind, if_true, FGraphDesc.Subscribe,
      hd2, hi2, hnot, if_false, Subscribe_InstanceUids_eq, hp, hpkg, Option.pure_def]

/-- `GiveOutputsBack` returns when every previous output has a texture. -/
theorem GiveOutputsBack_runs (New : List FOutputInstance) :
    ∀ (Prev : List FOutputInstance), (∀ o ∈ Prev, o.Texture ≠ none) →
      ∃ back, GiveOutputsBack New Prev = some back := by
  unfold GiveOutputsBack
  induction New with
  | nil => intro Prev _; exact ⟨_, rfl⟩
  | cons o rest ih =>
    intro Prev hT
    simp only [GiveOutputsBack_loop]
    cases hm : FindMatchingOutput o Prev with
    | none =>
      obtain ⟨b, hb⟩ := ih Prev hT
      simp only [hb]
      exact ⟨_, rfl⟩
    | some j =>
      obtain ⟨q, hq, _⟩ := FindMatchingOutput_some o Prev j hm
      have hqT : q.Texture ≠ none := hT q (List.getElem?_mem hq)
      obtain ⟨T, hTq⟩ := Option.ne_none_iff_exists'.mp hqT
      obtain ⟨b, hb⟩ := ih (Prev.eraseIdx j) (fun x hx => hT x (List.mem_of_mem_eraseIdx hx))
      have ht : ∃ t, TransferOutput o q = some t := by
        unfold TransferOutput
        simp only [hTq]
        split
        · exact ⟨_, rfl⟩
        · exact ⟨_, rfl⟩
      obtain ⟨t, ht⟩ := ht
      simp only [hq, ht, hb]
      exact ⟨_, rfl⟩

/-- The last loop of `RebuildInstance` returns when every output has a texture. -/
theorem RebuildInstance_deleteLoop_runs (l : List FOutputInstance)
    (hT : ∀ o ∈ l, o.Texture ≠ none) : ∃ R, RebuildInstance_deleteLoop l = some R := by
  induction l with
  | nil => exact ⟨[], rfl⟩
  | cons a rest ih =>
    obtain ⟨R, hR⟩ := ih (fun x hx => hT x (List.mem_cons_of_mem _ hx))
    obtain ⟨T, hTa⟩ := Option.ne_none_iff_exists'.mp (hT a (List.mem_cons_self _ _))
    simp only [RebuildInstance_deleteLoop, hTa, hR]
    split
    · exact ⟨_, rfl⟩
    · exact ⟨_, rfl⟩

/-- The transfer of the outputs and the last loop of `RebuildInstance` return,
whatever the outputs of the new instance, when every previous output has a
texture. -/
theorem outputs_transfer_runs (Prev : List FOutputInstance)
    (hT : ∀ o ∈ Prev, o.Texture ≠ none) (New : List FOutputInstance) :
    ∃ back R, GiveOutputsBack New Prev = some back ∧
      RebuildInstance_deleteLoop back.PrevOutputs = some R := by
  obtain ⟨back, hb⟩ := GiveOutputsBack_runs New Prev hT
  obtain ⟨hleft, _⟩ := GiveOutputsBack_left New Prev back hb
  obtain ⟨R, hR⟩ := RebuildInstance_deleteLoop_runs back.PrevOutputs (by
    intro o ho2
    rw [hleft] at ho2
    exact hT o ((PrevConsumed_perm New Prev).symm.subset (List.mem_append_right _ ho2)))
  exact ⟨back, R, hb, hR⟩

/-- `RebuildInstance` returns on a container that is bound: for a container bound to
an instance, and a descriptor with its package whose live list holds existing
instances, the call returns, and the instance it returns is a new one, whenever the
transfer of the previous outputs and the last loop, which come after `Instantiate`,
return. -/
theorem RebuildInstance_runs (CreateTextures : List FOutputInstance → List FOutputInstance)
    (Apply : preset_t → FGraphInstance → FGraphInstance)
    (bSubscribeInstance bDynamicInstance : Bool) (NewGuid : Nat)
    (w : World) (Backup : InstanceBackup) (desc Parent old p : Nat)
    (cont : USubstanceGraphInstance) (inst : FGraphInstance) (d : FGraphDesc)
    (hP : Backup.InstanceParent = some Parent) (hc : w.Containers[Parent]? = some cont)
    (ho : cont.Instance = some old) (hi : w.Instances[old]? = some inst)
    (hd : w.Descs[desc]? = some d) (hp : d.Parent = some p) (hplt : p < w.Packages.length)
    (hlive : ∀ x ∈ d.LoadedInstances, x < w.Instances.length)
    (hgive : ∀ n : FGraphInstance, ∃ back R,
      GiveOutputsBack (Apply Backup.Preset n).Outputs inst.Outputs = some back ∧
      RebuildInstance_deleteLoop back.PrevOutputs = some R) :
    ∃ r, RebuildInstance CreateTextures Apply bSubscribeInstance bDynamicInstance NewGuid
        w (some desc) Backup = some r ∧ r.NewInstance = w.Instances.length := by
  have hPlt : Parent < w.Containers.length := (List.getElem?_eq_some.1 hc).1
  have hdes : FGraphInstance.destruct w old =
      some ({ w with
        Instances := w.Instances.set old { inst with Outputs := [], Inputs := [], Desc := none } },
        inst.States.map (fun states => (states, inst.InstanceGuid))) := by
    unfold FGraphInstance.destruct
    simp [hi]
  obtain ⟨w3, hI3⟩ := Instantiate_runs CreateTextures
    { w with
      Instances := w.Instances.set old { inst with Outputs := [], Inputs := [], Desc := none }
      Containers := w.Containers.set Parent
        { cont with RF_Standalone := true, Instance := none, Parent := none } }
    desc Parent p NewGuid d
    { cont with RF_Standalone := true, Instance := none, Parent := none }
    false bSubscribeInstance bDynamicInstance hd hp hplt
    (by simp only; rw [List.getElem?_set_self hPlt]) rfl
    (by simpa using hlive)
  obtain ⟨⟨cont3, hc3, _⟩, n, hn⟩ := Instantiate_binds CreateTextures _ w3 desc Parent false
    bSubscribeInstance bDynamicInstance NewGuid _ hI3
  obtain ⟨back, R, hb, hR⟩ := hgive { n with Desc := some desc }
  simp only [List.length_set] at hI3 hn
  unfold RebuildInstance
  simp only [Option.bind_eq_bind, Option.some_bind, hP, hc, ho, hi, hdes, hI3, hn, hb, hc3, hR,
    Option.pure_def]
  exact ⟨_, rfl, rfl⟩

/-- C21. A container is bound to one graph instance at most.  The constructor, and
so `Instantiate`, aborts on a container whose binding is not null; a constructor
that returns found the container free and leaves it bound to the new instance;
a run of `RebuildInstance` that returns started on a bound container, freed it,
called `Instantiate` in the world where the container is free, and leaves the
container bound to the new instance; in the world that the freeing statements
of `RebuildInstance` leave, the constructor returns whenever the descriptor and its
package exist; and `RebuildInstance` itself returns on a bound container, with a
new instance bound to it, whenever the descriptor and its package exist, the live
list of the descriptor holds existing instances, and the transfer of the previous
outputs and the last loop, which come after `Instantiate`, return: its
`Instantiate` call is not stopped by the check of the binding. -/
theorem container_single_binding
    (CreateTextures : List FOutputInstance → List FOutputInstance) :
    (∀ (w : World) (g : Option Nat) (c NewGuid : Nat) (cont : USubstanceGraphInstance),
      w.Containers[c]? = some cont → cont.Instance ≠ none →
      FGraphInstance.construct w g (some c) NewGuid = none ∧
      ∀ (D : Nat) (bCreateOutputs bSubscribeInstance bDynamicInstance : Bool),
        FGraphDesc.Instantiate CreateTextures w D (some c) bCreateOutputs bSubscribeInstance
          bDynamicInstance NewGuid = none) ∧
    (∀ (w w1 : World) (g Parent : Option Nat) (NewGuid n : Nat),
      FGraphInstance.construct w g Parent NewGuid = some (w1, n) →
      ∃ c cont cont1, Parent = some c ∧ w.Containers[c]? = some cont ∧
        cont.Instance = none ∧ w1.Containers[c]? = some cont1 ∧ cont1.Instance = some n) ∧
    (∀ (Apply : preset_t → FGraphInstance → FGraphInstance)
      (bSubscribeInstance bDynamicInstance : Bool) (NewGuid : Nat) (w : World)
      (Desc : Option Nat) (Backup : InstanceBackup) (r : RebuildResult),
      RebuildInstance CreateTextures Apply bSubscribeInstance bDynamicInstance NewGuid
        w Desc Backup = some r →
      ∃ (desc Parent old : Nat) (cont c2 c4 : USubstanceGraphInstance) (w2 w3 : World),
        Desc = some desc ∧ Backup.InstanceParent = some Parent ∧
        w.Containers[Parent]? = some cont ∧ cont.Instance = some old ∧
        RebuildInstance_unbind w Parent old = some (w2, r.Notified) ∧
        w2.Containers[Parent]? = some c2 ∧ c2.Instance = none ∧
        FGraphDesc.Instantiate CreateTextures w2 desc (some Parent) false bSubscribeInstance
          bDynamicInstance NewGuid = some (w3, r.NewInstance) ∧
        r.After.Containers[Parent]? = some c4 ∧ c4.Instance = some r.NewInstance) ∧
    (∀ (w w2 : World) (Parent old desc p NewGuid : Nat) (N : List (Nat × Nat))
      (d : FGraphDesc),
      RebuildInstance_unbind w Parent old = some (w2, N) →
      w.Descs[desc]? = some d → d.Parent = some p → p < w.Packages.length →
      ∃ w3, FGraphInstance.construct w2 (some desc) (some Parent) NewGuid =
        some (w3, w2.Instances.length)) ∧
    (∀ (Apply : preset_t → FGraphInstance → FGraphInstance)
      (bSubscribeInstance bDynamicInstance : Bool) (NewGuid : Nat) (w : World)
      (Backup : InstanceBackup) (desc Parent old p : Nat) (cont : USubstanceGraphInstance)
      (inst : FGraphInstance) (d : FGraphDesc),
      Backup.InstanceParent = some Parent → w.Containers[Parent]? = some cont →
      cont.Instance = some old → w.Instances[old]? = some inst →
      w.Descs[desc]? = some d → d.Parent = some p → p < w.Packages.length →
      (∀ x ∈ d.LoadedInstances, x < w.Instances.length) →
      (∀ n : FGraphInstance, ∃ back R,
        GiveOutputsBack (Apply Backup.Preset n).Outputs inst.Outputs = some back ∧
        RebuildInstance_deleteLoop back.PrevOutputs = some R) →
      ∃ r c4,
        RebuildInstance CreateTextures Apply bSubscribeInstance bDynamicInstance NewGuid
          w (some desc) Backup = some r ∧
        r.NewInstance = w.Instances.length ∧ r.NewInstance ≠ old ∧
        r.After.Containers[Parent]? = some c4 ∧ c4.Instance = some r.NewInstance) := by
  refine ⟨?_, ?_, ?_, ?_, ?_⟩
  · intro w g c NewGuid cont hc hb
    have h0 := construct_bound w g c NewGuid cont hc hb
    refine ⟨h0, ?_⟩
    intro D b1 b2 b3
    have h1 := construct_bound w (some D) c NewGuid cont hc hb
    unfold FGraphDesc.Instantiate FGraphDesc.Instantiate_create
    simp only [Option.bind_eq_bind, h1, Option.none_bind]
  · intro w w1 g Parent NewGuid n h
    exact construct_binds w w1 g Parent NewGuid n h
  · intro Apply bS bD NewGuid w Desc Backup r h
    obtain ⟨desc, Parent, old, cont, w2, w3, hdesc, hP, hc, ho, hu, hI⟩ :=
      RebuildInstance_steps CreateTextures Apply bS bD NewGuid w Desc Backup r h
    obtain ⟨_, _, _, c2, hc2, hfree⟩ := RebuildInstance_unbind_some w w2 Parent old _ hu
    obtain ⟨Parent2, _, _, _, _, _, c4, hP2, _, _, _, _, _, _, _, hc4, hb4⟩ :=
      RebuildInstance_eq_some CreateTextures Apply bS bD NewGuid w Desc Backup r h
    rw [hP] at hP2
    cases hP2
    exact ⟨desc, Parent, old, cont, c2, c4, w2, w3, hdesc, hP, hc, ho, hu, hc2, hfree, hI,
      hc4, hb4⟩
  · intro w w2 Parent old desc p NewGuid N d hu hd hp hplt
    obtain ⟨hD, hPk, _, c2, hc2, hfree⟩ := RebuildInstance_unbind_some w w2 Parent old N hu
    exact construct_runs w2 desc Parent p NewGuid d c2 (by rw [hD]; exact hd) hp
      (by rw [hPk]; exact hplt) hc2 hfree
  · intro Apply bS bD NewGuid w Backup desc Parent old p cont inst d hP hc ho hi hd hp hplt
      hlive hT
    obtain ⟨r, hr, hnew⟩ := RebuildInstance_runs CreateTextures Apply bS bD NewGuid w Backup
      desc Parent old p cont inst d hP hc ho hi hd hp hplt hlive hT
    obtain ⟨Parent2, _, _, _, _, _, c4, hP2, _, _, _, _, _, _, _, hc4, hb4⟩ :=
      RebuildInstance_eq_some CreateTextures Apply bS bD NewGuid w (some desc) Backup r hr
    rw [hP] at hP2
    cases hP2
    have holt : old < w.Instances.length := (List.getElem?_eq_some.1 hi).1
    exact ⟨r, c4, hr, hnew, by omega, hc4, hb4⟩

/-- C21 at concrete worlds: the constructor aborts on the bound container of
`looseWorld`; `RebuildInstance` on the bound container of `reimportWorld` goes
through a world where the container is free; and `RebuildInstance` returns on the
bound container of `imageReimportWorld`, with the new instance 1 bound to it. -/
theorem container_single_binding_witness :
    FGraphInstance.construct looseWorld (some 0) (some 0) 8 = none ∧
    (∃ (desc Parent old : Nat) (cont c2 c4 : USubstanceGraphInstance) (w2 w3 : World),
      (some 0 : Option Nat) = some desc ∧ woodBackup.InstanceParent = some Parent ∧
      reimportWorld.Containers[Parent]? = some cont ∧ cont.Instance = some old ∧
      RebuildInstance_unbind reimportWorld Parent old = some (w2, []) ∧
      w2.Containers[Parent]? = some c2 ∧ c2.Instance = none ∧
      FGraphDesc.Instantiate id w2 desc (some Parent) false false false 8 = some (w3, 1) ∧
      reimportedWorld.Containers[Parent]? = some c4 ∧ c4.Instance = some 1) ∧
    (∃ r c4,
      RebuildInstance id (fun _ i => i) false false 8 imageReimportWorld (some 0)
        woodBackup = some r ∧
      r.NewInstance = imageReimportWorld.Instances.length ∧ r.NewInstance ≠ 0 ∧
      r.After.Containers[0]? = some c4 ∧ c4.Instance = some r.NewInstance) :=
  ⟨((container_single_binding id).1 looseWorld (some 0) 0 8
      { freeContainer with Instance := some 0, Parent := some 0 } rfl (by decide)).1,
    (container_single_binding id).2.2.1 (fun _ i => i) false false 8 reimportWorld (some 0)
      woodBackup
      { After := reimportedWorld, NewInstance := 1, Notified := [], Registered := [1],
        Rebuilt := [] } (by decide),
    (container_single_binding id).2.2.2.2 (fun _ i => i) false false 8 imageReimportWorld
      woodBackup 0 0 0 0 { freeContainer with Instance := some 0, Parent := some 0 }
      { looseInstance with
        Outputs := [outputA], Inputs := [imageInput 1 [10] (some 5), numericalInput 2] }
      twoByTwoDesc rfl rfl rfl rfl rfl rfl (by decide) (by decide)
      (fun n => outputs_transfer_runs [outputA] (by decide) n.Outputs)⟩

end Substance
